import Mathlib

/-!
# SuperStitch stage controller (stageTranslationFiles/translate.cpp)

A shallow embedding of `stageTranslationFiles/translate.cpp`: the state-machine
loop of `main`, the start of `main` before the loop, and `sig_handler`, with the
enumeration of `common.h`.

Conventions of the embedding

* `uint32_t` variables are natural numbers; every `++`, `--` and product is
  taken modulo `2^32` explicitly.
* One iteration of `while(1)` is one `tick`.  What the iteration reads from the
  outside (the text files and the monotonic clock) is the `Input` of the tick.
* Every `GPIO::setValue`, every line that reaches `position_file.txt` or
  `timing.txt`, and every `system` call is appended to the `trace` of the
  controller state, in program order.
* `usleep` and the console output (`cout`) are not part of the model.
* `while` loops carry a fuel argument; for each loop the fuel used by the tick
  is proved sufficient (the loop condition is false at exit).
-/

namespace SuperStitch

/-! ## common.h -/

/-- The enumeration `MOTOR_TURN` of `common.h`. -/
inductive MOTOR_TURN where
  | IDLE
  | READY
  | POSITIVE_X
  | NEGATIVE_X
  | POSITIVE_Y
  | NEGATIVE_Y
  | REWIND
  deriving DecidableEq, Repr

open MOTOR_TURN

/-! ## Constants of `main` -/

/-- Number of values of a `uint32_t`. -/
def UINT32 : Nat := 4294967296

/-- The constant `MAX_X_POSITION` (translate.cpp line 77). -/
def MAX_X_POSITION : Nat := 7000

/-- The constant `MAX_Y_POSITION` (translate.cpp line 81). -/
def MAX_Y_POSITION : Nat := 300

/-- The constant `MOD_NUM` (translate.cpp line 91). -/
def MOD_NUM : Nat := 100

/-! ## GPIO lines, files, events -/

/-- The eight static `GPIO` objects of translate.cpp (lines 24-32). -/
inductive Pin where
  | optoY
  | pulY
  | dirY
  | enaY
  | optoX
  | pulX
  | dirX
  | enaX
  deriving DecidableEq, Repr

/-- Current level of each of the eight lines; `true` is `GPIO::HIGH`. -/
structure Lines where
  optoY : Bool
  pulY : Bool
  dirY : Bool
  enaY : Bool
  optoX : Bool
  pulX : Bool
  dirX : Bool
  enaX : Bool
  deriving DecidableEq, Repr

/-- Level of one line. -/
def Lines.get (l : Lines) : Pin → Bool
  | Pin.optoY => l.optoY
  | Pin.pulY => l.pulY
  | Pin.dirY => l.dirY
  | Pin.enaY => l.enaY
  | Pin.optoX => l.optoX
  | Pin.pulX => l.pulX
  | Pin.dirX => l.dirX
  | Pin.enaX => l.enaX

/-- Write one line. -/
def Lines.set (l : Lines) (pin : Pin) (v : Bool) : Lines :=
  match pin with
  | Pin.optoY => { l with optoY := v }
  | Pin.pulY => { l with pulY := v }
  | Pin.dirY => { l with dirY := v }
  | Pin.enaY => { l with enaY := v }
  | Pin.optoX => { l with optoX := v }
  | Pin.pulX => { l with pulX := v }
  | Pin.dirX => { l with dirX := v }
  | Pin.enaX => { l with enaX := v }

/-- State of a `std::fstream` as far as it decides whether an inserted line
reaches the file: not associated with a file (`closed`), associated and good
(`good`), or associated with `failbit` set (`failed`, the result of calling
`open` on a stream that is already open).  An insertion reaches the file only
in state `good`. -/
inductive FStream where
  | closed
  | good
  | failed
  deriving DecidableEq, Repr

/-- The call `fstream::open` on an existing file: a closed stream becomes good
(the error state is cleared on success); on a stream that is already open the
call fails and sets `failbit`. -/
def fstream_open : FStream → FStream
  | FStream.closed => FStream.good
  | FStream.good => FStream.failed
  | FStream.failed => FStream.failed

/-- The call `fstream::close`: afterwards no file is associated. -/
def fstream_close : FStream → FStream
  | _ => FStream.closed

/-- Whether an insertion into the stream reaches the file. -/
def FStream.writable : FStream → Bool
  | FStream.good => true
  | _ => false

/-- A reading of `clock_gettime(CLOCK_MONOTONIC, ...)`. -/
structure timespec where
  tv_sec : Int
  tv_nsec : Int
  deriving DecidableEq, Repr

/-- Observable actions of the controller, in program order. -/
inductive Event where
  /-- A call `pin.setValue(v)`. -/
  | setValue (pin : Pin) (v : Bool)
  /-- A line `x y` that reached `position_file.txt`. -/
  | positionLine (x y : Nat)
  /-- A line that reached `timing.txt`: the elapsed time computed from the
  two clock readings `start` and `stop`. -/
  | timingLine (start stop : timespec)
  /-- The call `system("./run_camera.sh <size> <imgFileName> &")`. -/
  | run_camera (size : Int) (imgFileName : String)
  /-- The call `system("./time_scp.sh")`. -/
  | time_scp
  deriving DecidableEq, Repr

/-! ## Controller state and tick input -/

/-- The local variables of `main` that live across iterations of the loop,
the line levels, the two log streams and the trace of observable actions. -/
structure Ctl where
  motor_state : MOTOR_TURN
  next_x_motor_state : MOTOR_TURN
  /-- A `uint32_t`. -/
  x_position : Nat
  /-- A `uint32_t`. -/
  y_position : Nat
  /-- A `uint32_t`. -/
  num_comp_rows : Nat
  /-- A `uint32_t`. -/
  NUM_ROWS : Nat
  /-- A `uint32_t`. -/
  Y_REWIND : Nat
  com : Int
  size : Int
  imgFileName : String
  start : timespec
  lines : Lines
  positionFile : FStream
  timeInfo : FStream
  trace : List Event
  deriving DecidableEq, Repr

/-- What one iteration of the loop obtains from outside the program.

An extraction `file >> v` either stores a value in `v` (`some`) or leaves `v`
untouched (`none`, for instance when the file is empty).  `com1` is the first
extraction from `command_file.txt` in the iteration and `com2` the second one
(only POSITIVE_X and POSITIVE_Y read twice); `size` and `fileName` are read by
READY only.  `clk1`, `clk2`, `clk3` are the successive clock readings of the
iteration.  The file name is assumed to fit the 50 byte buffer
`camBashCommand` once formatted. -/
structure Input where
  size : Option Int
  com1 : Option Int
  com2 : Option Int
  fileName : Option String
  clk1 : timespec
  clk2 : timespec
  clk3 : timespec
  deriving DecidableEq, Repr

/-! ## Primitive statements -/

/-- The call `pin.setValue(v)`. -/
def setValue (pin : Pin) (v : Bool) (s : Ctl) : Ctl :=
  { s with lines := s.lines.set pin v, trace := s.trace ++ [Event.setValue pin v] }

/-- The statements `commandInFile.open; commandInFile >> com; commandInFile.close`. -/
def readCommand (r : Option Int) (s : Ctl) : Ctl :=
  match r with
  | some v => { s with com := v }
  | none => s

/-- The statements `sizeInFile.open; sizeInFile >> size; sizeInFile.close`. -/
def readSize (r : Option Int) (s : Ctl) : Ctl :=
  match r with
  | some v => { s with size := v }
  | none => s

/-- The statements `fileNameFile.open; fileNameFile >> imgFileName; fileNameFile.close`. -/
def readFileName (r : Option String) (s : Ctl) : Ctl :=
  match r with
  | some v => { s with imgFileName := v }
  | none => s

/-- The statement `positionFile << x_position << " " << y_position << endl`. -/
def positionWrite (s : Ctl) : Ctl :=
  if s.positionFile.writable then
    { s with trace := s.trace ++ [Event.positionLine s.x_position s.y_position] }
  else s

/-- The statements `clock_gettime(CLOCK_MONOTONIC, &end); difference = ...;
timeInfo << difference << endl`, where `t` is the clock reading. -/
def timingWrite (t : timespec) (s : Ctl) : Ctl :=
  if s.timeInfo.writable then
    { s with trace := s.trace ++ [Event.timingLine s.start t] }
  else s

/-- The pulse primitive `pul.setValue(HIGH); usleep; pul.setValue(LOW); usleep`. -/
def pulse (pin : Pin) (s : Ctl) : Ctl :=
  setValue pin false (setValue pin true s)

/-- A `while (cond) body` loop, run for at most `fuel` iterations. -/
def whileLoop (cond : Ctl → Bool) (body : Ctl → Ctl) : Nat → Ctl → Ctl
  | 0, s => s
  | fuel + 1, s => if cond s then whileLoop cond body fuel (body s) else s

/-- A loop `for (int i = 0; i < n; i++) body` whose body does not use `i`. -/
def forLoop (body : Ctl → Ctl) : Nat → Ctl → Ctl
  | 0, s => s
  | n + 1, s => forLoop body n (body s)

/-! ## The seven cases of the switch -/

/-- The statements `NUM_ROWS = n; Y_REWIND = MAX_Y_POSITION * NUM_ROWS`. -/
def setRows (n : Nat) (s : Ctl) : Ctl :=
  let s1 := { s with NUM_ROWS := n }
  { s1 with Y_REWIND := (MAX_Y_POSITION * s1.NUM_ROWS) % UINT32 }

/-- Lines 230-240: derive `NUM_ROWS` and `Y_REWIND` from `size`. -/
def deriveRows (s : Ctl) : Ctl :=
  if s.size ≠ -1 then
    let s1 := if s.size = 1 then setRows 10 s else s
    if s1.size = 2 then setRows 20 s1 else s1
  else s

/-- Lines 249-264: the start branch of READY. -/
def readyStart (i : Input) (s : Ctl) : Ctl :=
  if s.com = 0 then
    let s1 := readFileName i.fileName s
    let s2 := { s1 with trace := s1.trace ++ [Event.run_camera s1.size s1.imgFileName] }
    { s2 with motor_state := POSITIVE_X, start := i.clk1, timeInfo := fstream_open s2.timeInfo }
  else s

/-- Lines 215-268: `case READY`. -/
def tickREADY (i : Input) (s : Ctl) : Ctl :=
  let s1 := setValue Pin.enaY false (setValue Pin.enaX false s)
  let s2 := deriveRows (readSize i.size s1)
  readyStart i (readCommand i.com1 s2)

/-- Lines 270-294: `case IDLE`. -/
def tickIDLE (i : Input) (s : Ctl) : Ctl :=
  let s1 := { s with positionFile := fstream_close s.positionFile,
                     timeInfo := fstream_close s.timeInfo }
  let s2 := setValue Pin.enaY false (setValue Pin.enaX false s1)
  let s3 := readCommand i.com1 s2
  if s3.com = 2 then { s3 with motor_state := REWIND } else s3

/-- Lines 296-318: entry of POSITIVE_X up to the pulse loop. -/
def posXEntry (i : Input) (s : Ctl) : Ctl :=
  let s1 := setValue Pin.enaY false s
  let s2 := setValue Pin.enaX true s1
  let s3 := setValue Pin.dirX false s2
  timingWrite i.clk1 (readCommand i.com1 s3)

/-- Line 320: the condition `x_position < MAX_X_POSITION`. -/
def posXCond (s : Ctl) : Bool := decide (s.x_position < MAX_X_POSITION)

/-- Lines 321-329: body of the POSITIVE_X pulse loop. -/
def posXBody (s : Ctl) : Ctl :=
  let s1 := pulse Pin.pulX s
  let s2 := { s1 with x_position := (s1.x_position + 1) % UINT32 }
  if s2.x_position % MOD_NUM = 0 then positionWrite s2 else s2

/-- Lines 320-330: the POSITIVE_X pulse loop.  At most `MAX_X_POSITION`
iterations can run, since each one increases `x_position` below that limit. -/
def posXSweep (s : Ctl) : Ctl :=
  whileLoop posXCond posXBody MAX_X_POSITION s

/-- Lines 344-353: the row-completed branch of POSITIVE_X. -/
def posXRow (s : Ctl) : Ctl :=
  if s.x_position = MAX_X_POSITION ∧ s.num_comp_rows < s.NUM_ROWS then
    let s1 := { s with num_comp_rows := (s.num_comp_rows + 1) % UINT32,
                       motor_state := POSITIVE_Y }
    let s2 := if s1.com = 1 then { s1 with motor_state := IDLE } else s1
    { s2 with next_x_motor_state := NEGATIVE_X }
  else s

/-- Lines 355-368: the raster-complete branch of POSITIVE_X. -/
def posXComplete (i : Input) (s : Ctl) : Ctl :=
  if s.num_comp_rows = s.NUM_ROWS then
    let s1 := timingWrite i.clk3 { s with motor_state := IDLE }
    let s2 := { s1 with timeInfo := fstream_close s1.timeInfo }
    { s2 with trace := s2.trace ++ [Event.time_scp] }
  else s

/-- Lines 332-372: what POSITIVE_X does after the pulse loop. -/
def posXExit (i : Input) (s : Ctl) : Ctl :=
  let s1 := readCommand i.com2 (timingWrite i.clk2 s)
  setValue Pin.enaX false (posXComplete i (posXRow s1))

/-- Lines 296-374: `case POSITIVE_X`. -/
def tickPOSITIVE_X (i : Input) (s : Ctl) : Ctl :=
  posXExit i (posXSweep (posXEntry i s))

/-- Lines 378-397: entry of NEGATIVE_X up to the pulse loop. -/
def negXEntry (i : Input) (s : Ctl) : Ctl :=
  let s1 := setValue Pin.enaY false s
  let s2 := setValue Pin.enaX true s1
  let s3 := readCommand i.com1 s2
  let s4 := setValue Pin.dirX true s3
  timingWrite i.clk1 s4

/-- Lines 400 and 558: the condition `x_position > 0`. -/
def negXCond (s : Ctl) : Bool := decide (s.x_position > 0)

/-- Lines 401-411: body of the NEGATIVE_X pulse loop. -/
def negXBody (s : Ctl) : Ctl :=
  let s1 := pulse Pin.pulX s
  let s2 := { s1 with x_position := (s1.x_position + UINT32 - 1) % UINT32 }
  if s2.x_position % MOD_NUM = 0 then positionWrite s2 else s2

/-- Lines 400-412: the NEGATIVE_X pulse loop.  Each iteration decreases
`x_position`, so its entry value bounds the number of iterations. -/
def negXSweep (s : Ctl) : Ctl :=
  whileLoop negXCond negXBody s.x_position s

/-- Lines 414-433: what NEGATIVE_X does after the pulse loop. -/
def negXExit (i : Input) (s : Ctl) : Ctl :=
  let s1 := timingWrite i.clk2 s
  let s2 := if s1.x_position = 0 then
      let t1 := { s1 with motor_state := POSITIVE_Y, next_x_motor_state := POSITIVE_X }
      if t1.com = 1 then { t1 with motor_state := IDLE } else t1
    else s1
  setValue Pin.enaX false s2

/-- Lines 376-435: `case NEGATIVE_X`. -/
def tickNEGATIVE_X (i : Input) (s : Ctl) : Ctl :=
  negXExit i (negXSweep (negXEntry i s))

/-- Lines 439-458: entry of POSITIVE_Y up to the pulse loop. -/
def posYEntry (i : Input) (s : Ctl) : Ctl :=
  let s1 := setValue Pin.enaX false s
  let s2 := setValue Pin.enaY true s1
  let s3 := setValue Pin.dirY false s2
  timingWrite i.clk1 (readCommand i.com1 s3)

/-- Lines 462-471: body of the POSITIVE_Y pulse loop. -/
def posYBody (s : Ctl) : Ctl :=
  let s1 := pulse Pin.pulY s
  let s2 := { s1 with y_position := (s1.y_position + 1) % UINT32 }
  if s2.y_position % MOD_NUM = 0 then positionWrite s2 else s2

/-- Lines 460-472: the POSITIVE_Y pulse loop. -/
def posYStep (s : Ctl) : Ctl :=
  forLoop posYBody MAX_Y_POSITION s

/-- Lines 474-499: what POSITIVE_Y does after the pulse loop. -/
def posYExit (i : Input) (s : Ctl) : Ctl :=
  let s1 := timingWrite i.clk2 (readCommand i.com2 s)
  let s2 := { s1 with motor_state := s1.next_x_motor_state }
  let s3 := if s2.y_position = s2.Y_REWIND then
      let t1 := { s2 with motor_state := IDLE }
      if t1.com = 1 then { t1 with motor_state := IDLE } else t1
    else s2
  setValue Pin.enaY false s3

/-- Lines 437-500: `case POSITIVE_Y`. -/
def tickPOSITIVE_Y (i : Input) (s : Ctl) : Ctl :=
  posYExit i (posYStep (posYEntry i s))

/-- Lines 502-521: `case NEGATIVE_Y`. -/
def tickNEGATIVE_Y (s : Ctl) : Ctl :=
  let s1 := setValue Pin.enaX false s
  let s2 := setValue Pin.enaY true s1
  let s3 := setValue Pin.dirY true s2
  let s4 := pulse Pin.pulY s3
  { s4 with y_position := (s4.y_position + UINT32 - 1) % UINT32 }

/-- Lines 529-533: entry of REWIND. -/
def rewindEntry (s : Ctl) : Ctl :=
  let s1 := setValue Pin.enaX false s
  let s2 := setValue Pin.enaY true s1
  setValue Pin.dirY true s2

/-- Lines 538-544: body of the inner Y loop of REWIND. -/
def rewindYBody (s : Ctl) : Ctl :=
  let s1 := pulse Pin.pulY s
  if s1.y_position % MOD_NUM = 0 then positionWrite s1 else s1

/-- Lines 535-549: the nested Y loops of REWIND.  The outer loop compares the
`int` counter with the `uint32_t` `NUM_ROWS`; it runs `NUM_ROWS` times (for
`NUM_ROWS` up to `INT_MAX`, beyond which the counter would overflow). -/
def rewindYTrain (s : Ctl) : Ctl :=
  forLoop (forLoop rewindYBody MAX_Y_POSITION) s.NUM_ROWS s

/-- Lines 552-557: switch from the Y driver to the X driver. -/
def rewindSwitch (s : Ctl) : Ctl :=
  let s1 := setValue Pin.enaY false s
  let s2 := setValue Pin.enaX true s1
  setValue Pin.dirX true s2

/-- Lines 559-563: body of the X loop of REWIND. -/
def rewindXBody (s : Ctl) : Ctl :=
  let s1 := pulse Pin.pulX s
  { s1 with x_position := (s1.x_position + UINT32 - 1) % UINT32 }

/-- Lines 558-564: the X loop of REWIND. -/
def rewindXTrain (s : Ctl) : Ctl :=
  whileLoop negXCond rewindXBody s.x_position s

/-- Lines 568-578: force all lines low and go to READY. -/
def rewindExit (s : Ctl) : Ctl :=
  let s1 := setValue Pin.optoX false s
  let s2 := setValue Pin.pulX false s1
  let s3 := setValue Pin.dirX false s2
  let s4 := setValue Pin.enaX false s3
  let s5 := setValue Pin.optoY false s4
  let s6 := setValue Pin.pulY false s5
  let s7 := setValue Pin.dirY false s6
  let s8 := setValue Pin.enaY false s7
  { s8 with motor_state := READY }

/-- Lines 523-584: `case REWIND`. -/
def tickREWIND (s : Ctl) : Ctl :=
  rewindExit (rewindXTrain (rewindSwitch (rewindYTrain (rewindEntry s))))

/-- Lines 211-594: one iteration of `while(1)`. -/
def tick (i : Input) (s : Ctl) : Ctl :=
  match s.motor_state with
  | READY => tickREADY i s
  | IDLE => tickIDLE i s
  | POSITIVE_X => tickPOSITIVE_X i s
  | NEGATIVE_X => tickNEGATIVE_X i s
  | POSITIVE_Y => tickPOSITIVE_Y i s
  | NEGATIVE_Y => tickNEGATIVE_Y s
  | REWIND => tickREWIND s

/-- The loop run for as many iterations as there are inputs. -/
def run (s : Ctl) : List Input → Ctl
  | [] => s
  | i :: is => run (tick i s) is

/-- State on entry to the loop (lines 93-99, 122-123, 144-154, 198-199), after
a start with an accepted argument and with the text files present.  The
levels `hw` of the lines are those of the hardware, except for the two opto
lines, which line 198 and 199 set HIGH.  `start` has not been assigned yet; no
state reads it before READY assigns it. -/
def initial (hw : Lines) : Ctl :=
  { motor_state := READY
    next_x_motor_state := IDLE
    x_position := 0
    y_position := 0
    num_comp_rows := 0
    NUM_ROWS := 0
    Y_REWIND := 0
    com := -1
    size := -1
    imgFileName := ""
    start := ⟨0, 0⟩
    lines := (hw.set Pin.optoY true).set Pin.optoX true
    positionFile := FStream.good
    timeInfo := FStream.closed
    trace := [Event.positionLine 0 0, Event.setValue Pin.optoY true,
              Event.setValue Pin.optoX true] }

/-! ## Observations on traces -/

/-- The events a tick appends to the trace. -/
def tickEvents (i : Input) (s : Ctl) : List Event :=
  (tick i s).trace.drop s.trace.length

/-- Number of step pulses on `pin` in a list of events: a pulse starts with the
write of HIGH to the pulse line. -/
def pulses (pin : Pin) (evs : List Event) : Nat :=
  evs.count (Event.setValue pin true)

/-- The lines written to the position log, in order. -/
def positionLines : List Event → List (Nat × Nat)
  | [] => []
  | Event.positionLine x y :: evs => (x, y) :: positionLines evs
  | _ :: evs => positionLines evs

/-- The launches of the capture process, in order. -/
def launches : List Event → List (Int × String)
  | [] => []
  | Event.run_camera z n :: evs => (z, n) :: launches evs
  | _ :: evs => launches evs

/-! ## Closed forms of the event sequences of the pulse loops -/

/-- The two line writes of one step pulse. -/
def pulseEvents (pin : Pin) : List Event :=
  [Event.setValue pin true, Event.setValue pin false]

/-- What `positionWrite` appends when the counters are `x` and `y`. -/
def positionEvents (f : FStream) (x y : Nat) : List Event :=
  if f.writable then [Event.positionLine x y] else []

/-- What `timingWrite` appends. -/
def timingEvents (f : FStream) (a b : timespec) : List Event :=
  if f.writable then [Event.timingLine a b] else []

/-- Events of `n` iterations of the POSITIVE_X loop entered at `x`. -/
def upEvents (f : FStream) (y : Nat) : Nat → Nat → List Event
  | _, 0 => []
  | x, n + 1 =>
    pulseEvents Pin.pulX
      ++ (if (x + 1) % MOD_NUM = 0 then positionEvents f (x + 1) y else [])
      ++ upEvents f y (x + 1) n

/-- Events of the NEGATIVE_X loop entered at `x` (it runs `x` iterations). -/
def downEvents (f : FStream) (y : Nat) : Nat → List Event
  | 0 => []
  | x + 1 =>
    pulseEvents Pin.pulX
      ++ (if x % MOD_NUM = 0 then positionEvents f x y else [])
      ++ downEvents f y x

/-- Events of `n` iterations of the POSITIVE_Y loop entered at `y`. -/
def yUpEvents (f : FStream) (x : Nat) : Nat → Nat → List Event
  | _, 0 => []
  | y, n + 1 =>
    pulseEvents Pin.pulY
      ++ (if ((y + 1) % UINT32) % MOD_NUM = 0 then positionEvents f x ((y + 1) % UINT32) else [])
      ++ yUpEvents f x ((y + 1) % UINT32) n

/-- Events of `n` iterations of the inner Y loop of REWIND. -/
def rewindYEvents (f : FStream) (x y : Nat) : Nat → List Event
  | 0 => []
  | n + 1 =>
    pulseEvents Pin.pulY
      ++ (if y % MOD_NUM = 0 then positionEvents f x y else [])
      ++ rewindYEvents f x y n

/-- Events of `n` iterations of the X loop of REWIND. -/
def rewindXEvents : Nat → List Event
  | 0 => []
  | n + 1 => pulseEvents Pin.pulX ++ rewindXEvents n

/-- Lines after `n` pulses on `pin`: the pulse line is LOW once a pulse was made. -/
def pulsedLines (pin : Pin) (n : Nat) (l : Lines) : Lines :=
  if 0 < n then l.set pin false else l

/-! ## The control variables and their step function in closed form -/

/-- The variables of the controller that decide its control flow. -/
structure Core where
  motor_state : MOTOR_TURN
  next_x_motor_state : MOTOR_TURN
  x_position : Nat
  y_position : Nat
  num_comp_rows : Nat
  NUM_ROWS : Nat
  Y_REWIND : Nat
  com : Int
  size : Int
  positionFile : FStream
  timeInfo : FStream
  deriving DecidableEq, Repr

/-- The control variables of a controller state. -/
def Ctl.core (s : Ctl) : Core :=
  { motor_state := s.motor_state
    next_x_motor_state := s.next_x_motor_state
    x_position := s.x_position
    y_position := s.y_position
    num_comp_rows := s.num_comp_rows
    NUM_ROWS := s.NUM_ROWS
    Y_REWIND := s.Y_REWIND
    com := s.com
    size := s.size
    positionFile := s.positionFile
    timeInfo := s.timeInfo }

/-- Effect of `case READY` on the control variables. -/
def coreREADY (i : Input) (c : Core) : Core :=
  let size := i.size.getD c.size
  let rows := if size = 2 then 20 else if size = 1 then 10 else c.NUM_ROWS
  let rewind := if size = 2 ∨ size = 1 then (MAX_Y_POSITION * rows) % UINT32 else c.Y_REWIND
  let com := i.com1.getD c.com
  { c with size := size, NUM_ROWS := rows, Y_REWIND := rewind, com := com
           motor_state := if com = 0 then POSITIVE_X else c.motor_state
           timeInfo := if com = 0 then fstream_open c.timeInfo else c.timeInfo }

/-- Effect of `case IDLE` on the control variables. -/
def coreIDLE (i : Input) (c : Core) : Core :=
  let com := i.com1.getD c.com
  { c with com := com
           positionFile := FStream.closed
           timeInfo := FStream.closed
           motor_state := if com = 2 then REWIND else c.motor_state }

/-- Effect of `case POSITIVE_X` on the control variables. -/
def corePOSITIVE_X (i : Input) (c : Core) : Core :=
  let com := i.com2.getD (i.com1.getD c.com)
  let x := c.x_position + (MAX_X_POSITION - c.x_position)
  let row : Bool := decide (x = MAX_X_POSITION ∧ c.num_comp_rows < c.NUM_ROWS)
  let rows := if row then (c.num_comp_rows + 1) % UINT32 else c.num_comp_rows
  let st := if row then (if com = 1 then IDLE else POSITIVE_Y) else c.motor_state
  { c with com := com, x_position := x, num_comp_rows := rows
           next_x_motor_state := if row then NEGATIVE_X else c.next_x_motor_state
           motor_state := if rows = c.NUM_ROWS then IDLE else st
           timeInfo := if rows = c.NUM_ROWS then FStream.closed else c.timeInfo }

/-- Effect of `case NEGATIVE_X` on the control variables. -/
def coreNEGATIVE_X (i : Input) (c : Core) : Core :=
  let com := i.com1.getD c.com
  { c with com := com, x_position := 0
           next_x_motor_state := POSITIVE_X
           motor_state := if com = 1 then IDLE else POSITIVE_Y }

/-- Effect of `case POSITIVE_Y` on the control variables. -/
def corePOSITIVE_Y (i : Input) (c : Core) : Core :=
  let y := (c.y_position + MAX_Y_POSITION) % UINT32
  { c with com := i.com2.getD (i.com1.getD c.com), y_position := y
           motor_state := if y = c.Y_REWIND then IDLE else c.next_x_motor_state }

/-- Effect of `case NEGATIVE_Y` on the control variables. -/
def coreNEGATIVE_Y (c : Core) : Core :=
  { c with y_position := (c.y_position + UINT32 - 1) % UINT32 }

/-- Effect of `case REWIND` on the control variables. -/
def coreREWIND (c : Core) : Core :=
  { c with x_position := 0, motor_state := READY }

/-- Effect of one iteration of the loop on the control variables. -/
def coreTick (i : Input) (c : Core) : Core :=
  match c.motor_state with
  | READY => coreREADY i c
  | IDLE => coreIDLE i c
  | POSITIVE_X => corePOSITIVE_X i c
  | NEGATIVE_X => coreNEGATIVE_X i c
  | POSITIVE_Y => corePOSITIVE_Y i c
  | NEGATIVE_Y => coreNEGATIVE_Y c
  | REWIND => coreREWIND c

/-- The closed-form step iterated over a list of inputs. -/
def coreRun (c : Core) : List Input → Core
  | [] => c
  | i :: is => coreRun (coreTick i c) is

/-- The `uint32_t` position counters hold values of their type. -/
def Ctl.inRange (s : Ctl) : Prop :=
  s.x_position < UINT32 ∧ s.y_position < UINT32

/-! ## Runs used in the statements -/

/-- All eight lines LOW. -/
def lowLines : Lines :=
  { optoY := false, pulY := false, dirY := false, enaY := false
    optoX := false, pulX := false, dirX := false, enaX := false }

/-- The input of an iteration during which `size_file.txt` holds `size`,
`command_file.txt` holds `com` and `file_name.txt` holds `scan`. -/
def reads (size com : Int) : Input :=
  { size := some size, com1 := some com, com2 := some com, fileName := some "scan"
    clk1 := ⟨0, 0⟩, clk2 := ⟨0, 0⟩, clk3 := ⟨0, 0⟩ }

/-- The states in which the successive iterations of a run start. -/
def visited (s : Ctl) : List Input → List MOTOR_TURN
  | [] => []
  | i :: is => s.motor_state :: visited (tick i s) is

/-- The same list computed on the control variables. -/
def coreVisited (c : Core) : List Input → List MOTOR_TURN
  | [] => []
  | i :: is => c.motor_state :: coreVisited (coreTick i c) is

/-- The transition table of the state machine: READY to READY or POSITIVE_X, IDLE
to IDLE or REWIND, POSITIVE_X and NEGATIVE_X to POSITIVE_Y or IDLE, POSITIVE_Y to
POSITIVE_X, NEGATIVE_X or IDLE, REWIND to READY. -/
def tableStep : MOTOR_TURN → MOTOR_TURN → Bool
  | READY, READY => true
  | READY, POSITIVE_X => true
  | IDLE, IDLE => true
  | IDLE, REWIND => true
  | POSITIVE_X, POSITIVE_Y => true
  | POSITIVE_X, IDLE => true
  | NEGATIVE_X, POSITIVE_Y => true
  | NEGATIVE_X, IDLE => true
  | POSITIVE_Y, POSITIVE_X => true
  | POSITIVE_Y, NEGATIVE_X => true
  | POSITIVE_Y, IDLE => true
  | REWIND, READY => true
  | _, _ => false

/-- A complete scan of size 1 from the initial state: the start command is read
in READY and stays in the command file during the 20 iterations of the raster. -/
def firstRaster : List Input := List.replicate 21 (reads 1 0)

/-- After the first raster the operator writes the rewind command: IDLE reads it,
REWIND runs, and then the start command of a second scan of size 1 is read. -/
def secondScanStart : List Input :=
  firstRaster ++ [reads 1 2, reads 1 2, reads 1 0]

/-- The second scan of size 1 up to the start of its last POSITIVE_X sweep. -/
def secondScanLastSweep : List Input :=
  secondScanStart ++ List.replicate 16 (reads 1 0)

/-- A scan of size 1 paused at the end of its first sweep, rewound, and started
again: the state reached is the start of the first sweep of the second scan. -/
def pausedThenRestarted : List Input :=
  [reads 1 0, reads 1 1, reads 1 2, reads 1 2, reads 1 0]

/-- Two complete scans of size 2, each followed by a rewind, and then the start
command of a scan of size 1. -/
def twoSize2ScansThenSize1 : List Input :=
  List.replicate 41 (reads 2 0) ++ [reads 2 2, reads 2 2]
    ++ List.replicate 38 (reads 2 0) ++ [reads 1 2, reads 1 2, reads 1 0]

/-- The state an X pulse loop of the iteration has reached after at most `k`
iterations of the loop (the entry state of the case when it has no X loop). -/
def midSweep (i : Input) (s : Ctl) (k : Nat) : Ctl :=
  match s.motor_state with
  | POSITIVE_X => whileLoop posXCond posXBody k (posXEntry i s)
  | NEGATIVE_X => whileLoop negXCond negXBody k (negXEntry i s)
  | REWIND => whileLoop negXCond rewindXBody k (rewindSwitch (rewindYTrain (rewindEntry s)))
  | _ => s

/-- What holds of the control variables in every state the loop can reach. -/
def Core.Inv (c : Core) : Prop :=
  c.x_position ≤ MAX_X_POSITION ∧ c.y_position < UINT32
    ∧ c.motor_state ≠ NEGATIVE_Y
    ∧ (c.next_x_motor_state = IDLE ∨ c.next_x_motor_state = POSITIVE_X
        ∨ c.next_x_motor_state = NEGATIVE_X)
    ∧ (c.motor_state = POSITIVE_Y → c.next_x_motor_state ≠ IDLE)
    ∧ (c.NUM_ROWS = 0 ∨ c.NUM_ROWS = 10 ∨ c.NUM_ROWS = 20)
    ∧ c.Y_REWIND = MAX_Y_POSITION * c.NUM_ROWS

/-- A state in which the switch is at `case NEGATIVE_Y` with `y_position = 0`:
the initial state with only `motor_state` changed. No run reaches it. -/
def atNegativeY : Ctl :=
  { initial lowLines with motor_state := NEGATIVE_Y }

/-- Number of executions of the transfer command `./time_scp.sh` in a list of
events. -/
def transfers : List Event → Nat
  | [] => 0
  | Event.time_scp :: evs => transfers evs + 1
  | _ :: evs => transfers evs

/-- The events of a run: what it appends to the trace. -/
def runEvents (s : Ctl) (is : List Input) : List Event :=
  (run s is).trace.drop s.trace.length

/-- Number of executions of the transfer command in a run, computed on the
control variables: one for each POSITIVE_X iteration that ends with
`num_comp_rows = NUM_ROWS`. -/
def coreTransfers (c : Core) : List Input → Nat
  | [] => 0
  | i :: is =>
    (if c.motor_state = POSITIVE_X ∧ (corePOSITIVE_X i c).num_comp_rows = c.NUM_ROWS
      then 1 else 0) + coreTransfers (coreTick i c) is

/-- The first raster of size 1 up to the start of its last iteration. -/
def firstRasterLastStep : List Input := List.replicate 20 (reads 1 0)

/-! ## The start of `main` (lines 63-200) and `sig_handler` (lines 35-60) -/

/-- Observable actions of `main` before its loop, in program order. -/
inductive StartEvent where
  /-- A call `GPIO(gpio).setDirection(...)`; `output` is `GPIO::OUTPUT`. -/
  | setDirection (gpio : Nat) (output : Bool)
  /-- Text that an insertion put into a file. -/
  | fileWrite (file : String) (text : String)
  /-- A call `pin.setValue(v)`. -/
  | setValue (pin : Pin) (v : Bool)
  deriving DecidableEq, Repr

/-- How the start of `main` ends: the process exits with a status, or the loop
is entered in a state. -/
inductive Outcome where
  | exited (status : Int) (evs : List StartEvent)
  | loop (evs : List StartEvent) (s : Ctl)
  deriving DecidableEq, Repr

/-- Lines 101-115: the direction of `e_stop` (65), `e_stop_signal` (27) and the
eight axis lines (lines 24-32 give their numbers). -/
def configureLines : List StartEvent :=
  [StartEvent.setDirection 65 false, StartEvent.setDirection 27 true,
   StartEvent.setDirection 66 true, StartEvent.setDirection 69 true,
   StartEvent.setDirection 45 true, StartEvent.setDirection 47 true,
   StartEvent.setDirection 48 true, StartEvent.setDirection 49 true,
   StartEvent.setDirection 115 true, StartEvent.setDirection 112 true]

/-- An insertion into a stream just opened with `fstream::open` in the
default mode: the text reaches the file if the file exists. -/
def startWrite (present : Bool) (file text : String) : List StartEvent :=
  if present then [StartEvent.fileWrite file text] else []

/-- Lines 131-154: `com` (-1) is written to `command_file.txt`, `size` (-1) to
`size_file.txt` and the line `0 0` to `position_file.txt`; `timing.txt` is
opened and closed.  The three arguments tell whether the files exist. -/
def initFiles (command size position : Bool) : List StartEvent :=
  startWrite command "./command_file.txt" "-1"
    ++ startWrite size "./size_file.txt" "-1"
    ++ startWrite position "./position_file.txt" "0 0\n"

/-- The state in which the loop is entered: `initial` if `position_file.txt`
exists; otherwise `positionFile.open` has failed and no line reached the file. -/
def enterLoop (position : Bool) (hw : Lines) : Ctl :=
  if position then initial hw
  else { initial hw with positionFile := FStream.failed
                         trace := [Event.setValue Pin.optoY true,
                                   Event.setValue Pin.optoX true] }

/-- Lines 63-200 of `main`: everything before the loop.  `argv` is the argument
vector (its length is `argc`), `command`, `size`, `position` tell whether the
three text files exist, and `hw` gives the levels of the eight lines once
their direction is set. -/
def mainStart (argv : List String) (command size position : Bool) (hw : Lines) : Outcome :=
  let evs := configureLines ++ initFiles command size position
  if argv.length ≠ 2 then Outcome.exited 0 evs
  else if argv.get? 1 = some "on" then
    Outcome.loop (evs ++ [StartEvent.setValue Pin.optoY true,
      StartEvent.setValue Pin.optoX true]) (enterLoop position hw)
  else if argv.get? 1 = some "off" then
    Outcome.loop (evs ++ [StartEvent.setValue Pin.optoY true,
      StartEvent.setValue Pin.optoX true]) (enterLoop position hw)
  else Outcome.exited 0 evs

/-- Whether an action of the start of `main` writes a level to a line. -/
def StartEvent.isSetValue : StartEvent → Bool
  | StartEvent.setValue _ _ => true
  | _ => false

/-- A terminated process: the status given to `exit` and the last state. -/
structure Exit where
  status : Int
  final : Ctl
  deriving DecidableEq, Repr

/-- Lines 35-60: `sig_handler`, run in any state of the program: the eight
writes of LOW, in the order of the source, then `exit(0)`. -/
def sig_handler (s : Ctl) : Exit :=
  let s1 := setValue Pin.optoX false s
  let s2 := setValue Pin.pulX false s1
  let s3 := setValue Pin.dirX false s2
  let s4 := setValue Pin.enaX false s3
  let s5 := setValue Pin.optoY false s4
  let s6 := setValue Pin.pulY false s5
  let s7 := setValue Pin.dirY false s6
  let s8 := setValue Pin.enaY false s7
  { status := 0, final := s8 }

/-- Number of POSITIVE_Y iterations that can still run before `num_comp_rows`
is incremented again: the one that follows a counted POSITIVE_X sweep and the
one that follows the NEGATIVE_X sweep after it. -/
def Core.pending (c : Core) : Nat :=
  if c.motor_state = POSITIVE_Y then
    (if c.next_x_motor_state = NEGATIVE_X then 2 else 1)
  else if c.motor_state = NEGATIVE_X then 1 else 0

/-- Bounds on the row counter and on `y_position` that hold in every state the
loop can reach: two Y steps at most for each counted row. -/
def Core.Bounded (c : Core) : Prop :=
  c.num_comp_rows ≤ 20 ∧ c.y_position % 300 = 0
    ∧ c.y_position + 300 * c.pending ≤ 600 * c.num_comp_rows

/-- The second scan of size 1: the first raster, the rewind, the start command
and the 17 iterations of the scan. -/
def secondScan : List Input :=
  secondScanStart ++ List.replicate 17 (reads 1 0)

/-- A later scan of size 1: the rewind command is read by IDLE, REWIND runs, the
start command is read by READY, and one more iteration runs. -/
def laterScan : List Input :=
  [reads 1 2, reads 1 2, reads 1 0, reads 1 0]

/-- The inputs of `n` later scans of size 1, one after the other. -/
def laterScans : Nat → List Input
  | 0 => []
  | n + 1 => laterScans n ++ laterScan

/-! ## Line levels along a trace -/

/-- Effect of one event on the levels of the lines. -/
def writeLine (l : Lines) : Event → Lines
  | Event.setValue pin v => l.set pin v
  | _ => l

/-- The levels of the lines after the events `evs`, starting from `l`. -/
def replay (l : Lines) (evs : List Event) : Lines :=
  evs.foldl writeLine l

/-- The direction level of the pulses of a state: HIGH (negative) in
NEGATIVE_X, NEGATIVE_Y and REWIND, LOW (positive) in POSITIVE_X and POSITIVE_Y. -/
def expectedDir : MOTOR_TURN → Bool
  | NEGATIVE_X => true
  | NEGATIVE_Y => true
  | REWIND => true
  | _ => false

/-- A write `pin.setValue(v)` made when the levels are `l` is in order: after it
enaX and enaY are not both HIGH; if it starts a pulse on pulX then enaX is HIGH,
enaY is LOW and dirX is at `dir`; if it starts a pulse on pulY then enaY is HIGH,
enaX is LOW and dirY is at `dir`. -/
def okWrite (dir : Bool) (l : Lines) (pin : Pin) (v : Bool) : Bool :=
  !((l.set pin v).enaX && (l.set pin v).enaY)
    && (if pin = Pin.pulX ∧ v = true then l.enaX && !l.enaY && (l.dirX == dir) else true)
    && (if pin = Pin.pulY ∧ v = true then l.enaY && !l.enaX && (l.dirY == dir) else true)

/-- Every line write of `evs`, made in order from the levels `l`, is in order. -/
def wellFormed (dir : Bool) : Lines → List Event → Bool
  | _, [] => true
  | l, Event.setValue pin v :: evs => okWrite dir l pin v && wellFormed dir (l.set pin v) evs
  | l, _ :: evs => wellFormed dir l evs

/-! ## Forgetting the clock -/

/-- The event with the clock readings of a timing line replaced by zero. -/
def Event.noClock : Event → Event
  | Event.timingLine _ _ => Event.timingLine ⟨0, 0⟩ ⟨0, 0⟩
  | e => e

/-- The input with its three clock readings replaced by zero. -/
def Input.noClock (i : Input) : Input :=
  { i with clk1 := ⟨0, 0⟩, clk2 := ⟨0, 0⟩, clk3 := ⟨0, 0⟩ }

/-- The state with everything that holds a clock reading replaced by zero: the
variable `start` and the values of the timing lines of the trace. -/
def Ctl.noClock (s : Ctl) : Ctl :=
  { s with start := ⟨0, 0⟩, trace := s.trace.map Event.noClock }

/-- The input `reads size com` with the given clock readings. -/
def readsAt (size com : Int) (t1 t2 t3 : timespec) : Input :=
  { reads size com with clk1 := t1, clk2 := t2, clk3 := t3 }

/-! # Theorems -/

/-! ## Lines -/

@[simp] theorem Lines.set_set (l : Lines) (p : Pin) (v w : Bool) :
    (l.set p v).set p w = l.set p w := by
  cases p <;> rfl

theorem pulsedLines_zero (p : Pin) (l : Lines) : pulsedLines p 0 l = l := rfl

theorem pulsedLines_succ (p : Pin) (n : Nat) (l : Lines) :
    pulsedLines p (n + 1) l = l.set p false := by
  simp [pulsedLines]

theorem pulsedLines_set (p : Pin) (n : Nat) (l : Lines) :
    pulsedLines p n (l.set p false) = l.set p false := by
  unfold pulsedLines; split <;> simp

theorem MAX_X_lt_UINT32 : MAX_X_POSITION < UINT32 := by decide

/-! ## Primitive statements as record updates -/

theorem readCommand_eq (r : Option Int) (s : Ctl) :
    readCommand r s = { s with com := r.getD s.com } := by
  cases r <;> rfl

theorem readSize_eq (r : Option Int) (s : Ctl) :
    readSize r s = { s with size := r.getD s.size } := by
  cases r <;> rfl

theorem readFileName_eq (r : Option String) (s : Ctl) :
    readFileName r s = { s with imgFileName := r.getD s.imgFileName } := by
  cases r <;> rfl

theorem positionWrite_eq (s : Ctl) :
    positionWrite s =
      { s with trace := s.trace ++ positionEvents s.positionFile s.x_position s.y_position } := by
  unfold positionWrite positionEvents
  split <;> simp

theorem timingWrite_eq (t : timespec) (s : Ctl) :
    timingWrite t s = { s with trace := s.trace ++ timingEvents s.timeInfo s.start t } := by
  unfold timingWrite timingEvents
  split <;> simp

theorem pulse_eq (pin : Pin) (s : Ctl) :
    pulse pin s =
      { s with lines := s.lines.set pin false, trace := s.trace ++ pulseEvents pin } := by
  simp [pulse, setValue, pulseEvents]

/-! ## The pulse loops in closed form -/

theorem posXBody_eq (s : Ctl) (h : s.x_position < MAX_X_POSITION) :
    posXBody s =
      { s with x_position := s.x_position + 1
               lines := s.lines.set Pin.pulX false
               trace := s.trace ++ upEvents s.positionFile s.y_position s.x_position 1 } := by
  have hm : (s.x_position + 1) % UINT32 = s.x_position + 1 :=
    Nat.mod_eq_of_lt (by have := MAX_X_lt_UINT32; omega)
  simp only [posXBody, pulse_eq, positionWrite_eq, hm, upEvents]
  by_cases h1 : (s.x_position + 1) % MOD_NUM = 0 <;> simp [h1]

theorem posXLoop_eq (fuel : Nat) : ∀ s : Ctl, MAX_X_POSITION - s.x_position ≤ fuel →
    whileLoop posXCond posXBody fuel s =
      { s with x_position := s.x_position + (MAX_X_POSITION - s.x_position)
               lines := pulsedLines Pin.pulX (MAX_X_POSITION - s.x_position) s.lines
               trace := s.trace ++ upEvents s.positionFile s.y_position
                          s.x_position (MAX_X_POSITION - s.x_position) } := by
  induction fuel with
  | zero =>
    intro s h2
    have hx : MAX_X_POSITION - s.x_position = 0 := by omega
    rw [hx]
    simp [whileLoop, pulsedLines_zero, upEvents]
  | succ n ih =>
    intro s h2
    by_cases hc : s.x_position < MAX_X_POSITION
    · have hstep : MAX_X_POSITION - s.x_position
          = (MAX_X_POSITION - (s.x_position + 1)) + 1 := by omega
      rw [whileLoop, if_pos (by simp [posXCond, hc]), posXBody_eq s hc,
        ih _ (by simp; omega)]
      rw [hstep]
      simp [pulsedLines_set, pulsedLines_succ, upEvents]
      omega
    · have hx : MAX_X_POSITION - s.x_position = 0 := by omega
      rw [hx]
      simp [whileLoop, pulsedLines_zero, upEvents, posXCond, hc]

theorem posXSweep_eq (s : Ctl) :
    posXSweep s =
      { s with x_position := s.x_position + (MAX_X_POSITION - s.x_position)
               lines := pulsedLines Pin.pulX (MAX_X_POSITION - s.x_position) s.lines
               trace := s.trace ++ upEvents s.positionFile s.y_position
                          s.x_position (MAX_X_POSITION - s.x_position) } :=
  posXLoop_eq MAX_X_POSITION s (Nat.sub_le _ _)

theorem dec_mod (x : Nat) (h : x + 1 < UINT32) : (x + 1 + UINT32 - 1) % UINT32 = x := by
  have : x + 1 + UINT32 - 1 = x + UINT32 := by omega
  rw [this, Nat.add_mod_right]
  exact Nat.mod_eq_of_lt (by omega)

theorem negXBody_eq (s : Ctl) (x : Nat) (hx : s.x_position = x + 1) (h : x + 1 < UINT32) :
    negXBody s =
      { s with x_position := x
               lines := s.lines.set Pin.pulX false
               trace := s.trace ++ (pulseEvents Pin.pulX
                 ++ (if x % MOD_NUM = 0 then positionEvents s.positionFile x s.y_position
                     else [])) } := by
  simp only [negXBody, pulse_eq, positionWrite_eq, hx, dec_mod x h]
  by_cases h1 : x % MOD_NUM = 0 <;> simp [h1]

theorem negXLoop_eq (fuel : Nat) : ∀ s : Ctl, s.x_position < UINT32 → s.x_position ≤ fuel →
    whileLoop negXCond negXBody fuel s =
      { s with x_position := 0
               lines := pulsedLines Pin.pulX s.x_position s.lines
               trace := s.trace ++ downEvents s.positionFile s.y_position s.x_position } := by
  induction fuel with
  | zero =>
    intro s _ h2
    have hx : s.x_position = 0 := by omega
    cases s
    simp only at hx
    subst hx
    simp [whileLoop, pulsedLines_zero, downEvents]
  | succ n ih =>
    intro s h1 h2
    rcases Nat.eq_zero_or_eq_succ_pred s.x_position with hx | hx
    · cases s
      simp only at hx
      subst hx
      simp [whileLoop, pulsedLines_zero, downEvents, negXCond]
    · have hb := negXBody_eq s _ hx (by omega)
      rw [whileLoop, if_pos (by simp [negXCond]; omega), hb,
        ih _ (by simp; omega) (by simp; omega)]
      rw [hx]
      simp [pulsedLines_set, pulsedLines_succ, downEvents]

theorem negXSweep_eq (s : Ctl) (h : s.x_position < UINT32) :
    negXSweep s =
      { s with x_position := 0
               lines := pulsedLines Pin.pulX s.x_position s.lines
               trace := s.trace ++ downEvents s.positionFile s.y_position s.x_position } :=
  negXLoop_eq s.x_position s h (Nat.le_refl _)

theorem rewindXBody_eq (s : Ctl) (x : Nat) (hx : s.x_position = x + 1) (h : x + 1 < UINT32) :
    rewindXBody s =
      { s with x_position := x
               lines := s.lines.set Pin.pulX false
               trace := s.trace ++ pulseEvents Pin.pulX } := by
  simp only [rewindXBody, pulse_eq, hx, dec_mod x h]

theorem rewindXLoop_eq (fuel : Nat) : ∀ s : Ctl, s.x_position < UINT32 → s.x_position ≤ fuel →
    whileLoop negXCond rewindXBody fuel s =
      { s with x_position := 0
               lines := pulsedLines Pin.pulX s.x_position s.lines
               trace := s.trace ++ rewindXEvents s.x_position } := by
  induction fuel with
  | zero =>
    intro s _ h2
    have hx : s.x_position = 0 := by omega
    cases s
    simp only at hx
    subst hx
    simp [whileLoop, pulsedLines_zero, rewindXEvents]
  | succ n ih =>
    intro s h1 h2
    rcases Nat.eq_zero_or_eq_succ_pred s.x_position with hx | hx
    · cases s
      simp only at hx
      subst hx
      simp [whileLoop, pulsedLines_zero, rewindXEvents, negXCond]
    · have hb := rewindXBody_eq s _ hx (by omega)
      rw [whileLoop, if_pos (by simp [negXCond]; omega), hb,
        ih _ (by simp; omega) (by simp; omega)]
      rw [hx]
      simp [pulsedLines_set, pulsedLines_succ, rewindXEvents]

theorem rewindXTrain_eq (s : Ctl) (h : s.x_position < UINT32) :
    rewindXTrain s =
      { s with x_position := 0
               lines := pulsedLines Pin.pulX s.x_position s.lines
               trace := s.trace ++ rewindXEvents s.x_position } :=
  rewindXLoop_eq s.x_position s h (Nat.le_refl _)

/-! ### The counted loops -/

theorem forLoop_add (body : Ctl → Ctl) (a b : Nat) (s : Ctl) :
    forLoop body (a + b) s = forLoop body b (forLoop body a s) := by
  induction a generalizing s with
  | zero => simp [forLoop]
  | succ n ih => rw [Nat.add_right_comm, forLoop, forLoop, ih]

theorem forLoop_forLoop (body : Ctl → Ctl) (k m : Nat) (s : Ctl) :
    forLoop (forLoop body k) m s = forLoop body (m * k) s := by
  induction m generalizing s with
  | zero => simp [forLoop]
  | succ n ih => rw [forLoop, ih, Nat.succ_mul, Nat.add_comm, forLoop_add]

theorem posYBody_eq (s : Ctl) :
    posYBody s =
      { s with y_position := (s.y_position + 1) % UINT32
               lines := s.lines.set Pin.pulY false
               trace := s.trace ++ yUpEvents s.positionFile s.x_position s.y_position 1 } := by
  simp only [posYBody, pulse_eq, positionWrite_eq, yUpEvents]
  by_cases h1 : (s.y_position + 1) % UINT32 % MOD_NUM = 0 <;> simp [h1]

/-- The value of `y_position` after `n` increments. -/
theorem yAfter_succ (y n : Nat) : ((y + 1) % UINT32 + n) % UINT32 = (y + (n + 1)) % UINT32 := by
  rw [Nat.add_mod, Nat.mod_mod, ← Nat.add_mod]
  congr 1
  omega

theorem posYLoop_eq (n : Nat) : ∀ s : Ctl, s.y_position < UINT32 →
    forLoop posYBody n s =
      { s with y_position := (s.y_position + n) % UINT32
               lines := pulsedLines Pin.pulY n s.lines
               trace := s.trace ++ yUpEvents s.positionFile s.x_position s.y_position n } := by
  induction n with
  | zero =>
    intro s h
    simp [forLoop, pulsedLines_zero, yUpEvents, Nat.mod_eq_of_lt h]
  | succ n ih =>
    intro s h
    rw [forLoop, posYBody_eq, ih _ (by simp; exact Nat.mod_lt _ (by decide))]
    simp [pulsedLines_set, pulsedLines_succ, yUpEvents, yAfter_succ]
    rw [Nat.add_right_comm, Nat.add_assoc]

theorem rewindYBody_eq (s : Ctl) :
    rewindYBody s =
      { s with lines := s.lines.set Pin.pulY false
               trace := s.trace ++ rewindYEvents s.positionFile s.x_position s.y_position 1 } := by
  simp only [rewindYBody, pulse_eq, positionWrite_eq, rewindYEvents]
  by_cases h1 : s.y_position % MOD_NUM = 0 <;> simp [h1]

theorem rewindYLoop_eq (n : Nat) : ∀ s : Ctl,
    forLoop rewindYBody n s =
      { s with lines := pulsedLines Pin.pulY n s.lines
               trace := s.trace ++ rewindYEvents s.positionFile s.x_position s.y_position n } := by
  induction n with
  | zero =>
    intro s
    simp [forLoop, pulsedLines_zero, rewindYEvents]
  | succ n ih =>
    intro s
    rw [forLoop, rewindYBody_eq, ih]
    simp [pulsedLines_set, pulsedLines_succ, rewindYEvents]

theorem rewindYTrain_eq (s : Ctl) :
    rewindYTrain s =
      { s with lines := pulsedLines Pin.pulY (s.NUM_ROWS * MAX_Y_POSITION) s.lines
               trace := s.trace ++ rewindYEvents s.positionFile s.x_position s.y_position
                          (s.NUM_ROWS * MAX_Y_POSITION) } := by
  rw [rewindYTrain, forLoop_forLoop, rewindYLoop_eq]

theorem posYStep_eq (s : Ctl) (h : s.y_position < UINT32) :
    posYStep s =
      { s with y_position := (s.y_position + MAX_Y_POSITION) % UINT32
               lines := pulsedLines Pin.pulY MAX_Y_POSITION s.lines
               trace := s.trace ++ yUpEvents s.positionFile s.x_position s.y_position
                          MAX_Y_POSITION } :=
  posYLoop_eq MAX_Y_POSITION s h

/-! ## Each case of the switch on the control variables -/

theorem core_tickREADY (i : Input) (s : Ctl) : (tickREADY i s).core = coreREADY i s.core := by
  simp only [tickREADY, readyStart, deriveRows, setRows, readSize_eq, readCommand_eq,
    readFileName_eq, setValue, coreREADY, Ctl.core]
  split_ifs <;> simp_all

theorem core_tickIDLE (i : Input) (s : Ctl) : (tickIDLE i s).core = coreIDLE i s.core := by
  simp only [tickIDLE, readCommand_eq, setValue, coreIDLE, Ctl.core, fstream_close]
  split_ifs <;> simp_all

theorem core_tickPOSITIVE_X (i : Input) (s : Ctl) :
    (tickPOSITIVE_X i s).core = corePOSITIVE_X i s.core := by
  simp only [tickPOSITIVE_X, posXExit, posXComplete, posXRow, posXSweep_eq, posXEntry,
    readCommand_eq, timingWrite_eq, setValue, corePOSITIVE_X, Ctl.core, fstream_close]
  by_cases hrow : s.x_position + (MAX_X_POSITION - s.x_position) = MAX_X_POSITION
      ∧ s.num_comp_rows < s.NUM_ROWS
  · by_cases hcom : i.com2.getD (i.com1.getD s.com) = 1 <;>
      by_cases hdone : (s.num_comp_rows + 1) % UINT32 = s.NUM_ROWS <;>
      simp [hrow, hcom, hdone]
  · by_cases hdone : s.num_comp_rows = s.NUM_ROWS <;> simp [hrow, hdone]

theorem core_tickNEGATIVE_X (i : Input) (s : Ctl) (h : s.x_position < UINT32) :
    (tickNEGATIVE_X i s).core = coreNEGATIVE_X i s.core := by
  have hE : (negXEntry i s).x_position < UINT32 := by
    simpa [negXEntry, readCommand_eq, timingWrite_eq, setValue] using h
  simp only [tickNEGATIVE_X, negXExit, negXSweep_eq _ hE]
  simp only [negXEntry, readCommand_eq, timingWrite_eq, setValue, coreNEGATIVE_X, Ctl.core]
  split_ifs <;> simp_all

theorem core_tickPOSITIVE_Y (i : Input) (s : Ctl) (h : s.y_position < UINT32) :
    (tickPOSITIVE_Y i s).core = corePOSITIVE_Y i s.core := by
  have hE : (posYEntry i s).y_position < UINT32 := by
    simpa [posYEntry, readCommand_eq, timingWrite_eq, setValue] using h
  simp only [tickPOSITIVE_Y, posYExit, posYStep_eq _ hE]
  simp only [posYEntry, readCommand_eq, timingWrite_eq, setValue, corePOSITIVE_Y, Ctl.core]
  split_ifs <;> simp_all

theorem core_tickNEGATIVE_Y (s : Ctl) : (tickNEGATIVE_Y s).core = coreNEGATIVE_Y s.core := by
  simp [tickNEGATIVE_Y, pulse_eq, setValue, coreNEGATIVE_Y, Ctl.core]

theorem core_tickREWIND (s : Ctl) (h : s.x_position < UINT32) :
    (tickREWIND s).core = coreREWIND s.core := by
  have hE : (rewindSwitch (rewindYTrain (rewindEntry s))).x_position < UINT32 := by
    simpa [rewindSwitch, rewindYTrain_eq, rewindEntry, setValue] using h
  simp only [tickREWIND, rewindExit, rewindXTrain_eq _ hE]
  simp [rewindSwitch, rewindYTrain_eq, rewindEntry, setValue, coreREWIND, Ctl.core]

theorem core_tick (i : Input) (s : Ctl) (h : s.inRange) :
    (tick i s).core = coreTick i s.core := by
  unfold tick coreTick
  have hm : s.core.motor_state = s.motor_state := rfl
  rw [hm]
  cases hs : s.motor_state <;> simp only
  · exact core_tickIDLE i s
  · exact core_tickREADY i s
  · exact core_tickPOSITIVE_X i s
  · exact core_tickNEGATIVE_X i s h.1
  · exact core_tickPOSITIVE_Y i s h.2
  · exact core_tickNEGATIVE_Y s
  · exact core_tickREWIND s h.1

theorem posX_lt_UINT32 (x : Nat) (h : x < UINT32) :
    x + (MAX_X_POSITION - x) < UINT32 := by
  have hM := MAX_X_lt_UINT32
  omega

theorem mod_UINT32_lt (n : Nat) : n % UINT32 < UINT32 :=
  Nat.mod_lt n (by decide)

theorem coreTick_inRange (i : Input) (c : Core)
    (h : c.x_position < UINT32 ∧ c.y_position < UINT32) :
    (coreTick i c).x_position < UINT32 ∧ (coreTick i c).y_position < UINT32 := by
  obtain ⟨h1, h2⟩ := h
  have hU : 0 < UINT32 := Nat.lt_of_le_of_lt (Nat.zero_le _) h1
  cases hs : c.motor_state with
  | READY => simp only [coreTick, hs, coreREADY]; exact ⟨h1, h2⟩
  | IDLE => simp only [coreTick, hs, coreIDLE]; exact ⟨h1, h2⟩
  | POSITIVE_X => simp only [coreTick, hs, corePOSITIVE_X]; exact ⟨posX_lt_UINT32 _ h1, h2⟩
  | NEGATIVE_X => simp only [coreTick, hs, coreNEGATIVE_X]; exact ⟨hU, h2⟩
  | POSITIVE_Y => simp only [coreTick, hs, corePOSITIVE_Y]; exact ⟨h1, mod_UINT32_lt _⟩
  | NEGATIVE_Y => simp only [coreTick, hs, coreNEGATIVE_Y]; exact ⟨h1, mod_UINT32_lt _⟩
  | REWIND => simp only [coreTick, hs, coreREWIND]; exact ⟨hU, h2⟩

theorem tick_inRange (i : Input) (s : Ctl) (h : s.inRange) : (tick i s).inRange := by
  have := coreTick_inRange i s.core h
  rw [← core_tick i s h] at this
  exact this

theorem run_inRange (is : List Input) : ∀ s : Ctl, s.inRange → (run s is).inRange := by
  induction is with
  | nil => intro s h; exact h
  | cons i is ih => intro s h; exact ih _ (tick_inRange i s h)

theorem core_run (is : List Input) : ∀ s : Ctl, s.inRange →
    (run s is).core = coreRun s.core is := by
  induction is with
  | nil => intro s _; rfl
  | cons i is ih =>
    intro s h
    rw [run, coreRun, ih _ (tick_inRange i s h), core_tick i s h]

theorem initial_inRange (hw : Lines) : (initial hw).inRange := by
  constructor <;> simp [initial, UINT32]


/-! ## Observations on the event sequences -/

theorem pulses_append (pin : Pin) (a b : List Event) :
    pulses pin (a ++ b) = pulses pin a + pulses pin b := by
  simp [pulses, List.count_append]

theorem pulses_nil (pin : Pin) : pulses pin [] = 0 := rfl

theorem pulses_setValue (pin q : Pin) (v : Bool) (evs : List Event) :
    pulses pin (Event.setValue q v :: evs)
      = (if q = pin ∧ v = true then 1 else 0) + pulses pin evs := by
  simp only [pulses, List.count_cons]
  by_cases h : q = pin ∧ v = true
  · obtain ⟨h1, h2⟩ := h
    subst h1; subst h2
    simp [Nat.add_comm]
  · have : (Event.setValue q v == Event.setValue pin true) = false := by
      simp only [beq_eq_false_iff_ne, ne_eq, Event.setValue.injEq]
      exact h
    simp [this, h]

theorem pulses_pulseEvents (pin q : Pin) :
    pulses pin (pulseEvents q) = if q = pin then 1 else 0 := by
  simp [pulseEvents, pulses_setValue, pulses_nil]

theorem pulses_positionEvents (pin : Pin) (f : FStream) (x y : Nat) :
    pulses pin (positionEvents f x y) = 0 := by
  unfold positionEvents
  split <;> simp [pulses]

theorem pulses_timingEvents (pin : Pin) (f : FStream) (a b : timespec) :
    pulses pin (timingEvents f a b) = 0 := by
  unfold timingEvents
  split <;> simp [pulses]

theorem pulses_ite_positionEvents (pin : Pin) (c : Prop) [Decidable c] (f : FStream)
    (x y : Nat) : pulses pin (if c then positionEvents f x y else []) = 0 := by
  split
  · exact pulses_positionEvents pin f x y
  · rfl

theorem pulses_upEvents (pin : Pin) (f : FStream) (y : Nat) (n : Nat) : ∀ x : Nat,
    pulses pin (upEvents f y x n) = if Pin.pulX = pin then n else 0 := by
  induction n with
  | zero => intro x; simp [upEvents, pulses_nil]
  | succ n ih =>
    intro x
    simp only [upEvents, pulses_append, pulses_pulseEvents, pulses_ite_positionEvents, ih]
    split <;> omega

theorem pulses_downEvents (pin : Pin) (f : FStream) (y : Nat) (x : Nat) :
    pulses pin (downEvents f y x) = if Pin.pulX = pin then x else 0 := by
  induction x with
  | zero => simp [downEvents, pulses_nil]
  | succ n ih =>
    simp only [downEvents, pulses_append, pulses_pulseEvents, pulses_ite_positionEvents, ih]
    split <;> omega

theorem pulses_yUpEvents (pin : Pin) (f : FStream) (x : Nat) (n : Nat) : ∀ y : Nat,
    pulses pin (yUpEvents f x y n) = if Pin.pulY = pin then n else 0 := by
  induction n with
  | zero => intro y; simp [yUpEvents, pulses_nil]
  | succ n ih =>
    intro y
    simp only [yUpEvents, pulses_append, pulses_pulseEvents, pulses_ite_positionEvents, ih]
    split <;> omega

theorem pulses_rewindYEvents (pin : Pin) (f : FStream) (x y : Nat) (n : Nat) :
    pulses pin (rewindYEvents f x y n) = if Pin.pulY = pin then n else 0 := by
  induction n with
  | zero => simp [rewindYEvents, pulses_nil]
  | succ n ih =>
    simp only [rewindYEvents, pulses_append, pulses_pulseEvents, pulses_ite_positionEvents, ih]
    split <;> omega

theorem pulses_rewindXEvents (pin : Pin) (n : Nat) :
    pulses pin (rewindXEvents n) = if Pin.pulX = pin then n else 0 := by
  induction n with
  | zero => simp [rewindXEvents, pulses_nil]
  | succ n ih =>
    simp only [rewindXEvents, pulses_append, pulses_pulseEvents, ih]
    split <;> omega

theorem positionLines_append (a b : List Event) :
    positionLines (a ++ b) = positionLines a ++ positionLines b := by
  induction a with
  | nil => rfl
  | cons e a ih => cases e <;> simp [positionLines, ih]

theorem launches_append (a b : List Event) :
    launches (a ++ b) = launches a ++ launches b := by
  induction a with
  | nil => rfl
  | cons e a ih => cases e <;> simp [launches, ih]

theorem launches_pulseEvents (pin : Pin) : launches (pulseEvents pin) = [] := rfl

theorem launches_positionEvents (f : FStream) (x y : Nat) :
    launches (positionEvents f x y) = [] := by
  unfold positionEvents
  split <;> rfl

theorem launches_timingEvents (f : FStream) (a b : timespec) :
    launches (timingEvents f a b) = [] := by
  unfold timingEvents
  split <;> rfl

theorem launches_ite_positionEvents (c : Prop) [Decidable c] (f : FStream) (x y : Nat) :
    launches (if c then positionEvents f x y else []) = [] := by
  split
  · exact launches_positionEvents f x y
  · rfl

theorem launches_upEvents (f : FStream) (y : Nat) (n : Nat) : ∀ x : Nat,
    launches (upEvents f y x n) = [] := by
  induction n with
  | zero => intro x; rfl
  | succ n ih =>
    intro x
    simp [upEvents, launches_append, launches_pulseEvents, launches_ite_positionEvents, ih]

theorem launches_downEvents (f : FStream) (y : Nat) (x : Nat) :
    launches (downEvents f y x) = [] := by
  induction x with
  | zero => rfl
  | succ n ih =>
    simp [downEvents, launches_append, launches_pulseEvents, launches_ite_positionEvents, ih]

theorem launches_yUpEvents (f : FStream) (x : Nat) (n : Nat) : ∀ y : Nat,
    launches (yUpEvents f x y n) = [] := by
  induction n with
  | zero => intro y; rfl
  | succ n ih =>
    intro y
    simp [yUpEvents, launches_append, launches_pulseEvents, launches_ite_positionEvents, ih]

theorem launches_rewindYEvents (f : FStream) (x y : Nat) (n : Nat) :
    launches (rewindYEvents f x y n) = [] := by
  induction n with
  | zero => rfl
  | succ n ih =>
    simp [rewindYEvents, launches_append, launches_pulseEvents, launches_ite_positionEvents, ih]

theorem launches_rewindXEvents (n : Nat) : launches (rewindXEvents n) = [] := by
  induction n with
  | zero => rfl
  | succ n ih => simp [rewindXEvents, launches_append, launches_pulseEvents, ih]



/-! ## The events of each case of the switch -/

theorem drop_trace (tr evs : List Event) : (tr ++ evs).drop tr.length = evs := by
  simp

theorem tickREADY_trace (i : Input) (s : Ctl) :
    (tickREADY i s).trace = s.trace ++
      ([Event.setValue Pin.enaX false, Event.setValue Pin.enaY false]
        ++ (if i.com1.getD s.com = 0 then
              [Event.run_camera (i.size.getD s.size) (i.fileName.getD s.imgFileName)]
            else [])) := by
  simp only [tickREADY, readyStart, deriveRows, setRows, readSize_eq, readCommand_eq,
    readFileName_eq, setValue]
  split_ifs <;> simp_all

theorem tickIDLE_trace (i : Input) (s : Ctl) :
    (tickIDLE i s).trace = s.trace ++
      [Event.setValue Pin.enaX false, Event.setValue Pin.enaY false] := by
  simp only [tickIDLE, readCommand_eq, setValue]
  split_ifs <;> simp

theorem tickPOSITIVE_X_trace (i : Input) (s : Ctl) :
    (tickPOSITIVE_X i s).trace = s.trace ++
      ([Event.setValue Pin.enaY false, Event.setValue Pin.enaX true,
          Event.setValue Pin.dirX false]
        ++ timingEvents s.timeInfo s.start i.clk1
        ++ upEvents s.positionFile s.y_position s.x_position
             (MAX_X_POSITION - s.x_position)
        ++ timingEvents s.timeInfo s.start i.clk2
        ++ (if (corePOSITIVE_X i s.core).num_comp_rows = s.NUM_ROWS then
              timingEvents s.timeInfo s.start i.clk3 ++ [Event.time_scp]
            else [])
        ++ [Event.setValue Pin.enaX false]) := by
  simp only [tickPOSITIVE_X, posXExit, posXComplete, posXRow, posXSweep_eq, posXEntry,
    readCommand_eq, timingWrite_eq, setValue, corePOSITIVE_X, Ctl.core]
  by_cases hrow : s.x_position + (MAX_X_POSITION - s.x_position) = MAX_X_POSITION
      ∧ s.num_comp_rows < s.NUM_ROWS
  · by_cases hcom : i.com2.getD (i.com1.getD s.com) = 1 <;>
      by_cases hdone : (s.num_comp_rows + 1) % UINT32 = s.NUM_ROWS <;>
      simp [hrow, hcom, hdone]
  · by_cases hdone : s.num_comp_rows = s.NUM_ROWS <;> simp [hrow, hdone]

theorem tickNEGATIVE_X_trace (i : Input) (s : Ctl) (h : s.x_position < UINT32) :
    (tickNEGATIVE_X i s).trace = s.trace ++
      ([Event.setValue Pin.enaY false, Event.setValue Pin.enaX true,
          Event.setValue Pin.dirX true]
        ++ timingEvents s.timeInfo s.start i.clk1
        ++ downEvents s.positionFile s.y_position s.x_position
        ++ timingEvents s.timeInfo s.start i.clk2
        ++ [Event.setValue Pin.enaX false]) := by
  have hE : (negXEntry i s).x_position < UINT32 := by
    simpa [negXEntry, readCommand_eq, timingWrite_eq, setValue] using h
  simp only [tickNEGATIVE_X, negXExit, negXSweep_eq _ hE]
  simp only [negXEntry, readCommand_eq, timingWrite_eq, setValue]
  split_ifs <;> simp_all

theorem tickPOSITIVE_Y_trace (i : Input) (s : Ctl) (h : s.y_position < UINT32) :
    (tickPOSITIVE_Y i s).trace = s.trace ++
      ([Event.setValue Pin.enaX false, Event.setValue Pin.enaY true,
          Event.setValue Pin.dirY false]
        ++ timingEvents s.timeInfo s.start i.clk1
        ++ yUpEvents s.positionFile s.x_position s.y_position MAX_Y_POSITION
        ++ timingEvents s.timeInfo s.start i.clk2
        ++ [Event.setValue Pin.enaY false]) := by
  have hE : (posYEntry i s).y_position < UINT32 := by
    simpa [posYEntry, readCommand_eq, timingWrite_eq, setValue] using h
  simp only [tickPOSITIVE_Y, posYExit, posYStep_eq _ hE]
  simp only [posYEntry, readCommand_eq, timingWrite_eq, setValue]
  split_ifs <;> simp_all

theorem tickNEGATIVE_Y_trace (s : Ctl) :
    (tickNEGATIVE_Y s).trace = s.trace ++
      ([Event.setValue Pin.enaX false, Event.setValue Pin.enaY true,
          Event.setValue Pin.dirY true] ++ pulseEvents Pin.pulY) := by
  simp [tickNEGATIVE_Y, pulse_eq, setValue]

theorem tickREWIND_trace (s : Ctl) (h : s.x_position < UINT32) :
    (tickREWIND s).trace = s.trace ++
      ([Event.setValue Pin.enaX false, Event.setValue Pin.enaY true,
          Event.setValue Pin.dirY true]
        ++ rewindYEvents s.positionFile s.x_position s.y_position
             (s.NUM_ROWS * MAX_Y_POSITION)
        ++ [Event.setValue Pin.enaY false, Event.setValue Pin.enaX true,
            Event.setValue Pin.dirX true]
        ++ rewindXEvents s.x_position
        ++ [Event.setValue Pin.optoX false, Event.setValue Pin.pulX false,
            Event.setValue Pin.dirX false, Event.setValue Pin.enaX false,
            Event.setValue Pin.optoY false, Event.setValue Pin.pulY false,
            Event.setValue Pin.dirY false, Event.setValue Pin.enaY false]) := by
  have hE : (rewindSwitch (rewindYTrain (rewindEntry s))).x_position < UINT32 := by
    simpa [rewindSwitch, rewindYTrain_eq, rewindEntry, setValue] using h
  simp only [tickREWIND, rewindExit, rewindXTrain_eq _ hE]
  simp [rewindSwitch, rewindYTrain_eq, rewindEntry, setValue]



/-! ## Runs on the control variables -/

theorem visited_eq (is : List Input) : ∀ s : Ctl, s.inRange →
    visited s is = coreVisited s.core is := by
  induction is with
  | nil => intro s _; rfl
  | cons i is ih =>
    intro s h
    rw [visited, coreVisited, ih _ (tick_inRange i s h), core_tick i s h]
    rfl

theorem run_append (a b : List Input) : ∀ s : Ctl, run s (a ++ b) = run (run s a) b := by
  induction a with
  | nil => intro s; rfl
  | cons i a ih => intro s; exact ih (tick i s)

theorem core_initial (hw : Lines) : (initial hw).core =
    { motor_state := READY, next_x_motor_state := IDLE, x_position := 0, y_position := 0
      num_comp_rows := 0, NUM_ROWS := 0, Y_REWIND := 0, com := -1, size := -1
      positionFile := FStream.good, timeInfo := FStream.closed } := rfl

set_option maxRecDepth 1000000 in
theorem core_twoSize2ScansThenSize1 (hw : Lines) :
    (run (initial hw) twoSize2ScansThenSize1).core =
      { motor_state := POSITIVE_X, next_x_motor_state := NEGATIVE_X, x_position := 0
        y_position := 11400, num_comp_rows := 20, NUM_ROWS := 10, Y_REWIND := 3000
        com := 0, size := 1, positionFile := FStream.closed, timeInfo := FStream.good } := by
  rw [core_run _ _ (initial_inRange hw), core_initial]
  decide



/-! ## The invariant of the reachable states -/

theorem coreREADY_Inv (i : Input) (c : Core) (h : c.Inv) (hs : c.motor_state = READY) :
    (coreREADY i c).Inv := by
  obtain ⟨h1, h2, h3, h4, h5, h6, h7⟩ := h
  simp only [Core.Inv, coreREADY]
  refine ⟨h1, h2, ?_, h4, ?_, ?_, ?_⟩
  · split <;> simp [hs]
  · split <;> simp [hs]
  · split_ifs <;> simp [h6]
  · split_ifs <;> simp_all [MAX_Y_POSITION, UINT32]

theorem coreIDLE_Inv (i : Input) (c : Core) (h : c.Inv) (hs : c.motor_state = IDLE) :
    (coreIDLE i c).Inv := by
  obtain ⟨h1, h2, h3, h4, h5, h6, h7⟩ := h
  simp only [Core.Inv, coreIDLE]
  refine ⟨h1, h2, ?_, h4, ?_, h6, h7⟩
  · split <;> simp [hs]
  · split <;> simp [hs]

theorem corePOSITIVE_X_Inv (i : Input) (c : Core) (h : c.Inv)
    (hs : c.motor_state = POSITIVE_X) : (corePOSITIVE_X i c).Inv := by
  obtain ⟨h1, h2, h3, h4, h5, h6, h7⟩ := h
  simp only [Core.Inv, corePOSITIVE_X]
  refine ⟨by omega, h2, ?_, ?_, ?_, h6, h7⟩
  · split_ifs <;> simp [hs]
  · split_ifs <;> simp [h4]
  · split_ifs <;> simp [hs]

theorem coreNEGATIVE_X_Inv (i : Input) (c : Core) (h : c.Inv) :
    (coreNEGATIVE_X i c).Inv := by
  obtain ⟨h1, h2, h3, h4, h5, h6, h7⟩ := h
  simp only [Core.Inv, coreNEGATIVE_X]
  refine ⟨Nat.zero_le _, h2, ?_, ?_, ?_, h6, h7⟩
  · split_ifs <;> simp
  · simp
  · simp

theorem corePOSITIVE_Y_Inv (i : Input) (c : Core) (h : c.Inv)
    (hs : c.motor_state = POSITIVE_Y) : (corePOSITIVE_Y i c).Inv := by
  obtain ⟨h1, h2, h3, h4, h5, h6, h7⟩ := h
  have h5 := h5 hs
  simp only [Core.Inv, corePOSITIVE_Y]
  refine ⟨h1, mod_UINT32_lt _, ?_, h4, ?_, h6, h7⟩
  · split_ifs
    · simp
    · rcases h4 with h | h | h <;> simp_all
  · split_ifs
    · simp
    · rcases h4 with h | h | h <;> simp_all

theorem coreREWIND_Inv (c : Core) (h : c.Inv) : (coreREWIND c).Inv := by
  obtain ⟨h1, h2, h3, h4, h5, h6, h7⟩ := h
  simp only [Core.Inv, coreREWIND]
  exact ⟨Nat.zero_le _, h2, by simp, h4, by simp, h6, h7⟩

theorem coreTick_Inv (i : Input) (c : Core) (h : c.Inv) : (coreTick i c).Inv := by
  cases hs : c.motor_state with
  | READY => simp only [coreTick, hs]; exact coreREADY_Inv i c h hs
  | IDLE => simp only [coreTick, hs]; exact coreIDLE_Inv i c h hs
  | POSITIVE_X => simp only [coreTick, hs]; exact corePOSITIVE_X_Inv i c h hs
  | NEGATIVE_X => simp only [coreTick, hs]; exact coreNEGATIVE_X_Inv i c h
  | POSITIVE_Y => simp only [coreTick, hs]; exact corePOSITIVE_Y_Inv i c h hs
  | NEGATIVE_Y => exact absurd hs h.2.2.1
  | REWIND => simp only [coreTick, hs]; exact coreREWIND_Inv c h

theorem coreRun_Inv (is : List Input) : ∀ c : Core, c.Inv → (coreRun c is).Inv := by
  induction is with
  | nil => intro c h; exact h
  | cons i is ih => intro c h; exact ih _ (coreTick_Inv i c h)

theorem initial_Inv (hw : Lines) : (initial hw).core.Inv := by
  simp [Core.Inv, core_initial, MAX_X_POSITION, UINT32, MAX_Y_POSITION]

theorem reachable_Inv (hw : Lines) (is : List Input) : (run (initial hw) is).core.Inv := by
  rw [core_run _ _ (initial_inRange hw)]
  exact coreRun_Inv is _ (initial_Inv hw)

theorem reachable_inRange (hw : Lines) (is : List Input) : (run (initial hw) is).inRange :=
  run_inRange is _ (initial_inRange hw)



/-! ## The switch -/

theorem tick_READY (i : Input) (s : Ctl) (hs : s.motor_state = READY) :
    tick i s = tickREADY i s := by
  simp only [tick, hs]

theorem tick_IDLE (i : Input) (s : Ctl) (hs : s.motor_state = IDLE) :
    tick i s = tickIDLE i s := by
  simp only [tick, hs]

theorem tick_POSITIVE_X (i : Input) (s : Ctl) (hs : s.motor_state = POSITIVE_X) :
    tick i s = tickPOSITIVE_X i s := by
  simp only [tick, hs]

theorem tick_NEGATIVE_X (i : Input) (s : Ctl) (hs : s.motor_state = NEGATIVE_X) :
    tick i s = tickNEGATIVE_X i s := by
  simp only [tick, hs]

theorem tick_POSITIVE_Y (i : Input) (s : Ctl) (hs : s.motor_state = POSITIVE_Y) :
    tick i s = tickPOSITIVE_Y i s := by
  simp only [tick, hs]

theorem tick_NEGATIVE_Y (i : Input) (s : Ctl) (hs : s.motor_state = NEGATIVE_Y) :
    tick i s = tickNEGATIVE_Y s := by
  simp only [tick, hs]

theorem tick_REWIND (i : Input) (s : Ctl) (hs : s.motor_state = REWIND) :
    tick i s = tickREWIND s := by
  simp only [tick, hs]

theorem tickEvents_of_trace (i : Input) (s : Ctl) (evs : List Event)
    (h : (tick i s).trace = s.trace ++ evs) : tickEvents i s = evs := by
  rw [tickEvents, h, drop_trace]

theorem whileLoop_frame {α : Type} (f : Ctl → α) (cond : Ctl → Bool) (body : Ctl → Ctl)
    (hb : ∀ s, f (body s) = f s) (k : Nat) : ∀ s : Ctl, f (whileLoop cond body k s) = f s := by
  induction k with
  | zero => intro s; rfl
  | succ k ih =>
    intro s
    rw [whileLoop]
    split
    · rw [ih, hb]
    · rfl

theorem posXBody_motor_state (s : Ctl) : (posXBody s).motor_state = s.motor_state := by
  simp only [posXBody, pulse_eq, positionWrite_eq]
  split <;> rfl

theorem negXBody_motor_state (s : Ctl) : (negXBody s).motor_state = s.motor_state := by
  simp only [negXBody, pulse_eq, positionWrite_eq]
  split <;> rfl

theorem rewindXBody_motor_state (s : Ctl) : (rewindXBody s).motor_state = s.motor_state := by
  simp only [rewindXBody, pulse_eq]

/-! ## Fields of the control variables -/

theorem core_motor_state (s : Ctl) : s.core.motor_state = s.motor_state := rfl

theorem core_next_x_motor_state (s : Ctl) : s.core.next_x_motor_state = s.next_x_motor_state := rfl

theorem core_x_position (s : Ctl) : s.core.x_position = s.x_position := rfl

theorem core_y_position (s : Ctl) : s.core.y_position = s.y_position := rfl

theorem core_num_comp_rows (s : Ctl) : s.core.num_comp_rows = s.num_comp_rows := rfl

theorem core_NUM_ROWS (s : Ctl) : s.core.NUM_ROWS = s.NUM_ROWS := rfl

theorem core_Y_REWIND (s : Ctl) : s.core.Y_REWIND = s.Y_REWIND := rfl

theorem core_com (s : Ctl) : s.core.com = s.com := rfl

theorem core_size (s : Ctl) : s.core.size = s.size := rfl

theorem core_positionFile (s : Ctl) : s.core.positionFile = s.positionFile := rfl

theorem core_timeInfo (s : Ctl) : s.core.timeInfo = s.timeInfo := rfl

/-! ## C1 -/

/-- C1 (closed transition set), evaluated where the code leaves the table: after
two complete scans of size 2, each followed by a rewind, and the start of a scan
of size 1, the controller is in POSITIVE_X with `num_comp_rows = 20` and
`NUM_ROWS = 10`, and the next iteration leaves the state at POSITIVE_X, a
transition that the table does not contain. -/
theorem C1_positive_x_tick_stays_in_positive_x :
    (run (initial lowLines) twoSize2ScansThenSize1).motor_state = POSITIVE_X
    ∧ (run (initial lowLines) twoSize2ScansThenSize1).num_comp_rows = 20
    ∧ (run (initial lowLines) twoSize2ScansThenSize1).NUM_ROWS = 10
    ∧ (tick (reads 1 0) (run (initial lowLines) twoSize2ScansThenSize1)).motor_state
        = POSITIVE_X
    ∧ tableStep POSITIVE_X POSITIVE_X = false := by
  refine ⟨?_, ?_, ?_, ?_, rfl⟩
  · rw [← core_motor_state, core_twoSize2ScansThenSize1]
  · rw [← core_num_comp_rows, core_twoSize2ScansThenSize1]
  · rw [← core_NUM_ROWS, core_twoSize2ScansThenSize1]
  · rw [← core_motor_state, core_tick _ _ (reachable_inRange _ _),
      core_twoSize2ScansThenSize1]
    decide

/-- Every transition a reachable state can take is in the table, except that
POSITIVE_X stays at POSITIVE_X when `num_comp_rows` exceeds `NUM_ROWS`. -/
theorem transition_in_table_or_stuck (hw : Lines) (is : List Input) (i : Input) :
    tableStep (run (initial hw) is).motor_state (tick i (run (initial hw) is)).motor_state
        = true
    ∨ ((run (initial hw) is).motor_state = POSITIVE_X
        ∧ (tick i (run (initial hw) is)).motor_state = POSITIVE_X
        ∧ (run (initial hw) is).NUM_ROWS < (run (initial hw) is).num_comp_rows) := by
  have hI := reachable_Inv hw is
  have hR := reachable_inRange hw is
  have ht := congrArg Core.motor_state (core_tick i _ hR)
  generalize run (initial hw) is = s at hI hR ht
  obtain ⟨h1, h2, h3, h4, h5, h6, h7⟩ := hI
  change (tick i s).motor_state = (coreTick i s.core).motor_state at ht
  rw [ht]
  have hm : s.core.motor_state = s.motor_state := rfl
  have hn : s.core.next_x_motor_state = s.next_x_motor_state := rfl
  cases hs : s.motor_state with
  | READY =>
    left
    simp only [coreTick, hm, hs, coreREADY]
    split <;> simp [tableStep, hs]
  | IDLE =>
    left
    simp only [coreTick, hm, hs, coreIDLE]
    split <;> simp [tableStep, hs]
  | POSITIVE_X =>
    simp only [coreTick, hm, hs, corePOSITIVE_X]
    have hx : s.core.x_position + (MAX_X_POSITION - s.core.x_position) = MAX_X_POSITION := by
      omega
    by_cases hlt : s.core.num_comp_rows < s.core.NUM_ROWS
    · left
      simp only [hx, hlt, and_self, decide_True, if_true]
      split_ifs <;> simp [tableStep]
    · by_cases heq : s.core.num_comp_rows = s.core.NUM_ROWS
      · left
        simp [hx, hlt, heq, tableStep]
      · right
        have hgt : s.NUM_ROWS < s.num_comp_rows := by
          change s.core.NUM_ROWS < s.core.num_comp_rows
          omega
        simp [hx, hlt, heq, hs, hgt]
  | NEGATIVE_X =>
    left
    simp only [coreTick, hm, hs, coreNEGATIVE_X]
    split <;> simp [tableStep]
  | POSITIVE_Y =>
    left
    have h5 := h5 (hm.trans hs)
    simp only [coreTick, hm, hs, corePOSITIVE_Y]
    split_ifs
    · simp [tableStep]
    · rcases h4 with h | h | h
      · exact absurd h h5
      · simp [h, tableStep]
      · simp [h, tableStep]
  | NEGATIVE_Y => exact absurd (hm.trans hs) h3
  | REWIND =>
    left
    simp [coreTick, hm, hs, coreREWIND, tableStep]



/-! ## C2 -/

/-- The state in which the first scan of size 1, paused at the end of its first
sweep, starts its REWIND iteration. -/
theorem core_pausedBeforeRewind (hw : Lines) :
    (run (initial hw) [reads 1 0, reads 1 1, reads 1 2]).core =
      { motor_state := REWIND, next_x_motor_state := NEGATIVE_X, x_position := 7000
        y_position := 0, num_comp_rows := 1, NUM_ROWS := 10, Y_REWIND := 3000
        com := 2, size := 1, positionFile := FStream.closed, timeInfo := FStream.closed } := by
  rw [core_run _ _ (initial_inRange hw), core_initial]
  decide

/-- C2 (REWIND): a REWIND iteration entered with any `x_position`, `y_position`
and `NUM_ROWS` (of their types; the `int` counter of the outer loop needs
`NUM_ROWS` up to `INT_MAX`) writes, in this order, the Y driver set-up, exactly
`NUM_ROWS * MAX_Y_POSITION` pulses on pulY, the X driver set-up, exactly
`x_position` pulses on pulX, and all eight lines LOW; it ends with
`x_position = 0`, enaX and enaY LOW and the state READY. -/
theorem C2_rewind_tick (i : Input) (s : Ctl) (hs : s.motor_state = REWIND)
    (hx : s.x_position < UINT32) (_hn : s.NUM_ROWS ≤ 2147483647) :
    tickEvents i s =
        [Event.setValue Pin.enaX false, Event.setValue Pin.enaY true,
          Event.setValue Pin.dirY true]
        ++ rewindYEvents s.positionFile s.x_position s.y_position
             (s.NUM_ROWS * MAX_Y_POSITION)
        ++ [Event.setValue Pin.enaY false, Event.setValue Pin.enaX true,
            Event.setValue Pin.dirX true]
        ++ rewindXEvents s.x_position
        ++ [Event.setValue Pin.optoX false, Event.setValue Pin.pulX false,
            Event.setValue Pin.dirX false, Event.setValue Pin.enaX false,
            Event.setValue Pin.optoY false, Event.setValue Pin.pulY false,
            Event.setValue Pin.dirY false, Event.setValue Pin.enaY false]
    ∧ pulses Pin.pulY (rewindYEvents s.positionFile s.x_position s.y_position
        (s.NUM_ROWS * MAX_Y_POSITION)) = s.NUM_ROWS * MAX_Y_POSITION
    ∧ pulses Pin.pulX (rewindYEvents s.positionFile s.x_position s.y_position
        (s.NUM_ROWS * MAX_Y_POSITION)) = 0
    ∧ pulses Pin.pulX (rewindXEvents s.x_position) = s.x_position
    ∧ pulses Pin.pulY (rewindXEvents s.x_position) = 0
    ∧ pulses Pin.pulY (tickEvents i s) = s.NUM_ROWS * MAX_Y_POSITION
    ∧ pulses Pin.pulX (tickEvents i s) = s.x_position
    ∧ (tick i s).x_position = 0
    ∧ (tick i s).lines.enaX = false
    ∧ (tick i s).lines.enaY = false
    ∧ (tick i s).motor_state = READY := by
  have hev := tickEvents_of_trace i s _
    ((congrArg Ctl.trace (tick_REWIND i s hs)).trans (tickREWIND_trace s hx))
  have hE : (rewindSwitch (rewindYTrain (rewindEntry s))).x_position < UINT32 := by
    simpa [rewindSwitch, rewindYTrain_eq, rewindEntry, setValue] using hx
  refine ⟨hev, ?_, ?_, ?_, ?_, ?_, ?_, ?_, ?_, ?_, ?_⟩
  · simp [pulses_rewindYEvents]
  · simp [pulses_rewindYEvents]
  · simp [pulses_rewindXEvents]
  · simp [pulses_rewindXEvents]
  · rw [hev]
    simp [pulses_append, pulses_setValue, pulses_nil, pulses_rewindYEvents,
      pulses_rewindXEvents]
  · rw [hev]
    simp [pulses_append, pulses_setValue, pulses_nil, pulses_rewindYEvents,
      pulses_rewindXEvents]
  · rw [tick_REWIND i s hs]
    simp only [tickREWIND, rewindExit, rewindXTrain_eq _ hE, setValue]
  · rw [tick_REWIND i s hs]
    simp [tickREWIND, rewindExit, setValue, Lines.set]
  · rw [tick_REWIND i s hs]
    simp [tickREWIND, rewindExit, setValue, Lines.set]
  · rw [tick_REWIND i s hs]
    simp [tickREWIND, rewindExit, setValue]

/-- C2 at the REWIND iteration of a scan of size 1 paused after its first sweep:
3000 pulses on pulY, 7000 on pulX, and `x_position` back at 0. -/
theorem C2_rewind_tick_witness :
    pulses Pin.pulY (tickEvents (reads 1 2)
        (run (initial lowLines) [reads 1 0, reads 1 1, reads 1 2])) = 3000
    ∧ pulses Pin.pulX (tickEvents (reads 1 2)
        (run (initial lowLines) [reads 1 0, reads 1 1, reads 1 2])) = 7000
    ∧ (tick (reads 1 2)
        (run (initial lowLines) [reads 1 0, reads 1 1, reads 1 2])).x_position = 0
    ∧ (tick (reads 1 2)
        (run (initial lowLines) [reads 1 0, reads 1 1, reads 1 2])).motor_state = READY := by
  have hs : (run (initial lowLines) [reads 1 0, reads 1 1, reads 1 2]).motor_state
      = REWIND := by
    rw [← core_motor_state, core_pausedBeforeRewind]
  have hx : (run (initial lowLines) [reads 1 0, reads 1 1, reads 1 2]).x_position
      = 7000 := by
    rw [← core_x_position, core_pausedBeforeRewind]
  have hn : (run (initial lowLines) [reads 1 0, reads 1 1, reads 1 2]).NUM_ROWS
      = 10 := by
    rw [← core_NUM_ROWS, core_pausedBeforeRewind]
  have h := C2_rewind_tick (reads 1 2)
    (run (initial lowLines) [reads 1 0, reads 1 1, reads 1 2]) hs
    (by rw [hx]; decide) (by rw [hn]; decide)
  obtain ⟨_, _, _, _, _, h6, h7, h8, _, _, h11⟩ := h
  rw [hn] at h6
  rw [hx] at h7
  exact ⟨h6, h7, h8, h11⟩



/-! ## C3 -/

set_option maxRecDepth 1000000 in
theorem core_firstRaster (hw : Lines) :
    (run (initial hw) firstRaster).core =
      { motor_state := IDLE, next_x_motor_state := POSITIVE_X, x_position := 0
        y_position := 3000, num_comp_rows := 5, NUM_ROWS := 10, Y_REWIND := 3000
        com := 0, size := 1, positionFile := FStream.good, timeInfo := FStream.good } := by
  rw [core_run _ _ (initial_inRange hw), core_initial]
  decide

set_option maxRecDepth 1000000 in
theorem visited_firstRaster (hw : Lines) :
    visited (initial hw) firstRaster =
      [READY,
       POSITIVE_X, POSITIVE_Y, NEGATIVE_X, POSITIVE_Y,
       POSITIVE_X, POSITIVE_Y, NEGATIVE_X, POSITIVE_Y,
       POSITIVE_X, POSITIVE_Y, NEGATIVE_X, POSITIVE_Y,
       POSITIVE_X, POSITIVE_Y, NEGATIVE_X, POSITIVE_Y,
       POSITIVE_X, POSITIVE_Y, NEGATIVE_X, POSITIVE_Y] := by
  rw [visited_eq _ _ (initial_inRange hw), core_initial]
  decide

/-- C3 (raster completion), evaluated on the first scan of size 1: the start
command is read in READY and no pause is read afterwards; the controller makes
10 alternating X sweeps (five POSITIVE_X, five NEGATIVE_X) and 10 Y steps and is
then in IDLE with `NUM_ROWS = 10` and `y_position = Y_REWIND = 3000`, but with
`num_comp_rows = 5`, not 10: NEGATIVE_X sweeps are not counted. -/
theorem C3_first_raster_counts_five_rows :
    visited (initial lowLines) firstRaster =
      [READY,
       POSITIVE_X, POSITIVE_Y, NEGATIVE_X, POSITIVE_Y,
       POSITIVE_X, POSITIVE_Y, NEGATIVE_X, POSITIVE_Y,
       POSITIVE_X, POSITIVE_Y, NEGATIVE_X, POSITIVE_Y,
       POSITIVE_X, POSITIVE_Y, NEGATIVE_X, POSITIVE_Y,
       POSITIVE_X, POSITIVE_Y, NEGATIVE_X, POSITIVE_Y]
    ∧ (run (initial lowLines) firstRaster).motor_state = IDLE
    ∧ (run (initial lowLines) firstRaster).NUM_ROWS = 10
    ∧ (run (initial lowLines) firstRaster).y_position = 3000
    ∧ (run (initial lowLines) firstRaster).Y_REWIND = 3000
    ∧ (run (initial lowLines) firstRaster).num_comp_rows = 5 := by
  refine ⟨visited_firstRaster lowLines, ?_, ?_, ?_, ?_, ?_⟩
  · rw [← core_motor_state, core_firstRaster]
  · rw [← core_NUM_ROWS, core_firstRaster]
  · rw [← core_y_position, core_firstRaster]
  · rw [← core_Y_REWIND, core_firstRaster]
  · rw [← core_num_comp_rows, core_firstRaster]

/-! ## C4 -/

theorem positionLines_positionEvents_of_not_writable (f : FStream) (x y : Nat)
    (h : f.writable = false) : positionLines (positionEvents f x y) = [] := by
  simp [positionEvents, h, positionLines]

theorem positionLines_upEvents_of_not_writable (f : FStream) (y : Nat)
    (h : f.writable = false) (n : Nat) : ∀ x : Nat,
    positionLines (upEvents f y x n) = [] := by
  induction n with
  | zero => intro x; rfl
  | succ n ih =>
    intro x
    simp only [upEvents, positionLines_append, ih, List.append_nil]
    split
    · simp [pulseEvents, positionLines, positionLines_positionEvents_of_not_writable f _ _ h]
    · simp [pulseEvents, positionLines]

theorem positionLines_timingEvents (f : FStream) (a b : timespec) :
    positionLines (timingEvents f a b) = [] := by
  unfold timingEvents
  split <;> rfl

theorem positionLines_tickPOSITIVE_X (i : Input) (s : Ctl)
    (hs : s.motor_state = POSITIVE_X) :
    positionLines (tickEvents i s) =
      positionLines (upEvents s.positionFile s.y_position s.x_position
        (MAX_X_POSITION - s.x_position)) := by
  rw [tickEvents_of_trace i s _
    ((congrArg Ctl.trace (tick_POSITIVE_X i s hs)).trans (tickPOSITIVE_X_trace i s))]
  simp only [positionLines_append, positionLines_timingEvents]
  split <;> simp [positionLines, positionLines_append, positionLines_timingEvents]

theorem core_pausedThenRestarted (hw : Lines) :
    (run (initial hw) pausedThenRestarted).core =
      { motor_state := POSITIVE_X, next_x_motor_state := NEGATIVE_X, x_position := 0
        y_position := 0, num_comp_rows := 1, NUM_ROWS := 10, Y_REWIND := 3000
        com := 0, size := 1, positionFile := FStream.closed, timeInfo := FStream.good } := by
  rw [core_run _ _ (initial_inRange hw), core_initial]
  decide

/-- C4 (POSITIVE_X sweep and its log), evaluated on a scan started after a
REWIND: a scan of size 1 is paused at the end of its first sweep, rewound and
started again with size 1.  Its first POSITIVE_X iteration starts at
`x_position = 0` and ends at 7000, and writes no line at all to the position
log, because IDLE closed the log and nothing reopens it. -/
theorem C4_no_position_log_after_rewind :
    (run (initial lowLines) pausedThenRestarted).motor_state = POSITIVE_X
    ∧ (run (initial lowLines) pausedThenRestarted).x_position = 0
    ∧ (tick (reads 1 0) (run (initial lowLines) pausedThenRestarted)).x_position = 7000
    ∧ positionLines (tickEvents (reads 1 0) (run (initial lowLines) pausedThenRestarted))
        = [] := by
  have hs : (run (initial lowLines) pausedThenRestarted).motor_state = POSITIVE_X := by
    rw [← core_motor_state, core_pausedThenRestarted]
  have hf : (run (initial lowLines) pausedThenRestarted).positionFile = FStream.closed := by
    rw [← core_positionFile, core_pausedThenRestarted]
  refine ⟨hs, ?_, ?_, ?_⟩
  · rw [← core_x_position, core_pausedThenRestarted]
  · rw [← core_x_position, core_tick _ _ (reachable_inRange _ _), core_pausedThenRestarted]
    decide
  · rw [positionLines_tickPOSITIVE_X _ _ hs]
    exact positionLines_upEvents_of_not_writable _ _ (by rw [hf]; rfl) _ _



/-! ### The log of a sweep that starts at 0 with the log open -/

theorem upEvents_add (f : FStream) (y : Nat) (a b : Nat) : ∀ x : Nat,
    upEvents f y x (a + b) = upEvents f y x a ++ upEvents f y (x + a) b := by
  induction a with
  | zero => intro x; simp [upEvents]
  | succ a ih =>
    intro x
    rw [Nat.add_right_comm, upEvents, upEvents, ih]
    simp only [List.append_assoc]
    rw [Nat.add_assoc x 1 a, Nat.add_comm 1 a]

theorem positionLines_upEvents_none (f : FStream) (y : Nat) (n : Nat) : ∀ x : Nat,
    (∀ m, x < m → m ≤ x + n → m % MOD_NUM ≠ 0) →
    positionLines (upEvents f y x n) = [] := by
  induction n with
  | zero => intro x _; rfl
  | succ n ih =>
    intro x h
    have h1 : (x + 1) % MOD_NUM ≠ 0 := h (x + 1) (by omega) (by omega)
    have h2 := ih (x + 1) (fun m hm1 hm2 => h m (by omega) (by omega))
    simp [upEvents, positionLines_append, h1, h2, pulseEvents, positionLines]

theorem positionLines_upEvents_block (y k : Nat) :
    positionLines (upEvents FStream.good y (100 * k) 100) = [(100 * (k + 1), y)] := by
  have h99 : positionLines (upEvents FStream.good y (100 * k) 99) = [] := by
    apply positionLines_upEvents_none
    intro m h1 h2
    simp only [Nat.reduceMod, MOD_NUM]
    omega
  have hlast : (100 * (k + 1)) % MOD_NUM = 0 := by
    simp only [Nat.reduceMod, MOD_NUM]
    omega
  have hval : 100 * k + 99 + 1 = 100 * (k + 1) := by omega
  rw [show (100 : Nat) = 99 + 1 from rfl, upEvents_add, positionLines_append, h99]
  simp only [upEvents, positionLines_append, hval]
  rw [if_pos hlast]
  simp [pulseEvents, positionLines, positionEvents, FStream.writable]

theorem positionLines_upEvents_blocks (y : Nat) (k : Nat) :
    positionLines (upEvents FStream.good y 0 (100 * k))
      = (List.range k).map (fun j => (100 * (j + 1), y)) := by
  induction k with
  | zero => rfl
  | succ k ih =>
    rw [Nat.mul_succ, upEvents_add, positionLines_append, ih, Nat.zero_add,
      positionLines_upEvents_block, List.range_succ, List.map_append]
    rfl

/-- The first POSITIVE_X sweep of the first scan (the position log is still
open) goes from 0 to 7000 and logs the 70 lines `100 y`, `200 y`, ..., `7000 y`. -/
theorem first_sweep_position_log (i : Input) (s : Ctl) (hs : s.motor_state = POSITIVE_X)
    (hx : s.x_position = 0) (hf : s.positionFile = FStream.good) :
    (tick i s).x_position = MAX_X_POSITION
    ∧ positionLines (tickEvents i s)
        = (List.range 70).map (fun j => (100 * (j + 1), s.y_position)) := by
  constructor
  · rw [← core_x_position, tick_POSITIVE_X i s hs, core_tickPOSITIVE_X]
    simp only [corePOSITIVE_X, core_x_position, hx]
    rfl
  · rw [positionLines_tickPOSITIVE_X i s hs, hx, hf]
    exact positionLines_upEvents_blocks s.y_position 70



/-! ## C5 -/

theorem pulses_completeEvents (pin : Pin) (c : Prop) [Decidable c] (f : FStream)
    (a b : timespec) :
    pulses pin (if c then timingEvents f a b ++ [Event.time_scp] else []) = 0 := by
  split
  · rw [pulses_append, pulses_timingEvents]
    rfl
  · rfl

theorem pulses_tickPOSITIVE_X (i : Input) (s : Ctl) (hs : s.motor_state = POSITIVE_X) :
    pulses Pin.pulX (tickEvents i s) = MAX_X_POSITION - s.x_position := by
  rw [tickEvents_of_trace i s _
    ((congrArg Ctl.trace (tick_POSITIVE_X i s hs)).trans (tickPOSITIVE_X_trace i s))]
  simp only [pulses_append, pulses_timingEvents, pulses_upEvents, pulses_completeEvents,
    pulses_setValue, pulses_nil]
  simp

theorem pulses_tickNEGATIVE_X (i : Input) (s : Ctl) (hs : s.motor_state = NEGATIVE_X)
    (hx : s.x_position < UINT32) :
    pulses Pin.pulX (tickEvents i s) = s.x_position := by
  rw [tickEvents_of_trace i s _
    ((congrArg Ctl.trace (tick_NEGATIVE_X i s hs)).trans (tickNEGATIVE_X_trace i s hx))]
  simp [pulses_append, pulses_timingEvents, pulses_downEvents, pulses_setValue, pulses_nil]

theorem posXEntry_motor_state (i : Input) (s : Ctl) :
    (posXEntry i s).motor_state = s.motor_state := by
  simp [posXEntry, readCommand_eq, timingWrite_eq, setValue]

theorem negXEntry_motor_state (i : Input) (s : Ctl) :
    (negXEntry i s).motor_state = s.motor_state := by
  simp [negXEntry, readCommand_eq, timingWrite_eq, setValue]

theorem midSweep_motor_state (i : Input) (s : Ctl) (k : Nat) :
    (midSweep i s k).motor_state = s.motor_state := by
  unfold midSweep
  split
  · rw [whileLoop_frame Ctl.motor_state _ _ posXBody_motor_state, posXEntry_motor_state]
  · rw [whileLoop_frame Ctl.motor_state _ _ negXBody_motor_state, negXEntry_motor_state]
  · rw [whileLoop_frame Ctl.motor_state _ _ rewindXBody_motor_state]
    simp [rewindSwitch, rewindYTrain_eq, rewindEntry, setValue]
  · rfl

/-- C5 as stated fails.  In the first POSITIVE_X iteration of the first scan of
size 1, the pause command 1 is read before the sweep and the command 0 after
it: the sweep runs to `x_position = 7000` and the next state is POSITIVE_Y, not
IDLE, because the value read after the sweep replaces the one read before it.
In the POSITIVE_X state reached after two scans of size 2 and the start of a
scan of size 1, where `num_comp_rows` has passed `NUM_ROWS`, the pause command is
read by both reads of the iteration and the next state is POSITIVE_X, not
IDLE. -/
theorem C5_counterexample :
    (run (initial lowLines) [reads 1 0]).motor_state = POSITIVE_X
    ∧ (tick { reads 1 1 with com2 := some 0 }
        (run (initial lowLines) [reads 1 0])).x_position = 7000
    ∧ (tick { reads 1 1 with com2 := some 0 }
        (run (initial lowLines) [reads 1 0])).motor_state = POSITIVE_Y
    ∧ (run (initial lowLines) twoSize2ScansThenSize1).motor_state = POSITIVE_X
    ∧ (tick (reads 1 1) (run (initial lowLines) twoSize2ScansThenSize1)).com = 1
    ∧ (tick (reads 1 1) (run (initial lowLines) twoSize2ScansThenSize1)).motor_state
        = POSITIVE_X := by
  have hc : (run (initial lowLines) [reads 1 0]).core =
      { motor_state := POSITIVE_X, next_x_motor_state := IDLE, x_position := 0
        y_position := 0, num_comp_rows := 0, NUM_ROWS := 10, Y_REWIND := 3000
        com := 0, size := 1, positionFile := FStream.good, timeInfo := FStream.good } := by
    rw [core_run _ _ (initial_inRange lowLines), core_initial]
    decide
  refine ⟨?_, ?_, ?_, ?_, ?_, ?_⟩
  · rw [← core_motor_state, hc]
  · rw [← core_x_position, core_tick _ _ (reachable_inRange _ _), hc]
    decide
  · rw [← core_motor_state, core_tick _ _ (reachable_inRange _ _), hc]
    decide
  · rw [← core_motor_state, core_twoSize2ScansThenSize1]
  · rw [← core_com, core_tick _ _ (reachable_inRange _ _), core_twoSize2ScansThenSize1]
    decide
  · rw [← core_motor_state, core_tick _ _ (reachable_inRange _ _),
      core_twoSize2ScansThenSize1]
    decide

/-- C5 amended (pause only at a sweep boundary): in a POSITIVE_X iteration
entered with `x_position` within the travel, and in a NEGATIVE_X iteration,
whatever the inputs are the state variable is untouched after any number of
iterations of the pulse loop, the loop emits the full train
(`MAX_X_POSITION - x_position`, resp. `x_position`, pulses on pulX) and leaves
`x_position` at the travel limit (`MAX_X_POSITION`, resp. 0).  The command is acted
on after the loop, and it is the command held after the last read of the
iteration: in POSITIVE_X the read after the sweep (which replaces the value
read before it), in NEGATIVE_X the read before the sweep.  When that command is
1 the next state is IDLE (in POSITIVE_X while `num_comp_rows` has not passed
`NUM_ROWS`); when it is not 1 the next state of NEGATIVE_X is POSITIVE_Y, and so
is that of POSITIVE_X when the row counted is not the last one. -/
theorem C5_pause_only_at_sweep_boundary (i : Input) (s : Ctl)
    (hx : s.x_position ≤ MAX_X_POSITION) :
    (s.motor_state = POSITIVE_X →
      (∀ k, (midSweep i s k).motor_state = POSITIVE_X)
      ∧ (tick i s).x_position = MAX_X_POSITION
      ∧ pulses Pin.pulX (tickEvents i s) = MAX_X_POSITION - s.x_position
      ∧ (tick i s).com = i.com2.getD (i.com1.getD s.com)
      ∧ ((tick i s).com = 1 → s.num_comp_rows ≤ s.NUM_ROWS →
          (tick i s).motor_state = IDLE)
      ∧ ((tick i s).com ≠ 1 → s.num_comp_rows + 1 < s.NUM_ROWS → s.NUM_ROWS < UINT32 →
          (tick i s).motor_state = POSITIVE_Y))
    ∧ (s.motor_state = NEGATIVE_X →
      (∀ k, (midSweep i s k).motor_state = NEGATIVE_X)
      ∧ (tick i s).x_position = 0
      ∧ pulses Pin.pulX (tickEvents i s) = s.x_position
      ∧ (tick i s).com = i.com1.getD s.com
      ∧ ((tick i s).com = 1 → (tick i s).motor_state = IDLE)
      ∧ ((tick i s).com ≠ 1 → (tick i s).motor_state = POSITIVE_Y)) := by
  have hU : s.x_position < UINT32 := Nat.lt_of_le_of_lt hx MAX_X_lt_UINT32
  have hxm : s.x_position + (MAX_X_POSITION - s.x_position) = MAX_X_POSITION := by
    omega
  constructor
  · intro hs
    have hc : (tick i s).core = corePOSITIVE_X i s.core := by
      rw [tick_POSITIVE_X i s hs]
      exact core_tickPOSITIVE_X i s
    have ec := congrArg Core.com hc
    have em := congrArg Core.motor_state hc
    simp only [core_com, core_motor_state, corePOSITIVE_X, core_x_position,
      core_num_comp_rows, core_NUM_ROWS] at ec em
    refine ⟨fun k => (midSweep_motor_state i s k).trans hs, ?_,
      pulses_tickPOSITIVE_X i s hs, ec, ?_, ?_⟩
    · rw [← core_x_position, hc]
      simp only [corePOSITIVE_X, core_x_position]
      omega
    · intro h1 hle
      rw [ec] at h1
      rw [em]
      by_cases hlt : s.num_comp_rows < s.NUM_ROWS
      · simp [hxm, hlt, h1]
      · have heq : s.num_comp_rows = s.NUM_ROWS := by omega
        simp [hxm, heq]
    · intro h1 hlt hn
      rw [ec] at h1
      rw [em]
      have hlt0 : s.num_comp_rows < s.NUM_ROWS := by omega
      have hm : (s.num_comp_rows + 1) % UINT32 = s.num_comp_rows + 1 :=
        Nat.mod_eq_of_lt (by omega)
      have hne : ¬ s.num_comp_rows + 1 = s.NUM_ROWS := by omega
      simp [hxm, hlt0, h1, hm, hne]
  · intro hs
    have hc : (tick i s).core = coreNEGATIVE_X i s.core := by
      rw [tick_NEGATIVE_X i s hs]
      exact core_tickNEGATIVE_X i s hU
    have ec := congrArg Core.com hc
    have em := congrArg Core.motor_state hc
    simp only [core_com, core_motor_state, coreNEGATIVE_X] at ec em
    refine ⟨fun k => (midSweep_motor_state i s k).trans hs, ?_,
      pulses_tickNEGATIVE_X i s hs hU, ec, ?_, ?_⟩
    · rw [← core_x_position, hc]
      rfl
    · intro h1
      rw [ec] at h1
      rw [em, if_pos h1]
    · intro h1
      rw [ec] at h1
      rw [em, if_neg h1]

/-- C5 amended, at the first POSITIVE_X iteration of the first scan, with the
pause command in the command file at both reads: 7000 pulses,
`x_position = 7000`, then IDLE. -/
theorem C5_pause_only_at_sweep_boundary_witness :
    pulses Pin.pulX (tickEvents (reads 1 1) (run (initial lowLines) [reads 1 0])) = 7000
    ∧ (tick (reads 1 1) (run (initial lowLines) [reads 1 0])).x_position = 7000
    ∧ (tick (reads 1 1) (run (initial lowLines) [reads 1 0])).motor_state = IDLE := by
  have hc : (run (initial lowLines) [reads 1 0]).core =
      { motor_state := POSITIVE_X, next_x_motor_state := IDLE, x_position := 0
        y_position := 0, num_comp_rows := 0, NUM_ROWS := 10, Y_REWIND := 3000
        com := 0, size := 1, positionFile := FStream.good, timeInfo := FStream.good } := by
    rw [core_run _ _ (initial_inRange lowLines), core_initial]
    decide
  have hs : (run (initial lowLines) [reads 1 0]).motor_state = POSITIVE_X := by
    rw [← core_motor_state, hc]
  have hx : (run (initial lowLines) [reads 1 0]).x_position = 0 := by
    rw [← core_x_position, hc]
  have hr : (run (initial lowLines) [reads 1 0]).num_comp_rows = 0 := by
    rw [← core_num_comp_rows, hc]
  have h := (C5_pause_only_at_sweep_boundary (reads 1 1)
    (run (initial lowLines) [reads 1 0]) (by rw [hx]; decide)).1 hs
  obtain ⟨_, h2, h3, h4, h5, _⟩ := h
  rw [hx] at h3
  exact ⟨h3, h2, h5 (h4.trans rfl) (by rw [hr]; exact Nat.zero_le _)⟩



/-! ## C6 -/

theorem launches_tickEvents (i : Input) (s : Ctl) (h : s.inRange) :
    (tick i s).trace = s.trace ++ tickEvents i s
    ∧ launches (tickEvents i s) =
        if s.motor_state = READY ∧ i.com1.getD s.com = 0 then
          [(i.size.getD s.size, i.fileName.getD s.imgFileName)]
        else [] := by
  cases hs : s.motor_state with
  | READY =>
    have ht := (congrArg Ctl.trace (tick_READY i s hs)).trans (tickREADY_trace i s)
    have he := tickEvents_of_trace i s _ ht
    refine ⟨by rw [he]; exact ht, ?_⟩
    rw [he]
    by_cases hc : i.com1.getD s.com = 0 <;> simp [hc, launches]
  | IDLE =>
    have ht := (congrArg Ctl.trace (tick_IDLE i s hs)).trans (tickIDLE_trace i s)
    have he := tickEvents_of_trace i s _ ht
    refine ⟨by rw [he]; exact ht, ?_⟩
    rw [he]
    simp [launches]
  | POSITIVE_X =>
    have ht := (congrArg Ctl.trace (tick_POSITIVE_X i s hs)).trans
      (tickPOSITIVE_X_trace i s)
    have he := tickEvents_of_trace i s _ ht
    refine ⟨by rw [he]; exact ht, ?_⟩
    rw [he]
    simp only [launches_append, launches_timingEvents, launches_upEvents]
    split <;> simp [launches, launches_append, launches_timingEvents]
  | NEGATIVE_X =>
    have ht := (congrArg Ctl.trace (tick_NEGATIVE_X i s hs)).trans
      (tickNEGATIVE_X_trace i s h.1)
    have he := tickEvents_of_trace i s _ ht
    refine ⟨by rw [he]; exact ht, ?_⟩
    rw [he]
    simp only [launches_append, launches_timingEvents, launches_downEvents,
      List.append_nil, List.nil_append]
    rfl
  | POSITIVE_Y =>
    have ht := (congrArg Ctl.trace (tick_POSITIVE_Y i s hs)).trans
      (tickPOSITIVE_Y_trace i s h.2)
    have he := tickEvents_of_trace i s _ ht
    refine ⟨by rw [he]; exact ht, ?_⟩
    rw [he]
    simp only [launches_append, launches_timingEvents, launches_yUpEvents,
      List.append_nil, List.nil_append]
    rfl
  | NEGATIVE_Y =>
    have ht := (congrArg Ctl.trace (tick_NEGATIVE_Y i s hs)).trans (tickNEGATIVE_Y_trace s)
    have he := tickEvents_of_trace i s _ ht
    refine ⟨by rw [he]; exact ht, ?_⟩
    rw [he]
    simp only [launches_append, launches_pulseEvents, List.append_nil]
    rfl
  | REWIND =>
    have ht := (congrArg Ctl.trace (tick_REWIND i s hs)).trans (tickREWIND_trace s h.1)
    have he := tickEvents_of_trace i s _ ht
    refine ⟨by rw [he]; exact ht, ?_⟩
    rw [he]
    simp only [launches_append, launches_rewindYEvents, launches_rewindXEvents,
      List.append_nil, List.nil_append]
    rfl

theorem whileLoop_invariant (P : Ctl → Prop) (cond : Ctl → Bool) (body : Ctl → Ctl)
    (hb : ∀ s, cond s = true → P s → P (body s)) (k : Nat) :
    ∀ s : Ctl, P s → P (whileLoop cond body k s) := by
  induction k with
  | zero => intro s h; exact h
  | succ k ih =>
    intro s h
    rw [whileLoop]
    split
    · next hc => exact ih _ (hb s hc h)
    · exact h

theorem posXBody_x_le (s : Ctl) (hc : posXCond s = true) :
    (posXBody s).x_position ≤ MAX_X_POSITION := by
  have hlt : s.x_position < MAX_X_POSITION := by simpa [posXCond] using hc
  rw [posXBody_eq s hlt]
  exact hlt

theorem negXBody_x_le (s : Ctl) (hc : negXCond s = true)
    (h : s.x_position ≤ MAX_X_POSITION) : (negXBody s).x_position ≤ MAX_X_POSITION := by
  have hpos : 0 < s.x_position := by simpa [negXCond] using hc
  have hM := MAX_X_lt_UINT32
  rw [negXBody_eq s (s.x_position - 1) (by omega) (by omega)]
  show s.x_position - 1 ≤ MAX_X_POSITION
  omega

theorem rewindXBody_x_le (s : Ctl) (hc : negXCond s = true)
    (h : s.x_position ≤ MAX_X_POSITION) : (rewindXBody s).x_position ≤ MAX_X_POSITION := by
  have hpos : 0 < s.x_position := by simpa [negXCond] using hc
  have hM := MAX_X_lt_UINT32
  rw [rewindXBody_eq s (s.x_position - 1) (by omega) (by omega)]
  show s.x_position - 1 ≤ MAX_X_POSITION
  omega

theorem midSweep_x_le (i : Input) (s : Ctl) (k : Nat) (h : s.x_position ≤ MAX_X_POSITION) :
    (midSweep i s k).x_position ≤ MAX_X_POSITION := by
  unfold midSweep
  split
  · apply whileLoop_invariant (fun t => t.x_position ≤ MAX_X_POSITION) _ _
      (fun t hc _ => posXBody_x_le t hc)
    simpa [posXEntry, readCommand_eq, timingWrite_eq, setValue] using h
  · apply whileLoop_invariant (fun t => t.x_position ≤ MAX_X_POSITION) _ _
      (fun t hc ht => negXBody_x_le t hc ht)
    simpa [negXEntry, readCommand_eq, timingWrite_eq, setValue] using h
  · apply whileLoop_invariant (fun t => t.x_position ≤ MAX_X_POSITION) _ _
      (fun t hc ht => rewindXBody_x_le t hc ht)
    simpa [rewindSwitch, rewindYTrain_eq, rewindEntry, setValue] using h
  · exact h

/-- C7 (position invariant): in every state reachable from the initial state,
for every sequence of inputs, `x_position` is at most `MAX_X_POSITION` (and at
least 0, being a natural number), and so it is after any number of iterations of
an X pulse loop of the next iteration: no loop increments the counter at 7000
or wraps it below 0. -/
theorem C7_x_position_within_travel (hw : Lines) (is : List Input) (i : Input) (k : Nat) :
    0 ≤ (run (initial hw) is).x_position
    ∧ (run (initial hw) is).x_position ≤ MAX_X_POSITION
    ∧ (midSweep i (run (initial hw) is) k).x_position ≤ MAX_X_POSITION
    ∧ (tick i (run (initial hw) is)).x_position ≤ MAX_X_POSITION := by
  have h1 : (run (initial hw) is).x_position ≤ MAX_X_POSITION := (reachable_Inv hw is).1
  have h2 : (run (initial hw) (is ++ [i])).x_position ≤ MAX_X_POSITION :=
    (reachable_Inv hw (is ++ [i])).1
  rw [run_append] at h2
  exact ⟨Nat.zero_le _, h1, midSweep_x_le i _ k h1, h2⟩



/-! ## C8 -/

theorem core_firstRasterBeforeRewind (hw : Lines) :
    (run (initial hw) (firstRaster ++ [reads 1 2])).core =
      { motor_state := REWIND, next_x_motor_state := POSITIVE_X, x_position := 0
        y_position := 3000, num_comp_rows := 5, NUM_ROWS := 10, Y_REWIND := 3000
        com := 2, size := 1, positionFile := FStream.closed, timeInfo := FStream.closed } := by
  rw [run_append, core_run _ _ (reachable_inRange hw firstRaster), core_firstRaster]
  decide

/-- C8 (one counter adjustment per pulse), evaluated on the REWIND iteration
that follows the first raster of size 1: the iteration emits 3000 pulses on
pulY, and `y_position`, 3000 before, is still 3000 afterwards: the Y pulses of
REWIND are not followed by any adjustment of the counter. -/
theorem C8_rewind_leaves_y_position :
    (run (initial lowLines) (firstRaster ++ [reads 1 2])).motor_state = REWIND
    ∧ (run (initial lowLines) (firstRaster ++ [reads 1 2])).y_position = 3000
    ∧ pulses Pin.pulY
        (tickEvents (reads 1 2) (run (initial lowLines) (firstRaster ++ [reads 1 2])))
        = 3000
    ∧ (tick (reads 1 2)
        (run (initial lowLines) (firstRaster ++ [reads 1 2]))).y_position = 3000 := by
  have hs : (run (initial lowLines) (firstRaster ++ [reads 1 2])).motor_state
      = REWIND := by
    rw [← core_motor_state, core_firstRasterBeforeRewind]
  have hx : (run (initial lowLines) (firstRaster ++ [reads 1 2])).x_position = 0 := by
    rw [← core_x_position, core_firstRasterBeforeRewind]
  have hn : (run (initial lowLines) (firstRaster ++ [reads 1 2])).NUM_ROWS = 10 := by
    rw [← core_NUM_ROWS, core_firstRasterBeforeRewind]
  have hU : (run (initial lowLines) (firstRaster ++ [reads 1 2])).x_position < UINT32 :=
    (reachable_inRange _ _).1
  refine ⟨hs, ?_, ?_, ?_⟩
  · rw [← core_y_position, core_firstRasterBeforeRewind]
  · rw [tickEvents_of_trace _ _ _
      ((congrArg Ctl.trace (tick_REWIND _ _ hs)).trans (tickREWIND_trace _ hU))]
    simp only [pulses_append, pulses_setValue, pulses_nil, pulses_rewindYEvents,
      pulses_rewindXEvents, hn]
    decide
  · rw [← core_y_position, core_tick _ _ (reachable_inRange _ _),
      core_firstRasterBeforeRewind]
    decide

/-- No REWIND iteration changes `y_position`, whatever the state. -/
theorem rewind_y_position (i : Input) (s : Ctl) (hs : s.motor_state = REWIND)
    (hx : s.x_position < UINT32) : (tick i s).y_position = s.y_position := by
  rw [← core_y_position, tick_REWIND i s hs, core_tickREWIND s hx]
  rfl

/-! ## C9 -/

set_option maxRecDepth 1000000 in
theorem core_secondScanLastSweep (hw : Lines) :
    (run (initial hw) secondScanLastSweep).core =
      { motor_state := POSITIVE_X, next_x_motor_state := POSITIVE_X, x_position := 0
        y_position := 5400, num_comp_rows := 9, NUM_ROWS := 10, Y_REWIND := 3000
        com := 0, size := 1, positionFile := FStream.closed, timeInfo := FStream.good } := by
  rw [core_run _ _ (initial_inRange hw), core_initial]
  decide

/-- C9 as stated fails: at the start of the last sweep of the second scan of
size 1 the state is POSITIVE_X with `num_comp_rows = 9 < NUM_ROWS = 10`, the
command read after the sweep is 0, not 1, and yet the next state is IDLE, not
POSITIVE_Y. -/
theorem C9_counterexample :
    (run (initial lowLines) secondScanLastSweep).motor_state = POSITIVE_X
    ∧ (run (initial lowLines) secondScanLastSweep).num_comp_rows = 9
    ∧ (run (initial lowLines) secondScanLastSweep).NUM_ROWS = 10
    ∧ (tick (reads 1 0) (run (initial lowLines) secondScanLastSweep)).com = 0
    ∧ (tick (reads 1 0) (run (initial lowLines) secondScanLastSweep)).motor_state = IDLE
    ∧ (tick (reads 1 0) (run (initial lowLines) secondScanLastSweep)).motor_state
        ≠ POSITIVE_Y := by
  have hm : (tick (reads 1 0) (run (initial lowLines) secondScanLastSweep)).motor_state
      = IDLE := by
    rw [← core_motor_state, core_tick _ _ (reachable_inRange _ _),
      core_secondScanLastSweep]
    decide
  refine ⟨?_, ?_, ?_, ?_, hm, ?_⟩
  · rw [← core_motor_state, core_secondScanLastSweep]
  · rw [← core_num_comp_rows, core_secondScanLastSweep]
  · rw [← core_NUM_ROWS, core_secondScanLastSweep]
  · rw [← core_com, core_tick _ _ (reachable_inRange _ _), core_secondScanLastSweep]
    decide
  · rw [hm]
    decide

/-- C9 amended (POSITIVE_X transition rule): a POSITIVE_X iteration entered with
`x_position` within the travel ends with `x_position = MAX_X_POSITION`.  If
`num_comp_rows + 1 < NUM_ROWS` at entry, the row counter is incremented, the
remembered next X state is NEGATIVE_X and the next state is POSITIVE_Y, unless
the command held after the sweep is 1, in which case it is IDLE.  If
`num_comp_rows + 1 = NUM_ROWS` at entry, the row counter is incremented, the
remembered next X state is NEGATIVE_X and the next state is IDLE.  If
`num_comp_rows = NUM_ROWS` at entry, the next state is IDLE. -/
theorem C9_positive_x_transition_rule (i : Input) (s : Ctl)
    (hs : s.motor_state = POSITIVE_X) (hx : s.x_position ≤ MAX_X_POSITION)
    (hn : s.NUM_ROWS < UINT32) :
    (tick i s).x_position = MAX_X_POSITION
    ∧ (s.num_comp_rows + 1 < s.NUM_ROWS →
        (tick i s).num_comp_rows = s.num_comp_rows + 1
        ∧ (tick i s).next_x_motor_state = NEGATIVE_X
        ∧ ((tick i s).com = 1 → (tick i s).motor_state = IDLE)
        ∧ ((tick i s).com ≠ 1 → (tick i s).motor_state = POSITIVE_Y))
    ∧ (s.num_comp_rows + 1 = s.NUM_ROWS →
        (tick i s).num_comp_rows = s.NUM_ROWS
        ∧ (tick i s).next_x_motor_state = NEGATIVE_X
        ∧ (tick i s).motor_state = IDLE)
    ∧ (s.num_comp_rows = s.NUM_ROWS →
        (tick i s).num_comp_rows = s.NUM_ROWS
        ∧ (tick i s).motor_state = IDLE) := by
  have hxm : s.x_position + (MAX_X_POSITION - s.x_position) = MAX_X_POSITION := by omega
  have hc := core_tickPOSITIVE_X i s
  rw [← tick_POSITIVE_X i s hs] at hc
  have e1 := congrArg Core.x_position hc
  have e2 := congrArg Core.num_comp_rows hc
  have e3 := congrArg Core.next_x_motor_state hc
  have e4 := congrArg Core.motor_state hc
  have e5 := congrArg Core.com hc
  simp only [core_x_position, core_num_comp_rows, core_next_x_motor_state,
    core_motor_state, core_com, core_NUM_ROWS, corePOSITIVE_X, hxm, true_and]
    at e1 e2 e3 e4 e5
  refine ⟨e1, ?_, ?_, ?_⟩
  · intro hlt
    have hlt2 : s.num_comp_rows < s.NUM_ROWS := by omega
    have hmod : (s.num_comp_rows + 1) % UINT32 = s.num_comp_rows + 1 :=
      Nat.mod_eq_of_lt (by omega)
    have hne : s.num_comp_rows + 1 ≠ s.NUM_ROWS := by omega
    simp only [hlt2, decide_True, if_true, hmod, hne, if_false] at e2 e3 e4
    refine ⟨e2, e3, ?_, ?_⟩
    · intro h1
      rw [e5] at h1
      rw [e4, if_pos h1]
    · intro h1
      rw [e5] at h1
      rw [e4, if_neg h1]
  · intro heq
    have hlt2 : s.num_comp_rows < s.NUM_ROWS := by omega
    have hmod : (s.num_comp_rows + 1) % UINT32 = s.NUM_ROWS := by
      rw [heq]
      exact Nat.mod_eq_of_lt hn
    simp only [hlt2, decide_True, if_true, hmod] at e2 e3 e4
    exact ⟨e2, e3, e4⟩
  · intro heq
    have hlt2 : ¬ s.num_comp_rows < s.NUM_ROWS := by omega
    simp only [hlt2, decide_False, Bool.false_eq_true, if_false] at e2 e4
    rw [if_pos heq] at e4
    exact ⟨e2.trans heq, e4⟩


theorem core_firstSweepStart (hw : Lines) :
    (run (initial hw) [reads 1 0]).core =
      { motor_state := POSITIVE_X, next_x_motor_state := IDLE, x_position := 0
        y_position := 0, num_comp_rows := 0, NUM_ROWS := 10, Y_REWIND := 3000
        com := 0, size := 1, positionFile := FStream.good, timeInfo := FStream.good } := by
  rw [core_run _ _ (initial_inRange hw), core_initial]
  decide

/-- C9 amended, at the first POSITIVE_X iteration of the first scan of size 1
with no pause: `x_position = 7000`, one row counted, NEGATIVE_X remembered, next
state POSITIVE_Y. -/
theorem C9_positive_x_transition_rule_witness :
    (tick (reads 1 0) (run (initial lowLines) [reads 1 0])).x_position = MAX_X_POSITION
    ∧ (tick (reads 1 0) (run (initial lowLines) [reads 1 0])).num_comp_rows = 1
    ∧ (tick (reads 1 0) (run (initial lowLines) [reads 1 0])).next_x_motor_state
        = NEGATIVE_X
    ∧ (tick (reads 1 0) (run (initial lowLines) [reads 1 0])).motor_state
        = POSITIVE_Y := by
  have hs : (run (initial lowLines) [reads 1 0]).motor_state = POSITIVE_X := by
    rw [← core_motor_state, core_firstSweepStart]
  have hx : (run (initial lowLines) [reads 1 0]).x_position = 0 := by
    rw [← core_x_position, core_firstSweepStart]
  have hr : (run (initial lowLines) [reads 1 0]).num_comp_rows = 0 := by
    rw [← core_num_comp_rows, core_firstSweepStart]
  have hn : (run (initial lowLines) [reads 1 0]).NUM_ROWS = 10 := by
    rw [← core_NUM_ROWS, core_firstSweepStart]
  have hcom : (tick (reads 1 0) (run (initial lowLines) [reads 1 0])).com ≠ 1 := by
    rw [← core_com, core_tick _ _ (reachable_inRange _ _), core_firstSweepStart]
    decide
  have h := C9_positive_x_transition_rule (reads 1 0)
    (run (initial lowLines) [reads 1 0]) hs (by rw [hx]; decide) (by rw [hn]; decide)
  obtain ⟨h1, h2, _, _⟩ := h
  obtain ⟨h3, h4, _, h6⟩ := h2 (by rw [hr, hn]; decide)
  rw [hr] at h3
  exact ⟨h1, h3, h4, h6 hcom⟩

/-! ## C10 -/

set_option maxRecDepth 100000 in
theorem core_firstNegativeSweepStart (hw : Lines) :
    (run (initial hw) [reads 1 0, reads 1 0, reads 1 0]).core =
      { motor_state := NEGATIVE_X, next_x_motor_state := NEGATIVE_X, x_position := 7000
        y_position := 300, num_comp_rows := 1, NUM_ROWS := 10, Y_REWIND := 3000
        com := 0, size := 1, positionFile := FStream.good, timeInfo := FStream.good } := by
  rw [core_run _ _ (initial_inRange hw), core_initial]
  decide

/-- C10 (NEGATIVE_X transition rule): for every entry value of `x_position` (of
its type) a NEGATIVE_X iteration emits exactly `x_position` pulses on pulX, ends
with `x_position = 0`, sets the remembered next X state to POSITIVE_X, and its
next state is IDLE if the command held after the read of that iteration is 1 and
POSITIVE_Y otherwise. -/
theorem C10_negative_x_transition_rule (i : Input) (s : Ctl)
    (hs : s.motor_state = NEGATIVE_X) (hx : s.x_position < UINT32) :
    pulses Pin.pulX (tickEvents i s) = s.x_position
    ∧ pulses Pin.pulY (tickEvents i s) = 0
    ∧ (tick i s).x_position = 0
    ∧ (tick i s).next_x_motor_state = POSITIVE_X
    ∧ (tick i s).com = i.com1.getD s.com
    ∧ ((tick i s).motor_state = IDLE ↔ (tick i s).com = 1)
    ∧ ((tick i s).motor_state = POSITIVE_Y ↔ (tick i s).com ≠ 1)
    ∧ (∀ c, i.com1 = some c → ((tick i s).motor_state = IDLE ↔ c = 1)) := by
  have hc := core_tickNEGATIVE_X i s hx
  rw [← tick_NEGATIVE_X i s hs] at hc
  have e1 := congrArg Core.x_position hc
  have e3 := congrArg Core.next_x_motor_state hc
  have e4 := congrArg Core.motor_state hc
  have e5 := congrArg Core.com hc
  simp only [core_x_position, core_next_x_motor_state, core_motor_state, core_com,
    coreNEGATIVE_X] at e1 e3 e4 e5
  have hY : pulses Pin.pulY (tickEvents i s) = 0 := by
    rw [tickEvents_of_trace i s _
      ((congrArg Ctl.trace (tick_NEGATIVE_X i s hs)).trans (tickNEGATIVE_X_trace i s hx))]
    simp [pulses_append, pulses_timingEvents, pulses_downEvents, pulses_setValue,
      pulses_nil]
  refine ⟨pulses_tickNEGATIVE_X i s hs hx, hY, e1, e3, e5, ?_, ?_, ?_⟩
  · rw [e4, e5]
    by_cases h1 : i.com1.getD s.com = 1 <;> simp [h1]
  · rw [e4, e5]
    by_cases h1 : i.com1.getD s.com = 1 <;> simp [h1]
  · intro c hcv
    rw [e4, hcv]
    by_cases h1 : c = 1 <;> simp [h1]

/-- C10 at the first NEGATIVE_X iteration of the first scan with the pause
command in the command file: 7000 pulses, `x_position = 0`, next state IDLE. -/
theorem C10_negative_x_transition_rule_witness :
    pulses Pin.pulX (tickEvents (reads 1 1)
        (run (initial lowLines) [reads 1 0, reads 1 0, reads 1 0])) = 7000
    ∧ (tick (reads 1 1)
        (run (initial lowLines) [reads 1 0, reads 1 0, reads 1 0])).x_position = 0
    ∧ (tick (reads 1 1)
        (run (initial lowLines) [reads 1 0, reads 1 0, reads 1 0])).motor_state = IDLE := by
  have hs : (run (initial lowLines) [reads 1 0, reads 1 0, reads 1 0]).motor_state
      = NEGATIVE_X := by
    rw [← core_motor_state, core_firstNegativeSweepStart]
  have hx : (run (initial lowLines) [reads 1 0, reads 1 0, reads 1 0]).x_position
      = 7000 := by
    rw [← core_x_position, core_firstNegativeSweepStart]
  have h := C10_negative_x_transition_rule (reads 1 1)
    (run (initial lowLines) [reads 1 0, reads 1 0, reads 1 0]) hs (by rw [hx]; decide)
  obtain ⟨h1, _, h3, _, _, _, _, h8⟩ := h
  rw [hx] at h1
  exact ⟨h1, h3, (h8 1 rfl).2 rfl⟩



/-! ## C11 -/

theorem pulses_tickPOSITIVE_Y (i : Input) (s : Ctl) (hs : s.motor_state = POSITIVE_Y)
    (hy : s.y_position < UINT32) :
    pulses Pin.pulY (tickEvents i s) = MAX_Y_POSITION
    ∧ pulses Pin.pulX (tickEvents i s) = 0 := by
  rw [tickEvents_of_trace i s _
    ((congrArg Ctl.trace (tick_POSITIVE_Y i s hs)).trans (tickPOSITIVE_Y_trace i s hy))]
  constructor <;>
    simp [pulses_append, pulses_timingEvents, pulses_yUpEvents, pulses_setValue, pulses_nil]

set_option maxRecDepth 100000 in
theorem core_firstYStepStart (hw : Lines) :
    (run (initial hw) [reads 1 0, reads 1 0]).core =
      { motor_state := POSITIVE_Y, next_x_motor_state := NEGATIVE_X, x_position := 7000
        y_position := 0, num_comp_rows := 1, NUM_ROWS := 10, Y_REWIND := 3000
        com := 0, size := 1, positionFile := FStream.good, timeInfo := FStream.good } := by
  rw [core_run _ _ (initial_inRange hw), core_initial]
  decide

/-- C11 (POSITIVE_Y transition rule): a POSITIVE_Y iteration entered with a
`y_position` that 300 more steps do not take out of its type emits exactly
`MAX_Y_POSITION` pulses on pulY and none on pulX, increases `y_position` by
exactly 300, leaves `x_position` and `num_comp_rows` unchanged, and its next
state is IDLE if the new `y_position` equals `Y_REWIND` and the remembered next X
state otherwise; the next state is the same for any two inputs. -/
theorem C11_positive_y_transition_rule (i j : Input) (s : Ctl)
    (hs : s.motor_state = POSITIVE_Y) (hy : s.y_position + MAX_Y_POSITION < UINT32) :
    pulses Pin.pulY (tickEvents i s) = MAX_Y_POSITION
    ∧ pulses Pin.pulX (tickEvents i s) = 0
    ∧ (tick i s).y_position = s.y_position + 300
    ∧ (tick i s).x_position = s.x_position
    ∧ (tick i s).num_comp_rows = s.num_comp_rows
    ∧ ((tick i s).y_position = s.Y_REWIND → (tick i s).motor_state = IDLE)
    ∧ ((tick i s).y_position ≠ s.Y_REWIND →
        (tick i s).motor_state = s.next_x_motor_state)
    ∧ (tick i s).motor_state = (tick j s).motor_state := by
  have hU : s.y_position < UINT32 := by omega
  have hmod : (s.y_position + MAX_Y_POSITION) % UINT32 = s.y_position + 300 :=
    Nat.mod_eq_of_lt hy
  have key : ∀ k : Input, (tick k s).core = corePOSITIVE_Y k s.core := by
    intro k
    rw [tick_POSITIVE_Y k s hs]
    exact core_tickPOSITIVE_Y k s hU
  have ey : ∀ k : Input, (tick k s).y_position = s.y_position + 300 := by
    intro k
    rw [← core_y_position, key k]
    simp only [corePOSITIVE_Y, core_y_position, hmod]
  have em : ∀ k : Input, (tick k s).motor_state
      = if s.y_position + 300 = s.Y_REWIND then IDLE else s.next_x_motor_state := by
    intro k
    rw [← core_motor_state, key k]
    simp only [corePOSITIVE_Y, core_y_position, core_Y_REWIND, core_next_x_motor_state, hmod]
  refine ⟨(pulses_tickPOSITIVE_Y i s hs hU).1, (pulses_tickPOSITIVE_Y i s hs hU).2, ey i,
    ?_, ?_, ?_, ?_, ?_⟩
  · rw [← core_x_position, key i]
    rfl
  · rw [← core_num_comp_rows, key i]
    rfl
  · intro h
    rw [ey i] at h
    rw [em i, if_pos h]
  · intro h
    rw [ey i] at h
    rw [em i, if_neg h]
  · rw [em i, em j]

/-- C11 at the first POSITIVE_Y iteration of the first scan: 300 pulses,
`y_position` from 0 to 300, next state the remembered NEGATIVE_X. -/
theorem C11_positive_y_transition_rule_witness :
    pulses Pin.pulY (tickEvents (reads 1 0) (run (initial lowLines) [reads 1 0, reads 1 0]))
      = MAX_Y_POSITION
    ∧ (tick (reads 1 0) (run (initial lowLines) [reads 1 0, reads 1 0])).y_position = 300
    ∧ (tick (reads 1 0) (run (initial lowLines) [reads 1 0, reads 1 0])).motor_state
        = NEGATIVE_X := by
  have hs : (run (initial lowLines) [reads 1 0, reads 1 0]).motor_state = POSITIVE_Y := by
    rw [← core_motor_state, core_firstYStepStart]
  have hy : (run (initial lowLines) [reads 1 0, reads 1 0]).y_position = 0 := by
    rw [← core_y_position, core_firstYStepStart]
  have hr : (run (initial lowLines) [reads 1 0, reads 1 0]).Y_REWIND = 3000 := by
    rw [← core_Y_REWIND, core_firstYStepStart]
  have hn : (run (initial lowLines) [reads 1 0, reads 1 0]).next_x_motor_state
      = NEGATIVE_X := by
    rw [← core_next_x_motor_state, core_firstYStepStart]
  have h := C11_positive_y_transition_rule (reads 1 0) (reads 1 0)
    (run (initial lowLines) [reads 1 0, reads 1 0]) hs (by rw [hy]; decide)
  obtain ⟨h1, _, h3, _, _, _, h7, _⟩ := h
  rw [hy] at h3
  refine ⟨h1, h3, ?_⟩
  rw [h7 (by rw [h3, hr]; decide), hn]

/-! ## C12 -/

/-- C12 (IDLE transition rule): an IDLE iteration writes enaX LOW and enaY LOW
and nothing else to the lines (so no pulse), leaves them LOW, leaves
`x_position`, `y_position` and `num_comp_rows` unchanged, and its next state is
REWIND if the command held after the read is 2 and IDLE for every other value. -/
theorem C12_idle_transition_rule (i : Input) (s : Ctl) (hs : s.motor_state = IDLE) :
    tickEvents i s = [Event.setValue Pin.enaX false, Event.setValue Pin.enaY false]
    ∧ pulses Pin.pulX (tickEvents i s) = 0
    ∧ pulses Pin.pulY (tickEvents i s) = 0
    ∧ (tick i s).lines.enaX = false
    ∧ (tick i s).lines.enaY = false
    ∧ (tick i s).x_position = s.x_position
    ∧ (tick i s).y_position = s.y_position
    ∧ (tick i s).num_comp_rows = s.num_comp_rows
    ∧ (tick i s).com = i.com1.getD s.com
    ∧ ((tick i s).motor_state = REWIND ↔ (tick i s).com = 2)
    ∧ ((tick i s).com ≠ 2 → (tick i s).motor_state = IDLE)
    ∧ (∀ c, i.com1 = some c → ((tick i s).motor_state = REWIND ↔ c = 2)) := by
  have hev := tickEvents_of_trace i s _
    ((congrArg Ctl.trace (tick_IDLE i s hs)).trans (tickIDLE_trace i s))
  have hc : (tick i s).core = coreIDLE i s.core := by
    rw [tick_IDLE i s hs]
    exact core_tickIDLE i s
  have e4 := congrArg Core.motor_state hc
  have e5 := congrArg Core.com hc
  simp only [core_motor_state, core_com, coreIDLE, hs] at e4 e5
  refine ⟨hev, ?_, ?_, ?_, ?_, ?_, ?_, ?_, e5, ?_, ?_, ?_⟩
  · rw [hev]; simp [pulses_setValue, pulses_nil]
  · rw [hev]; simp [pulses_setValue, pulses_nil]
  · rw [tick_IDLE i s hs]
    simp only [tickIDLE, readCommand_eq, setValue]
    split <;> simp [Lines.set]
  · rw [tick_IDLE i s hs]
    simp only [tickIDLE, readCommand_eq, setValue]
    split <;> simp [Lines.set]
  · rw [← core_x_position, hc]; rfl
  · rw [← core_y_position, hc]; rfl
  · rw [← core_num_comp_rows, hc]; rfl
  · rw [e4, e5]
    by_cases h2 : i.com1.getD s.com = 2 <;> simp [h2]
  · intro h2
    rw [e5] at h2
    rw [e4, if_neg h2]
  · intro c hcv
    rw [e4, hcv]
    by_cases h2 : c = 2 <;> simp [h2]

/-- C12 at the IDLE state that ends the first raster, with the start command
still in the command file: the state remains IDLE. -/
theorem C12_idle_transition_rule_witness :
    (tick (reads 1 0) (run (initial lowLines) firstRaster)).motor_state = IDLE
    ∧ (tick (reads 1 0) (run (initial lowLines) firstRaster)).lines.enaX = false
    ∧ (tick (reads 1 0) (run (initial lowLines) firstRaster)).lines.enaY = false := by
  have hs : (run (initial lowLines) firstRaster).motor_state = IDLE := by
    rw [← core_motor_state, core_firstRaster]
  have h := C12_idle_transition_rule (reads 1 0) (run (initial lowLines) firstRaster) hs
  obtain ⟨_, _, _, h4, h5, _, _, _, h9, _, h11, _⟩ := h
  exact ⟨h11 (by rw [h9]; decide), h4, h5⟩

/-! ## C13 -/

/-- C13 (READY transition rule): a READY iteration writes enaX LOW and enaY LOW
and nothing else to the lines (so no pulse), leaves them LOW, leaves
`x_position`, `y_position` and `num_comp_rows` unchanged, and its next state is
POSITIVE_X if the command held after the read is 0 and READY for every other
value. -/
theorem C13_ready_transition_rule (i : Input) (s : Ctl) (hs : s.motor_state = READY) :
    pulses Pin.pulX (tickEvents i s) = 0
    ∧ pulses Pin.pulY (tickEvents i s) = 0
    ∧ (∀ pin v, Event.setValue pin v ∈ tickEvents i s →
        (pin = Pin.enaX ∨ pin = Pin.enaY) ∧ v = false)
    ∧ (tick i s).lines.enaX = false
    ∧ (tick i s).lines.enaY = false
    ∧ (tick i s).x_position = s.x_position
    ∧ (tick i s).y_position = s.y_position
    ∧ (tick i s).num_comp_rows = s.num_comp_rows
    ∧ (tick i s).com = i.com1.getD s.com
    ∧ ((tick i s).motor_state = POSITIVE_X ↔ (tick i s).com = 0)
    ∧ ((tick i s).com ≠ 0 → (tick i s).motor_state = READY)
    ∧ (∀ c, i.com1 = some c → ((tick i s).motor_state = POSITIVE_X ↔ c = 0)) := by
  have hev := tickEvents_of_trace i s _
    ((congrArg Ctl.trace (tick_READY i s hs)).trans (tickREADY_trace i s))
  have hc : (tick i s).core = coreREADY i s.core := by
    rw [tick_READY i s hs]
    exact core_tickREADY i s
  have e4 := congrArg Core.motor_state hc
  have e5 := congrArg Core.com hc
  simp only [core_motor_state, core_com, coreREADY, hs] at e4 e5
  refine ⟨?_, ?_, ?_, ?_, ?_, ?_, ?_, ?_, e5, ?_, ?_, ?_⟩
  · rw [hev]
    split <;> simp [pulses_append, pulses_setValue, pulses_nil, pulses]
  · rw [hev]
    split <;> simp [pulses_append, pulses_setValue, pulses_nil, pulses]
  · intro pin v hmem
    rw [hev] at hmem
    split at hmem <;> simp at hmem <;> rcases hmem with h | h <;> simp [h.1, h.2]
  · rw [tick_READY i s hs]
    simp only [tickREADY, readyStart, deriveRows, setRows, readSize_eq, readCommand_eq,
      readFileName_eq, setValue]
    split_ifs <;> simp [Lines.set]
  · rw [tick_READY i s hs]
    simp only [tickREADY, readyStart, deriveRows, setRows, readSize_eq, readCommand_eq,
      readFileName_eq, setValue]
    split_ifs <;> simp [Lines.set]
  · rw [← core_x_position, hc]; rfl
  · rw [← core_y_position, hc]; rfl
  · rw [← core_num_comp_rows, hc]; rfl
  · rw [e4, e5]
    by_cases h0 : i.com1.getD s.com = 0 <;> simp [h0]
  · intro h0
    rw [e5] at h0
    rw [e4, if_neg h0]
  · intro c hcv
    rw [e4, hcv]
    by_cases h0 : c = 0 <;> simp [h0]

/-- C13 at the initial state: with the start command the next state is
POSITIVE_X, with the rewind command it remains READY. -/
theorem C13_ready_transition_rule_witness :
    (tick (reads 1 0) (initial lowLines)).motor_state = POSITIVE_X
    ∧ (tick (reads 1 2) (initial lowLines)).motor_state = READY :=
  ⟨((C13_ready_transition_rule (reads 1 0) (initial lowLines) rfl).2.2.2.2.2.2.2.2.2.2.2
      0 rfl).2 rfl,
   (C13_ready_transition_rule (reads 1 2) (initial lowLines) rfl).2.2.2.2.2.2.2.2.2.2.1
      (by
        rw [(C13_ready_transition_rule (reads 1 2) (initial lowLines) rfl).2.2.2.2.2.2.2.2.1]
        decide)⟩



/-! ## C14 -/

/-- C14 (scan configuration): a READY iteration after whose read the size held
is 1 leaves `NUM_ROWS = 10` and `Y_REWIND = 3000`; if the size held is 2 it leaves
`NUM_ROWS = 20` and `Y_REWIND = 6000`; for any other size both keep their previous
values, which are 0 and 0 in the initial state.  In every state reachable from the
initial state `Y_REWIND = MAX_Y_POSITION * NUM_ROWS`. -/
theorem C14_scan_configuration (hw : Lines) (is : List Input) (i : Input) (s : Ctl)
    (hs : s.motor_state = READY) :
    (tick i s).size = i.size.getD s.size
    ∧ ((tick i s).size = 1 → (tick i s).NUM_ROWS = 10 ∧ (tick i s).Y_REWIND = 3000)
    ∧ ((tick i s).size = 2 → (tick i s).NUM_ROWS = 20 ∧ (tick i s).Y_REWIND = 6000)
    ∧ ((tick i s).size ≠ 1 → (tick i s).size ≠ 2 →
        (tick i s).NUM_ROWS = s.NUM_ROWS ∧ (tick i s).Y_REWIND = s.Y_REWIND)
    ∧ (initial hw).NUM_ROWS = 0 ∧ (initial hw).Y_REWIND = 0
    ∧ (run (initial hw) is).Y_REWIND = MAX_Y_POSITION * (run (initial hw) is).NUM_ROWS := by
  have hc : (tick i s).core = coreREADY i s.core := by
    rw [tick_READY i s hs]
    exact core_tickREADY i s
  have e1 := congrArg Core.size hc
  have e2 := congrArg Core.NUM_ROWS hc
  have e3 := congrArg Core.Y_REWIND hc
  simp only [core_size, core_NUM_ROWS, core_Y_REWIND, coreREADY] at e1 e2 e3
  refine ⟨e1, ?_, ?_, ?_, rfl, rfl, (reachable_Inv hw is).2.2.2.2.2.2⟩
  · intro h
    rw [e1] at h
    rw [e2, e3, h]
    simp [MAX_Y_POSITION, UINT32]
  · intro h
    rw [e1] at h
    rw [e2, e3, h]
    simp [MAX_Y_POSITION, UINT32]
  · intro h1 h2
    rw [e1] at h1 h2
    rw [e2, e3]
    simp [h1, h2]

/-- C14 at the initial state: size 1 configures 10 rows and a Y extent of 3000,
size 2 configures 20 rows and 6000, and size 3 leaves the initial 0 and 0. -/
theorem C14_scan_configuration_witness :
    ((tick (reads 1 0) (initial lowLines)).NUM_ROWS = 10
      ∧ (tick (reads 1 0) (initial lowLines)).Y_REWIND = 3000)
    ∧ ((tick (reads 2 0) (initial lowLines)).NUM_ROWS = 20
      ∧ (tick (reads 2 0) (initial lowLines)).Y_REWIND = 6000)
    ∧ ((tick (reads 3 0) (initial lowLines)).NUM_ROWS = 0
      ∧ (tick (reads 3 0) (initial lowLines)).Y_REWIND = 0) :=
  ⟨(C14_scan_configuration lowLines [] (reads 1 0) (initial lowLines) rfl).2.1
      (by rw [(C14_scan_configuration lowLines [] (reads 1 0) (initial lowLines) rfl).1]; rfl),
   (C14_scan_configuration lowLines [] (reads 2 0) (initial lowLines) rfl).2.2.1
      (by rw [(C14_scan_configuration lowLines [] (reads 2 0) (initial lowLines) rfl).1]; rfl),
   (C14_scan_configuration lowLines [] (reads 3 0) (initial lowLines) rfl).2.2.2.1
      (by rw [(C14_scan_configuration lowLines [] (reads 3 0) (initial lowLines) rfl).1]
          decide)
      (by rw [(C14_scan_configuration lowLines [] (reads 3 0) (initial lowLines) rfl).1]
          decide)⟩

/-! ## C15 -/

/-- C15 (row counter meaning), evaluated on the first NEGATIVE_X iteration of
the first scan of size 1: the iteration starts at `x_position = 7000` with
`num_comp_rows = 1`, emits 7000 pulses on pulX and ends at `x_position = 0`, so
the sweep is complete, and `num_comp_rows` is still 1: the completed NEGATIVE_X
sweep is not counted. -/
theorem C15_negative_x_sweep_not_counted :
    (run (initial lowLines) [reads 1 0, reads 1 0, reads 1 0]).motor_state = NEGATIVE_X
    ∧ (run (initial lowLines) [reads 1 0, reads 1 0, reads 1 0]).x_position = 7000
    ∧ (run (initial lowLines) [reads 1 0, reads 1 0, reads 1 0]).num_comp_rows = 1
    ∧ pulses Pin.pulX
        (tickEvents (reads 1 0) (run (initial lowLines) [reads 1 0, reads 1 0, reads 1 0]))
        = 7000
    ∧ (tick (reads 1 0)
        (run (initial lowLines) [reads 1 0, reads 1 0, reads 1 0])).x_position = 0
    ∧ (tick (reads 1 0)
        (run (initial lowLines) [reads 1 0, reads 1 0, reads 1 0])).num_comp_rows = 1 := by
  have hs : (run (initial lowLines) [reads 1 0, reads 1 0, reads 1 0]).motor_state
      = NEGATIVE_X := by
    rw [← core_motor_state, core_firstNegativeSweepStart]
  have hx : (run (initial lowLines) [reads 1 0, reads 1 0, reads 1 0]).x_position
      = 7000 := by
    rw [← core_x_position, core_firstNegativeSweepStart]
  refine ⟨hs, hx, ?_, ?_, ?_, ?_⟩
  · rw [← core_num_comp_rows, core_firstNegativeSweepStart]
  · rw [pulses_tickNEGATIVE_X _ _ hs (reachable_inRange _ _).1, hx]
  · rw [← core_x_position, core_tick _ _ (reachable_inRange _ _),
      core_firstNegativeSweepStart]
    decide
  · rw [← core_num_comp_rows, core_tick _ _ (reachable_inRange _ _),
      core_firstNegativeSweepStart]
    decide

/-- No NEGATIVE_X iteration changes `num_comp_rows`, whatever the state. -/
theorem negative_x_num_comp_rows (i : Input) (s : Ctl) (hs : s.motor_state = NEGATIVE_X)
    (hx : s.x_position < UINT32) : (tick i s).num_comp_rows = s.num_comp_rows := by
  rw [← core_num_comp_rows, tick_NEGATIVE_X i s hs, core_tickNEGATIVE_X i s hx]
  rfl

/-! ## C16 -/

/-- No iteration assigns NEGATIVE_Y: if neither `motor_state` nor the remembered
next X state is NEGATIVE_Y before an iteration, neither is afterwards. -/
theorem coreTick_not_NEGATIVE_Y (i : Input) (c : Core)
    (h1 : c.motor_state ≠ NEGATIVE_Y) (h2 : c.next_x_motor_state ≠ NEGATIVE_Y) :
    (coreTick i c).motor_state ≠ NEGATIVE_Y
    ∧ (coreTick i c).next_x_motor_state ≠ NEGATIVE_Y := by
  cases hs : c.motor_state with
  | READY =>
    simp only [coreTick, hs, coreREADY]
    refine ⟨?_, h2⟩
    split <;> decide
  | IDLE =>
    simp only [coreTick, hs, coreIDLE]
    refine ⟨?_, h2⟩
    split <;> decide
  | POSITIVE_X =>
    simp only [coreTick, hs, corePOSITIVE_X]
    split_ifs <;> simp_all
  | NEGATIVE_X =>
    simp only [coreTick, hs, coreNEGATIVE_X]
    split_ifs <;> simp_all
  | POSITIVE_Y =>
    simp only [coreTick, hs, corePOSITIVE_Y]
    split_ifs <;> simp_all
  | NEGATIVE_Y => exact absurd hs h1
  | REWIND =>
    simp only [coreTick, hs, coreREWIND]
    exact ⟨by decide, h2⟩

/-- C16 (NEGATIVE_Y unreachable): in every state reachable from the initial
state, for every sequence of inputs, neither `motor_state` nor the remembered
next X state is NEGATIVE_Y, so no iteration ever runs `case NEGATIVE_Y`. -/
theorem C16_negative_y_unreachable (hw : Lines) (is : List Input) :
    (run (initial hw) is).motor_state ≠ NEGATIVE_Y
    ∧ (run (initial hw) is).next_x_motor_state ≠ NEGATIVE_Y
    ∧ NEGATIVE_Y ∉ visited (initial hw) is := by
  have key : ∀ js : List Input, (run (initial hw) js).motor_state ≠ NEGATIVE_Y :=
    fun js => (reachable_Inv hw js).2.2.1
  refine ⟨key is, ?_, ?_⟩
  · rcases (reachable_Inv hw is).2.2.2.1 with h | h | h
    · show (run (initial hw) is).core.next_x_motor_state ≠ NEGATIVE_Y
      rw [h]; decide
    · show (run (initial hw) is).core.next_x_motor_state ≠ NEGATIVE_Y
      rw [h]; decide
    · show (run (initial hw) is).core.next_x_motor_state ≠ NEGATIVE_Y
      rw [h]; decide
  · have gen : ∀ (js : List Input) (s : Ctl),
        (∀ ks : List Input, (run s ks).motor_state ≠ NEGATIVE_Y) →
        NEGATIVE_Y ∉ visited s js := by
      intro js
      induction js with
      | nil => intro s _; simp [visited]
      | cons j js ih =>
        intro s h
        rw [visited, List.mem_cons, not_or]
        exact ⟨fun e => h [] e.symm, ih (tick j s) (fun ks => h (j :: ks))⟩
    exact gen is (initial hw) key

/-! ## C17 -/

/-- C17 (NEGATIVE_Y underflow): a NEGATIVE_Y iteration writes the Y driver
set-up with dirY HIGH and exactly one pulse on pulY, leaves the state at
NEGATIVE_Y and the other counters unchanged, and decrements `y_position`
without a check: the new value is `(y_position - 1) mod 2^32`, which is
4294967295 when the iteration is entered with `y_position = 0`. -/
theorem C17_negative_y_underflow (i : Input) (s : Ctl) (hs : s.motor_state = NEGATIVE_Y)
    (hy : s.y_position < UINT32) :
    tickEvents i s =
        [Event.setValue Pin.enaX false, Event.setValue Pin.enaY true,
          Event.setValue Pin.dirY true, Event.setValue Pin.pulY true,
          Event.setValue Pin.pulY false]
    ∧ pulses Pin.pulY (tickEvents i s) = 1
    ∧ pulses Pin.pulX (tickEvents i s) = 0
    ∧ (tick i s).lines.dirY = true
    ∧ (tick i s).motor_state = NEGATIVE_Y
    ∧ (tick i s).x_position = s.x_position
    ∧ (tick i s).num_comp_rows = s.num_comp_rows
    ∧ (tick i s).y_position = (s.y_position + UINT32 - 1) % UINT32
    ∧ (0 < s.y_position → (tick i s).y_position = s.y_position - 1)
    ∧ (s.y_position = 0 → (tick i s).y_position = 4294967295) := by
  have hev := tickEvents_of_trace i s _
    ((congrArg Ctl.trace (tick_NEGATIVE_Y i s hs)).trans (tickNEGATIVE_Y_trace s))
  have hc : (tick i s).core = coreNEGATIVE_Y s.core := by
    rw [tick_NEGATIVE_Y i s hs]
    exact core_tickNEGATIVE_Y s
  have ey : (tick i s).y_position = (s.y_position + UINT32 - 1) % UINT32 := by
    rw [← core_y_position, hc]
    rfl
  refine ⟨hev, ?_, ?_, ?_, ?_, ?_, ?_, ey, ?_, ?_⟩
  · rw [hev]
    simp [pulses_append, pulses_pulseEvents, pulses_setValue, pulses_nil]
  · rw [hev]
    simp [pulses_append, pulses_pulseEvents, pulses_setValue, pulses_nil]
  · rw [tick_NEGATIVE_Y i s hs]
    simp [tickNEGATIVE_Y, pulse_eq, setValue, Lines.set]
  · rw [← core_motor_state, hc]
    exact hs
  · rw [← core_x_position, hc]
    rfl
  · rw [← core_num_comp_rows, hc]
    rfl
  · intro hpos
    rw [ey]
    have e : s.y_position + UINT32 - 1 = (s.y_position - 1) + UINT32 := by omega
    rw [e, Nat.add_mod_right]
    exact Nat.mod_eq_of_lt (by omega)
  · intro h0
    rw [ey, h0]
    decide

/-- C17 at a NEGATIVE_Y state with `y_position = 0`: one pulse on pulY, and the
counter wraps to 4294967295. -/
theorem C17_negative_y_underflow_witness :
    pulses Pin.pulY (tickEvents (reads 1 0) atNegativeY) = 1
    ∧ (tick (reads 1 0) atNegativeY).motor_state = NEGATIVE_Y
    ∧ (tick (reads 1 0) atNegativeY).y_position = 4294967295 :=
  ⟨(C17_negative_y_underflow (reads 1 0) atNegativeY rfl (by decide)).2.1,
   (C17_negative_y_underflow (reads 1 0) atNegativeY rfl (by decide)).2.2.2.2.1,
   (C17_negative_y_underflow (reads 1 0) atNegativeY rfl
      (by decide)).2.2.2.2.2.2.2.2.2 rfl⟩

/-! ## C18 -/

/-- C18 as stated fails: the REWIND iteration that follows the first raster of
size 1 is entered with `x_position = 0`; it emits no pulse on pulX and leaves
`x_position` at 0, not at the wrapped value 4294967295. -/
theorem C18_counterexample :
    (run (initial lowLines) (firstRaster ++ [reads 1 2])).motor_state = REWIND
    ∧ (run (initial lowLines) (firstRaster ++ [reads 1 2])).x_position = 0
    ∧ pulses Pin.pulX
        (tickEvents (reads 1 2) (run (initial lowLines) (firstRaster ++ [reads 1 2])))
        = 0
    ∧ (tick (reads 1 2)
        (run (initial lowLines) (firstRaster ++ [reads 1 2]))).x_position = 0
    ∧ (tick (reads 1 2)
        (run (initial lowLines) (firstRaster ++ [reads 1 2]))).x_position
        ≠ 4294967295 := by
  have hs : (run (initial lowLines) (firstRaster ++ [reads 1 2])).motor_state
      = REWIND := by
    rw [← core_motor_state, core_firstRasterBeforeRewind]
  have hx : (run (initial lowLines) (firstRaster ++ [reads 1 2])).x_position = 0 := by
    rw [← core_x_position, core_firstRasterBeforeRewind]
  have hU : (run (initial lowLines) (firstRaster ++ [reads 1 2])).x_position < UINT32 :=
    (reachable_inRange _ _).1
  have hx1 : (tick (reads 1 2)
      (run (initial lowLines) (firstRaster ++ [reads 1 2]))).x_position = 0 := by
    rw [← core_x_position, tick_REWIND _ _ hs, core_tickREWIND _ hU]
    rfl
  refine ⟨hs, hx, ?_, hx1, ?_⟩
  · rw [tickEvents_of_trace _ _ _
      ((congrArg Ctl.trace (tick_REWIND _ _ hs)).trans (tickREWIND_trace _ hU))]
    simp only [pulses_append, pulses_setValue, pulses_nil, pulses_rewindYEvents,
      pulses_rewindXEvents, hx]
    simp
  · rw [hx1]
    decide

/-- C18 amended: the X loop of REWIND decrements `x_position` only while it is
above zero.  A REWIND iteration entered with any `x_position` of its type emits
exactly `x_position` pulses on pulX, every state of the X loop has an
`x_position` at most the entry value, and the iteration ends with
`x_position = 0`; entered with `x_position = 0` it emits no pulse on pulX and
leaves `x_position` at 0. -/
theorem C18_rewind_decrement_is_guarded (i : Input) (s : Ctl) (k : Nat)
    (hs : s.motor_state = REWIND) (hx : s.x_position < UINT32) :
    pulses Pin.pulX (tickEvents i s) = s.x_position
    ∧ (midSweep i s k).x_position ≤ s.x_position
    ∧ (tick i s).x_position = 0
    ∧ (s.x_position = 0 →
        pulses Pin.pulX (tickEvents i s) = 0 ∧ (midSweep i s k).x_position = 0) := by
  have hp : pulses Pin.pulX (tickEvents i s) = s.x_position := by
    rw [tickEvents_of_trace _ _ _
      ((congrArg Ctl.trace (tick_REWIND i s hs)).trans (tickREWIND_trace s hx))]
    simp only [pulses_append, pulses_setValue, pulses_nil, pulses_rewindYEvents,
      pulses_rewindXEvents]
    simp
  have hm : (midSweep i s k).x_position ≤ s.x_position := by
    simp only [midSweep, hs]
    apply whileLoop_invariant (fun t => t.x_position ≤ s.x_position)
    · intro t hc ht
      have hpos : 0 < t.x_position := by simpa [negXCond] using hc
      rw [rewindXBody_eq t (t.x_position - 1) (by omega) (by omega)]
      show t.x_position - 1 ≤ s.x_position
      omega
    · simp [rewindSwitch, rewindYTrain_eq, rewindEntry, setValue]
  refine ⟨hp, hm, ?_, ?_⟩
  · rw [← core_x_position, tick_REWIND i s hs, core_tickREWIND s hx]
    rfl
  · intro h0
    rw [h0] at hp hm
    exact ⟨hp, Nat.le_zero.mp hm⟩

/-- C18 amended, at the REWIND iteration of a scan paused at the end of its
first sweep: entered with `x_position = 7000`, it emits 7000 pulses on pulX and
ends at 0. -/
theorem C18_rewind_decrement_is_guarded_witness :
    pulses Pin.pulX
        (tickEvents (reads 1 2) (run (initial lowLines) [reads 1 0, reads 1 1, reads 1 2]))
      = (run (initial lowLines) [reads 1 0, reads 1 1, reads 1 2]).x_position
    ∧ (tick (reads 1 2)
        (run (initial lowLines) [reads 1 0, reads 1 1, reads 1 2])).x_position = 0 := by
  have hs : (run (initial lowLines) [reads 1 0, reads 1 1, reads 1 2]).motor_state
      = REWIND := by
    rw [← core_motor_state, core_pausedBeforeRewind]
  have h := C18_rewind_decrement_is_guarded (reads 1 2)
    (run (initial lowLines) [reads 1 0, reads 1 1, reads 1 2]) 0 hs
    (reachable_inRange _ _).1
  exact ⟨h.1, h.2.2.1⟩



/-! ## C19 -/

theorem transfers_append (a b : List Event) :
    transfers (a ++ b) = transfers a + transfers b := by
  induction a with
  | nil => simp [transfers]
  | cons e a ih =>
    cases e <;> simp [transfers, ih]
    omega

theorem transfers_pulseEvents (pin : Pin) : transfers (pulseEvents pin) = 0 := rfl

theorem transfers_positionEvents (f : FStream) (x y : Nat) :
    transfers (positionEvents f x y) = 0 := by
  unfold positionEvents
  split <;> rfl

theorem transfers_timingEvents (f : FStream) (a b : timespec) :
    transfers (timingEvents f a b) = 0 := by
  unfold timingEvents
  split <;> rfl

theorem transfers_ite_positionEvents (c : Prop) [Decidable c] (f : FStream) (x y : Nat) :
    transfers (if c then positionEvents f x y else []) = 0 := by
  split
  · exact transfers_positionEvents f x y
  · rfl

theorem transfers_upEvents (f : FStream) (y : Nat) (n : Nat) : ∀ x : Nat,
    transfers (upEvents f y x n) = 0 := by
  induction n with
  | zero => intro x; rfl
  | succ n ih =>
    intro x
    simp [upEvents, transfers_append, transfers_pulseEvents, transfers_ite_positionEvents, ih]

theorem transfers_downEvents (f : FStream) (y : Nat) (x : Nat) :
    transfers (downEvents f y x) = 0 := by
  induction x with
  | zero => rfl
  | succ n ih =>
    simp [downEvents, transfers_append, transfers_pulseEvents, transfers_ite_positionEvents,
      ih]

theorem transfers_yUpEvents (f : FStream) (x : Nat) (n : Nat) : ∀ y : Nat,
    transfers (yUpEvents f x y n) = 0 := by
  induction n with
  | zero => intro y; rfl
  | succ n ih =>
    intro y
    simp [yUpEvents, transfers_append, transfers_pulseEvents, transfers_ite_positionEvents,
      ih]

theorem transfers_rewindYEvents (f : FStream) (x y : Nat) (n : Nat) :
    transfers (rewindYEvents f x y n) = 0 := by
  induction n with
  | zero => rfl
  | succ n ih =>
    simp [rewindYEvents, transfers_append, transfers_pulseEvents,
      transfers_ite_positionEvents, ih]

theorem transfers_rewindXEvents (n : Nat) : transfers (rewindXEvents n) = 0 := by
  induction n with
  | zero => rfl
  | succ n ih => simp [rewindXEvents, transfers_append, transfers_pulseEvents, ih]

/-- The transfer command is executed by a POSITIVE_X iteration that ends with
`num_comp_rows = NUM_ROWS`, once, and by no other iteration. -/
theorem transfers_tickEvents (i : Input) (s : Ctl) (h : s.inRange) :
    transfers (tickEvents i s) =
      if s.motor_state = POSITIVE_X ∧ (corePOSITIVE_X i s.core).num_comp_rows = s.NUM_ROWS
        then 1 else 0 := by
  cases hs : s.motor_state with
  | READY =>
    rw [tickEvents_of_trace i s _
      ((congrArg Ctl.trace (tick_READY i s hs)).trans (tickREADY_trace i s))]
    split <;> simp [transfers]
  | IDLE =>
    rw [tickEvents_of_trace i s _
      ((congrArg Ctl.trace (tick_IDLE i s hs)).trans (tickIDLE_trace i s))]
    simp [transfers]
  | POSITIVE_X =>
    rw [tickEvents_of_trace i s _
      ((congrArg Ctl.trace (tick_POSITIVE_X i s hs)).trans (tickPOSITIVE_X_trace i s))]
    simp only [transfers_append, transfers_timingEvents, transfers_upEvents]
    by_cases hd : (corePOSITIVE_X i s.core).num_comp_rows = s.NUM_ROWS
    · rw [if_pos hd, if_pos ⟨trivial, hd⟩, transfers_append, transfers_timingEvents]
      rfl
    · rw [if_neg hd, if_neg (fun hh => hd hh.2)]
      rfl
  | NEGATIVE_X =>
    rw [tickEvents_of_trace i s _
      ((congrArg Ctl.trace (tick_NEGATIVE_X i s hs)).trans (tickNEGATIVE_X_trace i s h.1))]
    simp only [transfers_append, transfers_timingEvents, transfers_downEvents]
    simp [transfers]
  | POSITIVE_Y =>
    rw [tickEvents_of_trace i s _
      ((congrArg Ctl.trace (tick_POSITIVE_Y i s hs)).trans (tickPOSITIVE_Y_trace i s h.2))]
    simp only [transfers_append, transfers_timingEvents, transfers_yUpEvents]
    simp [transfers]
  | NEGATIVE_Y =>
    rw [tickEvents_of_trace i s _
      ((congrArg Ctl.trace (tick_NEGATIVE_Y i s hs)).trans (tickNEGATIVE_Y_trace s))]
    simp only [transfers_append, transfers_pulseEvents]
    simp [transfers]
  | REWIND =>
    rw [tickEvents_of_trace i s _
      ((congrArg Ctl.trace (tick_REWIND i s hs)).trans (tickREWIND_trace s h.1))]
    simp only [transfers_append, transfers_rewindYEvents, transfers_rewindXEvents]
    simp [transfers]

theorem run_trace (is : List Input) : ∀ s : Ctl, s.inRange →
    (run s is).trace = s.trace ++ runEvents s is := by
  induction is with
  | nil => intro s _; simp [run, runEvents]
  | cons i is ih =>
    intro s h
    have h1 := ih (tick i s) (tick_inRange i s h)
    have h2 := (launches_tickEvents i s h).1
    have h3 : (run s (i :: is)).trace
        = s.trace ++ (tickEvents i s ++ runEvents (tick i s) is) := by
      rw [run, h1, h2, List.append_assoc]
    rw [runEvents, h3, drop_trace]

theorem runEvents_cons (i : Input) (is : List Input) (s : Ctl) (h : s.inRange) :
    runEvents s (i :: is) = tickEvents i s ++ runEvents (tick i s) is := by
  have h1 := run_trace is (tick i s) (tick_inRange i s h)
  have h2 := (launches_tickEvents i s h).1
  have h3 : (run s (i :: is)).trace
      = s.trace ++ (tickEvents i s ++ runEvents (tick i s) is) := by
    rw [run, h1, h2, List.append_assoc]
  rw [runEvents, h3, drop_trace]

theorem transfers_runEvents (is : List Input) : ∀ s : Ctl, s.inRange →
    transfers (runEvents s is) = coreTransfers s.core is := by
  induction is with
  | nil => intro s _; simp [run, runEvents, coreTransfers, transfers]
  | cons i is ih =>
    intro s h
    rw [runEvents_cons i is s h, transfers_append, transfers_tickEvents i s h,
      ih _ (tick_inRange i s h), core_tick i s h, coreTransfers]
    rfl

set_option maxRecDepth 1000000 in
theorem core_firstRasterLastStep (hw : Lines) :
    (run (initial hw) firstRasterLastStep).core =
      { motor_state := POSITIVE_Y, next_x_motor_state := POSITIVE_X, x_position := 0
        y_position := 2700, num_comp_rows := 5, NUM_ROWS := 10, Y_REWIND := 3000
        com := 0, size := 1, positionFile := FStream.good, timeInfo := FStream.good } := by
  rw [core_run _ _ (initial_inRange hw), core_initial]
  decide

set_option maxRecDepth 1000000 in
/-- C19 (transfer command after raster completion), evaluated on the first
raster of size 1 from the initial state: its last iteration is a POSITIVE_Y
iteration that ends with `y_position = Y_REWIND = 3000` and goes to IDLE, so the
raster completes there, with `num_comp_rows = 5` and `NUM_ROWS = 10`; that
iteration does not execute the transfer command, and neither does any other
iteration of the raster: the number of executions in the whole run is 0.  The
POSITIVE_X iteration that completes the second scan of size 1, which ends with
`num_comp_rows = NUM_ROWS`, does execute it once. -/
theorem C19_no_transfer_after_first_raster :
    (run (initial lowLines) firstRasterLastStep).motor_state = POSITIVE_Y
    ∧ (tick (reads 1 0) (run (initial lowLines) firstRasterLastStep)).motor_state = IDLE
    ∧ (tick (reads 1 0) (run (initial lowLines) firstRasterLastStep)).y_position = 3000
    ∧ (tick (reads 1 0) (run (initial lowLines) firstRasterLastStep)).Y_REWIND = 3000
    ∧ (tick (reads 1 0) (run (initial lowLines) firstRasterLastStep)).num_comp_rows = 5
    ∧ (tick (reads 1 0) (run (initial lowLines) firstRasterLastStep)).NUM_ROWS = 10
    ∧ transfers (tickEvents (reads 1 0) (run (initial lowLines) firstRasterLastStep)) = 0
    ∧ (run (initial lowLines) firstRaster).motor_state = IDLE
    ∧ transfers (runEvents (initial lowLines) firstRaster) = 0
    ∧ transfers (tickEvents (reads 1 0) (run (initial lowLines) secondScanLastSweep))
        = 1 := by
  have hs : (run (initial lowLines) firstRasterLastStep).motor_state = POSITIVE_Y := by
    rw [← core_motor_state, core_firstRasterLastStep]
  refine ⟨hs, ?_, ?_, ?_, ?_, ?_, ?_, ?_, ?_, ?_⟩
  · rw [← core_motor_state, core_tick _ _ (reachable_inRange _ _), core_firstRasterLastStep]
    decide
  · rw [← core_y_position, core_tick _ _ (reachable_inRange _ _), core_firstRasterLastStep]
    decide
  · rw [← core_Y_REWIND, core_tick _ _ (reachable_inRange _ _), core_firstRasterLastStep]
    decide
  · rw [← core_num_comp_rows, core_tick _ _ (reachable_inRange _ _),
      core_firstRasterLastStep]
    decide
  · rw [← core_NUM_ROWS, core_tick _ _ (reachable_inRange _ _), core_firstRasterLastStep]
    decide
  · rw [transfers_tickEvents _ _ (reachable_inRange _ _), if_neg]
    rw [hs]
    exact fun hh => absurd hh.1 (by decide)
  · rw [← core_motor_state, core_firstRaster]
  · rw [transfers_runEvents _ _ (initial_inRange lowLines), core_initial]
    decide
  · rw [transfers_tickEvents _ _ (reachable_inRange _ _), ← core_motor_state,
      ← core_NUM_ROWS, core_secondScanLastSweep]
    decide


/-! ## C20 -/

theorem positionLines_rewindXEvents (n : Nat) : positionLines (rewindXEvents n) = [] := by
  induction n with
  | zero => rfl
  | succ n ih => simp [rewindXEvents, positionLines_append, pulseEvents, positionLines, ih]

theorem positionLines_rewindYEvents_of_not_writable (f : FStream) (x y : Nat)
    (h : f.writable = false) (n : Nat) : positionLines (rewindYEvents f x y n) = [] := by
  induction n with
  | zero => rfl
  | succ n ih =>
    simp only [rewindYEvents, positionLines_append, ih, List.append_nil]
    split
    · simp [pulseEvents, positionLines, positionLines_positionEvents_of_not_writable f _ _ h]
    · simp [pulseEvents, positionLines]

theorem positionLines_tickNEGATIVE_X (i : Input) (s : Ctl)
    (hs : s.motor_state = NEGATIVE_X) (hx : s.x_position < UINT32) :
    positionLines (tickEvents i s) =
      positionLines (downEvents s.positionFile s.y_position s.x_position) := by
  rw [tickEvents_of_trace i s _
    ((congrArg Ctl.trace (tick_NEGATIVE_X i s hs)).trans (tickNEGATIVE_X_trace i s hx))]
  simp only [positionLines_append, positionLines_timingEvents, List.append_nil,
    List.nil_append]
  simp [positionLines]

theorem positionLines_tickPOSITIVE_Y (i : Input) (s : Ctl)
    (hs : s.motor_state = POSITIVE_Y) (hy : s.y_position < UINT32) :
    positionLines (tickEvents i s) =
      positionLines (yUpEvents s.positionFile s.x_position s.y_position MAX_Y_POSITION) := by
  rw [tickEvents_of_trace i s _
    ((congrArg Ctl.trace (tick_POSITIVE_Y i s hs)).trans (tickPOSITIVE_Y_trace i s hy))]
  simp only [positionLines_append, positionLines_timingEvents, List.append_nil,
    List.nil_append]
  have e1 : positionLines [Event.setValue Pin.enaX false, Event.setValue Pin.enaY true,
      Event.setValue Pin.dirY false] = [] := rfl
  have e2 : positionLines [Event.setValue Pin.enaY false] = [] := rfl
  rw [e1, e2, List.nil_append, List.append_nil]

theorem positionLines_tickREWIND (i : Input) (s : Ctl)
    (hs : s.motor_state = REWIND) (hx : s.x_position < UINT32) :
    positionLines (tickEvents i s) =
      positionLines (rewindYEvents s.positionFile s.x_position s.y_position
        (s.NUM_ROWS * MAX_Y_POSITION)) := by
  rw [tickEvents_of_trace i s _
    ((congrArg Ctl.trace (tick_REWIND i s hs)).trans (tickREWIND_trace s hx))]
  simp only [positionLines_append, positionLines_rewindXEvents, List.append_nil]
  simp [positionLines]

/-- C21 as stated fails: started with no argument at all (`argc = 1`) and with
the text files present, the program exits, but only after it has set the
direction of ten GPIO lines and written `-1` to `command_file.txt`, `-1` to
`size_file.txt` and the line `0 0` to `position_file.txt`. -/
theorem C21_counterexample :
    mainStart ["./translate"] true true true lowLines =
      Outcome.exited 0
        [StartEvent.setDirection 65 false, StartEvent.setDirection 27 true,
         StartEvent.setDirection 66 true, StartEvent.setDirection 69 true,
         StartEvent.setDirection 45 true, StartEvent.setDirection 47 true,
         StartEvent.setDirection 48 true, StartEvent.setDirection 49 true,
         StartEvent.setDirection 115 true, StartEvent.setDirection 112 true,
         StartEvent.fileWrite "./command_file.txt" "-1",
         StartEvent.fileWrite "./size_file.txt" "-1",
         StartEvent.fileWrite "./position_file.txt" "0 0\n"] := by
  rfl

/-- C21 amended: started with an argument count other than 2 (the program name
and one argument), or with an argument that is neither `on` nor `off`, the
program exits with status 0 without entering the loop and without writing a
level to any line; before that it has set the direction of the ten GPIO lines
and, for each of `command_file.txt`, `size_file.txt`, `position_file.txt` that
exists, written `-1`, `-1` and the line `0 0` to it. -/
theorem C21_startup_misuse (argv : List String) (command size position : Bool) (hw : Lines)
    (h : argv.length ≠ 2 ∨ (argv.get? 1 ≠ some "on" ∧ argv.get? 1 ≠ some "off")) :
    mainStart argv command size position hw
      = Outcome.exited 0 (configureLines ++ initFiles command size position)
    ∧ (∀ e ∈ configureLines ++ initFiles command size position, e.isSetValue = false)
    ∧ configureLines.length = 10
    ∧ (command = true →
        StartEvent.fileWrite "./command_file.txt" "-1"
          ∈ configureLines ++ initFiles command size position)
    ∧ (size = true →
        StartEvent.fileWrite "./size_file.txt" "-1"
          ∈ configureLines ++ initFiles command size position)
    ∧ (position = true →
        StartEvent.fileWrite "./position_file.txt" "0 0\n"
          ∈ configureLines ++ initFiles command size position) := by
  refine ⟨?_, ?_, rfl, ?_, ?_, ?_⟩
  · rcases h with h | ⟨h1, h2⟩
    · simp only [mainStart, h, ne_eq, not_false_eq_true, if_true]
    · simp only [mainStart, h1, h2, if_false]
      split <;> rfl
  · intro e he
    rw [List.mem_append] at he
    rcases he with he | he
    · simp only [configureLines, List.mem_cons, List.mem_singleton] at he
      rcases he with he | he | he | he | he | he | he | he | he | he | he
      all_goals first | (rw [he]; rfl) | exact absurd he (List.not_mem_nil _)
    · simp only [initFiles, startWrite, List.mem_append] at he
      rcases he with (he | he) | he <;> split at he <;>
        first | (rw [List.mem_singleton.mp he]; rfl) | exact absurd he (List.not_mem_nil _)
  · intro hc
    subst hc
    simp [initFiles, startWrite]
  · intro hc
    subst hc
    simp [initFiles, startWrite]
  · intro hc
    subst hc
    simp [initFiles, startWrite]

/-- C21 amended, at a start with the argument `up` and the files present: the
exit comes after the ten direction settings and the three file writes. -/
theorem C21_startup_misuse_witness :
    mainStart ["./translate", "up"] true true true lowLines
      = Outcome.exited 0 (configureLines ++ initFiles true true true)
    ∧ StartEvent.fileWrite "./command_file.txt" "-1"
        ∈ configureLines ++ initFiles true true true :=
  ⟨(C21_startup_misuse ["./translate", "up"] true true true lowLines
      (Or.inr ⟨by decide, by decide⟩)).1,
   (C21_startup_misuse ["./translate", "up"] true true true lowLines
      (Or.inr ⟨by decide, by decide⟩)).2.2.2.1 rfl⟩

/-! ## C22 -/

/-- For both accepted arguments, `on` and `off`, the start of `main` writes
optoY HIGH and optoX HIGH, in this order and as its only line writes, and
enters the loop in the same state, in which optoX and optoY are HIGH. -/
theorem mainStart_accepted (name : String) (command size position : Bool)
    (hw : Lines) :
    mainStart [name, "on"] command size position hw
      = Outcome.loop
          (configureLines ++ initFiles command size position
            ++ [StartEvent.setValue Pin.optoY true, StartEvent.setValue Pin.optoX true])
          (enterLoop position hw)
    ∧ mainStart [name, "off"] command size position hw
      = mainStart [name, "on"] command size position hw
    ∧ (enterLoop position hw).lines.optoX = true
    ∧ (enterLoop position hw).lines.optoY = true
    ∧ enterLoop true hw = initial hw := by
  refine ⟨rfl, rfl, ?_, ?_, rfl⟩
  · cases position <;> cases hw <;> rfl
  · cases position <;> cases hw <;> rfl

/-- C22 (the startup argument selects the initial opto line state), evaluated
on a start with the argument `off` and the text files present: the program
writes optoY HIGH and optoX HIGH and enters the loop with optoX and optoY HIGH,
not LOW; the start with `off` has the same outcome as the start with `on`. -/
theorem C22_argument_off_leaves_opto_high :
    mainStart ["./translate", "off"] true true true lowLines
      = Outcome.loop
          (configureLines ++ initFiles true true true
            ++ [StartEvent.setValue Pin.optoY true, StartEvent.setValue Pin.optoX true])
          (initial lowLines)
    ∧ (initial lowLines).lines.optoX = true
    ∧ (initial lowLines).lines.optoY = true
    ∧ mainStart ["./translate", "off"] true true true lowLines
        = mainStart ["./translate", "on"] true true true lowLines := by
  refine ⟨rfl, rfl, rfl, rfl⟩

/-! ## C24 -/

theorem sig_handler_eq (s : Ctl) :
    sig_handler s =
      { status := 0
        final := { s with
          lines := lowLines
          trace := s.trace ++
            [Event.setValue Pin.optoX false, Event.setValue Pin.pulX false,
             Event.setValue Pin.dirX false, Event.setValue Pin.enaX false,
             Event.setValue Pin.optoY false, Event.setValue Pin.pulY false,
             Event.setValue Pin.dirY false, Event.setValue Pin.enaY false] } } := by
  simp [sig_handler, setValue, Lines.set, lowLines]

/-- C24 (shutdown handler): run in any state of the program, whatever the
levels of the eight lines, `sig_handler` writes LOW to optoX, pulX, dirX, enaX,
optoY, pulY, dirY, enaY, in this order and nothing else, and ends the process
with `exit(0)`: all eight lines are LOW in the last state, and every variable
and both log streams are as before. -/
theorem C24_shutdown_handler (s : Ctl) :
    (sig_handler s).status = 0
    ∧ (∀ pin : Pin, (sig_handler s).final.lines.get pin = false)
    ∧ (sig_handler s).final.trace = s.trace ++
        [Event.setValue Pin.optoX false, Event.setValue Pin.pulX false,
         Event.setValue Pin.dirX false, Event.setValue Pin.enaX false,
         Event.setValue Pin.optoY false, Event.setValue Pin.pulY false,
         Event.setValue Pin.dirY false, Event.setValue Pin.enaY false]
    ∧ (sig_handler s).final.x_position = s.x_position
    ∧ (sig_handler s).final.y_position = s.y_position
    ∧ (sig_handler s).final.num_comp_rows = s.num_comp_rows
    ∧ (sig_handler s).final.positionFile = s.positionFile
    ∧ (sig_handler s).final.timeInfo = s.timeInfo
    ∧ (sig_handler s).final.core = s.core := by
  rw [sig_handler_eq]
  refine ⟨rfl, ?_, rfl, rfl, rfl, rfl, rfl, rfl, rfl⟩
  intro pin
  cases pin <;> rfl



/-! ## C26 -/

theorem coreREADY_Bounded (i : Input) (c : Core) (h : c.Bounded)
    (hs : c.motor_state = READY) : (coreREADY i c).Bounded := by
  obtain ⟨h1, h2, h3⟩ := h
  simp only [Core.Bounded, Core.pending, hs] at h3 ⊢
  simp only [coreREADY]
  refine ⟨h1, h2, ?_⟩
  split_ifs <;> simp_all

theorem coreIDLE_Bounded (i : Input) (c : Core) (h : c.Bounded)
    (hs : c.motor_state = IDLE) : (coreIDLE i c).Bounded := by
  obtain ⟨h1, h2, h3⟩ := h
  simp only [Core.Bounded, Core.pending, hs] at h3 ⊢
  simp only [coreIDLE]
  refine ⟨h1, h2, ?_⟩
  split_ifs <;> simp_all

theorem corePOSITIVE_X_Bounded (i : Input) (c : Core) (hI : c.Inv) (h : c.Bounded)
    (hs : c.motor_state = POSITIVE_X) : (corePOSITIVE_X i c).Bounded := by
  obtain ⟨h1, h2, h3⟩ := h
  have hN : c.NUM_ROWS ≤ 20 := by
    rcases hI.2.2.2.2.2.1 with h | h | h <;> omega
  simp only [Core.Bounded, Core.pending, hs] at h3 ⊢
  simp only [corePOSITIVE_X]
  by_cases hrow : c.x_position + (MAX_X_POSITION - c.x_position) = MAX_X_POSITION
      ∧ c.num_comp_rows < c.NUM_ROWS
  · have hm : (c.num_comp_rows + 1) % UINT32 = c.num_comp_rows + 1 :=
      Nat.mod_eq_of_lt (by simp only [UINT32]; omega)
    simp only [hrow, and_self, decide_True, if_true, hm]
    refine ⟨by omega, h2, ?_⟩
    split_ifs <;> simp_all <;> omega
  · simp only [hrow, decide_False, Bool.false_eq_true, if_false]
    refine ⟨h1, h2, ?_⟩
    split_ifs <;> simp_all

theorem coreNEGATIVE_X_Bounded (i : Input) (c : Core) (h : c.Bounded)
    (hs : c.motor_state = NEGATIVE_X) : (coreNEGATIVE_X i c).Bounded := by
  obtain ⟨h1, h2, h3⟩ := h
  simp only [Core.Bounded, Core.pending, hs] at h3 ⊢
  simp only [coreNEGATIVE_X]
  refine ⟨h1, h2, ?_⟩
  split_ifs <;> simp_all
  omega

theorem corePOSITIVE_Y_Bounded (i : Input) (c : Core) (hI : c.Inv) (h : c.Bounded)
    (hs : c.motor_state = POSITIVE_Y) : (corePOSITIVE_Y i c).Bounded := by
  obtain ⟨h1, h2, h3⟩ := h
  simp only [Core.Bounded, Core.pending, hs] at h3 ⊢
  have hp : c.y_position + 300 ≤ 600 * c.num_comp_rows := by
    split_ifs at h3 <;> omega
  have hm : (c.y_position + MAX_Y_POSITION) % UINT32 = c.y_position + 300 :=
    Nat.mod_eq_of_lt (by simp only [MAX_Y_POSITION, UINT32]; omega)
  simp only [corePOSITIVE_Y, hm]
  refine ⟨h1, by omega, ?_⟩
  rcases hI.2.2.2.1 with hn | hn | hn
  · exact absurd hn (hI.2.2.2.2.1 hs)
  · simp only [hn] at h3 ⊢
    split_ifs <;> simp_all
  · simp only [hn] at h3 ⊢
    split_ifs <;> simp_all

theorem coreREWIND_Bounded (c : Core) (h : c.Bounded)
    (hs : c.motor_state = REWIND) : (coreREWIND c).Bounded := by
  obtain ⟨h1, h2, h3⟩ := h
  simp only [Core.Bounded, Core.pending, hs] at h3 ⊢
  simp only [coreREWIND]
  refine ⟨h1, h2, ?_⟩
  simp_all

theorem coreTick_Bounded (i : Input) (c : Core) (hI : c.Inv) (h : c.Bounded) :
    (coreTick i c).Bounded := by
  cases hs : c.motor_state with
  | READY => simp only [coreTick, hs]; exact coreREADY_Bounded i c h hs
  | IDLE => simp only [coreTick, hs]; exact coreIDLE_Bounded i c h hs
  | POSITIVE_X => simp only [coreTick, hs]; exact corePOSITIVE_X_Bounded i c hI h hs
  | NEGATIVE_X => simp only [coreTick, hs]; exact coreNEGATIVE_X_Bounded i c h hs
  | POSITIVE_Y => simp only [coreTick, hs]; exact corePOSITIVE_Y_Bounded i c hI h hs
  | NEGATIVE_Y => exact absurd hs hI.2.2.1
  | REWIND => simp only [coreTick, hs]; exact coreREWIND_Bounded c h hs

theorem coreRun_Bounded (is : List Input) : ∀ c : Core, c.Inv → c.Bounded →
    (coreRun c is).Bounded := by
  induction is with
  | nil => intro c _ h; exact h
  | cons i is ih =>
    intro c hI h
    exact ih _ (coreTick_Inv i c hI) (coreTick_Bounded i c hI h)

theorem initial_Bounded (hw : Lines) : (initial hw).core.Bounded := by
  simp [Core.Bounded, Core.pending, core_initial]

theorem reachable_Bounded (hw : Lines) (is : List Input) :
    (run (initial hw) is).core.Bounded := by
  rw [core_run _ _ (initial_inRange hw)]
  exact coreRun_Bounded is _ (initial_Inv hw) (initial_Bounded hw)

theorem coreTick_y_position (i : Input) (c : Core) (hI : c.Inv) (h : c.Bounded) :
    (coreTick i c).y_position
      = c.y_position + (if c.motor_state = POSITIVE_Y then 300 else 0) := by
  cases hs : c.motor_state with
  | READY => simp only [coreTick, hs, coreREADY]; simp
  | IDLE => simp only [coreTick, hs, coreIDLE]; simp
  | POSITIVE_X => simp only [coreTick, hs, corePOSITIVE_X]; simp
  | NEGATIVE_X => simp only [coreTick, hs, coreNEGATIVE_X]; simp
  | POSITIVE_Y =>
    obtain ⟨h1, h2, h3⟩ := h
    simp only [Core.pending, hs] at h3
    have hp : c.y_position + 300 ≤ 600 * c.num_comp_rows := by
      split_ifs at h3 <;> omega
    have hm : (c.y_position + MAX_Y_POSITION) % UINT32 = c.y_position + 300 :=
      Nat.mod_eq_of_lt (by simp only [MAX_Y_POSITION, UINT32]; omega)
    simp only [coreTick, hs, corePOSITIVE_Y, hm]
    simp
  | NEGATIVE_Y => exact absurd hs hI.2.2.1
  | REWIND => simp only [coreTick, hs, coreREWIND]; simp

theorem coreRun_y_position (is : List Input) : ∀ c : Core, c.Inv → c.Bounded →
    (coreRun c is).y_position
      = c.y_position + 300 * (coreVisited c is).count POSITIVE_Y := by
  induction is with
  | nil => intro c _ _; simp [coreRun, coreVisited]
  | cons i is ih =>
    intro c hI h
    rw [coreRun, coreVisited, ih _ (coreTick_Inv i c hI) (coreTick_Bounded i c hI h),
      coreTick_y_position i c hI h, List.count_cons]
    by_cases hs : c.motor_state = POSITIVE_Y
    · simp only [hs, if_true, beq_self_eq_true]
      omega
    · have hb : (c.motor_state == POSITIVE_Y) = false := by simpa using hs
      simp only [hs, if_false, hb, Bool.false_eq_true]
      omega

/-- C26 (bounded counters): in every state reachable from the initial state,
for every sequence of inputs, `num_comp_rows` is at most 20 and `y_position` is at
most 12000, a multiple of 300 and below `2^32`; `y_position` is 300 times the number
of POSITIVE_Y iterations run so far, so at most 40 POSITIVE_Y iterations ever
run. -/
theorem C26_bounded_counters (hw : Lines) (is : List Input) :
    (run (initial hw) is).num_comp_rows ≤ 20
    ∧ (run (initial hw) is).y_position ≤ 12000
    ∧ (run (initial hw) is).y_position % 300 = 0
    ∧ (run (initial hw) is).y_position < UINT32
    ∧ (run (initial hw) is).y_position = 300 * (visited (initial hw) is).count POSITIVE_Y
    ∧ (visited (initial hw) is).count POSITIVE_Y ≤ 40 := by
  obtain ⟨h1, h2, h3⟩ := reachable_Bounded hw is
  rw [core_num_comp_rows] at h1
  rw [core_y_position] at h2 h3
  have hy : (run (initial hw) is).y_position ≤ 12000 := by
    have := Nat.le_add_right (run (initial hw) is).y_position
      (300 * (run (initial hw) is).core.pending)
    rw [core_num_comp_rows] at h3
    omega
  have hc : (run (initial hw) is).y_position
      = 300 * (visited (initial hw) is).count POSITIVE_Y := by
    rw [← core_y_position, core_run _ _ (initial_inRange hw),
      coreRun_y_position is _ (initial_Inv hw) (initial_Bounded hw),
      visited_eq is _ (initial_inRange hw), core_initial]
    simp
  refine ⟨h1, hy, h2, ?_, hc, ?_⟩
  · simp only [UINT32]
    omega
  · omega



/-! ## C27 -/

/-- C27 as stated fails: in the POSITIVE_X state with `num_comp_rows = 20` and
`NUM_ROWS = 10` reached after two scans of size 2 and the start of a scan of size
1, `x_position` is 0; the next iteration stays in POSITIVE_X but emits 7000
pulses on pulX and changes `x_position` to 7000. -/
theorem C27_counterexample :
    (run (initial lowLines) twoSize2ScansThenSize1).motor_state = POSITIVE_X
    ∧ (run (initial lowLines) twoSize2ScansThenSize1).NUM_ROWS
        < (run (initial lowLines) twoSize2ScansThenSize1).num_comp_rows
    ∧ (run (initial lowLines) twoSize2ScansThenSize1).x_position = 0
    ∧ (tick (reads 1 0) (run (initial lowLines) twoSize2ScansThenSize1)).x_position = 7000
    ∧ pulses Pin.pulX
        (tickEvents (reads 1 0) (run (initial lowLines) twoSize2ScansThenSize1)) = 7000 := by
  have hs : (run (initial lowLines) twoSize2ScansThenSize1).motor_state = POSITIVE_X := by
    rw [← core_motor_state, core_twoSize2ScansThenSize1]
  have hx : (run (initial lowLines) twoSize2ScansThenSize1).x_position = 0 := by
    rw [← core_x_position, core_twoSize2ScansThenSize1]
  refine ⟨hs, ?_, hx, ?_, ?_⟩
  · rw [← core_NUM_ROWS, ← core_num_comp_rows, core_twoSize2ScansThenSize1]
    decide
  · rw [← core_x_position, core_tick _ _ (reachable_inRange _ _),
      core_twoSize2ScansThenSize1]
    decide
  · rw [pulses_tickPOSITIVE_X _ _ hs, hx]
    rfl

theorem livelock_tick (i : Input) (s : Ctl) (hs : s.motor_state = POSITIVE_X)
    (hr : s.NUM_ROWS < s.num_comp_rows) :
    (tick i s).core =
      { s.core with com := i.com2.getD (i.com1.getD s.com)
                    x_position := s.x_position + (MAX_X_POSITION - s.x_position) } := by
  rw [tick_POSITIVE_X i s hs, core_tickPOSITIVE_X]
  have h1 : ¬ s.core.num_comp_rows < s.core.NUM_ROWS := by
    show ¬ s.num_comp_rows < s.NUM_ROWS
    omega
  have h2 : ¬ s.core.num_comp_rows = s.core.NUM_ROWS := by
    show ¬ s.num_comp_rows = s.NUM_ROWS
    omega
  simp only [corePOSITIVE_X, h1, h2, and_false, decide_False, Bool.false_eq_true, if_false]
  rfl

theorem livelock_run (is : List Input) : ∀ s : Ctl, s.motor_state = POSITIVE_X →
    s.NUM_ROWS < s.num_comp_rows →
    (run s is).motor_state = POSITIVE_X
    ∧ (run s is).num_comp_rows = s.num_comp_rows
    ∧ (run s is).NUM_ROWS = s.NUM_ROWS
    ∧ (run s is).y_position = s.y_position
    ∧ (is ≠ [] → (run s is).x_position = s.x_position + (MAX_X_POSITION - s.x_position)) := by
  induction is with
  | nil => intro s hs _; exact ⟨hs, rfl, rfl, rfl, fun h => absurd rfl h⟩
  | cons i is ih =>
    intro s hs hr
    have hc := livelock_tick i s hs hr
    have e1 : (tick i s).motor_state = POSITIVE_X := by
      rw [← core_motor_state, hc]; exact hs
    have e2 : (tick i s).num_comp_rows = s.num_comp_rows := by
      rw [← core_num_comp_rows, hc]; rfl
    have e3 : (tick i s).NUM_ROWS = s.NUM_ROWS := by
      rw [← core_NUM_ROWS, hc]; rfl
    have e4 : (tick i s).y_position = s.y_position := by
      rw [← core_y_position, hc]; rfl
    have e5 : (tick i s).x_position = s.x_position + (MAX_X_POSITION - s.x_position) := by
      rw [← core_x_position, hc]
    obtain ⟨g1, g2, g3, g4, g5⟩ := ih (tick i s) e1 (by rw [e2, e3]; exact hr)
    refine ⟨g1, g2.trans e2, g3.trans e3, g4.trans e4, fun _ => ?_⟩
    rcases is with _ | ⟨j, js⟩
    · exact e5
    · rw [run, g5 (List.cons_ne_nil _ _), e5]
      omega

/-- C27 amended: in every state with `motor_state = POSITIVE_X` and
`num_comp_rows > NUM_ROWS`, the next iteration, for every command read, leaves the
state at POSITIVE_X and leaves `y_position`, `num_comp_rows` and `NUM_ROWS`
unchanged; it emits `MAX_X_POSITION - x_position` pulses on pulX and ends with
`x_position` at the larger of its entry value and `MAX_X_POSITION` (unchanged if
the sweep was already at the limit).  The same holds after any number of
iterations, so pause and rewind are never honoured.  Such a state is reached
from the initial state by two complete scans of size 2, each followed by a
rewind, and a start command with size 1. -/
theorem C27_positive_x_livelock (i : Input) (is : List Input) (s : Ctl)
    (hs : s.motor_state = POSITIVE_X) (hr : s.NUM_ROWS < s.num_comp_rows) :
    (tick i s).motor_state = POSITIVE_X
    ∧ (tick i s).y_position = s.y_position
    ∧ (tick i s).num_comp_rows = s.num_comp_rows
    ∧ (tick i s).NUM_ROWS = s.NUM_ROWS
    ∧ (tick i s).x_position = s.x_position + (MAX_X_POSITION - s.x_position)
    ∧ (MAX_X_POSITION ≤ s.x_position → (tick i s).x_position = s.x_position)
    ∧ pulses Pin.pulX (tickEvents i s) = MAX_X_POSITION - s.x_position
    ∧ pulses Pin.pulY (tickEvents i s) = 0
    ∧ (run s is).motor_state = POSITIVE_X
    ∧ (run s is).num_comp_rows = s.num_comp_rows
    ∧ (run s is).y_position = s.y_position
    ∧ (is ≠ [] → (run s is).x_position = s.x_position + (MAX_X_POSITION - s.x_position))
    ∧ (run (initial lowLines) twoSize2ScansThenSize1).motor_state = POSITIVE_X
    ∧ (run (initial lowLines) twoSize2ScansThenSize1).num_comp_rows = 20
    ∧ (run (initial lowLines) twoSize2ScansThenSize1).NUM_ROWS = 10 := by
  have hc := livelock_tick i s hs hr
  have e5 : (tick i s).x_position = s.x_position + (MAX_X_POSITION - s.x_position) := by
    rw [← core_x_position, hc]
  obtain ⟨g1, g2, _, g4, g5⟩ := livelock_run is s hs hr
  refine ⟨?_, ?_, ?_, ?_, e5, ?_, pulses_tickPOSITIVE_X i s hs, ?_, g1, g2, g4, g5,
    ?_, ?_, ?_⟩
  · rw [← core_motor_state, hc]; exact hs
  · rw [← core_y_position, hc]; rfl
  · rw [← core_num_comp_rows, hc]; rfl
  · rw [← core_NUM_ROWS, hc]; rfl
  · intro hle
    rw [e5]
    omega
  · rw [tickEvents_of_trace i s _
      ((congrArg Ctl.trace (tick_POSITIVE_X i s hs)).trans (tickPOSITIVE_X_trace i s))]
    simp only [pulses_append, pulses_timingEvents, pulses_upEvents, pulses_completeEvents,
      pulses_setValue, pulses_nil]
    simp
  · rw [← core_motor_state, core_twoSize2ScansThenSize1]
  · rw [← core_num_comp_rows, core_twoSize2ScansThenSize1]
  · rw [← core_NUM_ROWS, core_twoSize2ScansThenSize1]

/-- C27 amended, at the state reached by two scans of size 2 and the start of a
scan of size 1: after three more iterations that read the pause command, the
rewind command and the start command, the state is still POSITIVE_X with
`num_comp_rows = 20`. -/
theorem C27_positive_x_livelock_witness :
    (run (run (initial lowLines) twoSize2ScansThenSize1)
        [reads 1 1, reads 1 2, reads 1 0]).motor_state = POSITIVE_X
    ∧ (run (run (initial lowLines) twoSize2ScansThenSize1)
        [reads 1 1, reads 1 2, reads 1 0]).num_comp_rows
      = (run (initial lowLines) twoSize2ScansThenSize1).num_comp_rows := by
  have hs : (run (initial lowLines) twoSize2ScansThenSize1).motor_state = POSITIVE_X := by
    rw [← core_motor_state, core_twoSize2ScansThenSize1]
  have hr : (run (initial lowLines) twoSize2ScansThenSize1).NUM_ROWS
      < (run (initial lowLines) twoSize2ScansThenSize1).num_comp_rows := by
    rw [← core_NUM_ROWS, ← core_num_comp_rows, core_twoSize2ScansThenSize1]
    decide
  have h := C27_positive_x_livelock (reads 1 1) [reads 1 1, reads 1 2, reads 1 0]
    (run (initial lowLines) twoSize2ScansThenSize1) hs hr
  exact ⟨h.2.2.2.2.2.2.2.2.1, h.2.2.2.2.2.2.2.2.2.1⟩

/-! ## C28 -/

set_option maxRecDepth 1000000 in
theorem core_secondScanStart (hw : Lines) :
    (run (initial hw) secondScanStart).core =
      { motor_state := POSITIVE_X, next_x_motor_state := POSITIVE_X, x_position := 0
        y_position := 3000, num_comp_rows := 5, NUM_ROWS := 10, Y_REWIND := 3000
        com := 0, size := 1, positionFile := FStream.closed, timeInfo := FStream.good } := by
  rw [core_run _ _ (initial_inRange hw), core_initial]
  decide

set_option maxRecDepth 1000000 in
theorem core_secondScan (hw : Lines) :
    (run (initial hw) secondScan).core =
      { motor_state := IDLE, next_x_motor_state := NEGATIVE_X, x_position := 7000
        y_position := 5400, num_comp_rows := 10, NUM_ROWS := 10, Y_REWIND := 3000
        com := 0, size := 1, positionFile := FStream.closed, timeInfo := FStream.closed } := by
  rw [core_run _ _ (initial_inRange hw), core_initial]
  decide

set_option maxRecDepth 1000000 in
theorem core_laterScans (hw : Lines) (n : Nat) :
    (run (initial hw) (secondScan ++ laterScans n)).core =
      { motor_state := IDLE, next_x_motor_state := NEGATIVE_X, x_position := 7000
        y_position := 5400, num_comp_rows := 10, NUM_ROWS := 10, Y_REWIND := 3000
        com := 0, size := 1, positionFile := FStream.closed, timeInfo := FStream.closed } := by
  induction n with
  | zero =>
    rw [laterScans, List.append_nil]
    exact core_secondScan hw
  | succ n ih =>
    rw [laterScans, ← List.append_assoc, run_append,
      core_run _ _ (reachable_inRange hw _), ih]
    decide

set_option maxRecDepth 1000000 in
/-- C28 (a second scan does not repeat the first): READY and REWIND leave
`num_comp_rows` and `y_position` as they are.  From the initial state with size 1,
the first raster ends in IDLE with `x_position = 0`, `y_position = 3000`; after a
rewind command and a new start command the second scan runs 17 iterations, 9 X
sweeps and 8 Y steps, and ends in IDLE with `x_position = 7000`, `y_position = 5400`,
`num_comp_rows = 10`; each of any number `n` of later scans of size 1 goes through
IDLE, REWIND, READY and a single POSITIVE_X iteration and is back in IDLE in
the same state. -/
theorem C28_second_scan_differs (n : Nat) (i : Input) (s : Ctl)
    (hx : s.x_position < UINT32) :
    (tickREADY i s).num_comp_rows = s.num_comp_rows
    ∧ (tickREADY i s).y_position = s.y_position
    ∧ (tickREWIND s).num_comp_rows = s.num_comp_rows
    ∧ (tickREWIND s).y_position = s.y_position
    ∧ (run (initial lowLines) firstRaster).motor_state = IDLE
    ∧ (run (initial lowLines) firstRaster).x_position = 0
    ∧ (run (initial lowLines) firstRaster).y_position = 3000
    ∧ visited (run (initial lowLines) secondScanStart) (List.replicate 17 (reads 1 0))
        = [POSITIVE_X, POSITIVE_Y, NEGATIVE_X, POSITIVE_Y, POSITIVE_X, POSITIVE_Y,
           NEGATIVE_X, POSITIVE_Y, POSITIVE_X, POSITIVE_Y, NEGATIVE_X, POSITIVE_Y,
           POSITIVE_X, POSITIVE_Y, NEGATIVE_X, POSITIVE_Y, POSITIVE_X]
    ∧ (run (initial lowLines) secondScan).motor_state = IDLE
    ∧ (run (initial lowLines) secondScan).x_position = 7000
    ∧ (run (initial lowLines) secondScan).y_position = 5400
    ∧ (run (initial lowLines) secondScan).num_comp_rows = 10
    ∧ visited (run (initial lowLines) (secondScan ++ laterScans n)) laterScan
        = [IDLE, REWIND, READY, POSITIVE_X]
    ∧ (run (initial lowLines) (secondScan ++ laterScans (n + 1))).motor_state = IDLE
    ∧ (run (initial lowLines) (secondScan ++ laterScans (n + 1))).x_position = 7000
    ∧ (run (initial lowLines) (secondScan ++ laterScans (n + 1))).y_position = 5400
    ∧ (run (initial lowLines) (secondScan ++ laterScans (n + 1))).num_comp_rows = 10 := by
  refine ⟨?_, ?_, ?_, ?_, ?_, ?_, ?_, ?_, ?_, ?_, ?_, ?_, ?_, ?_, ?_, ?_, ?_⟩
  · rw [← core_num_comp_rows, core_tickREADY]; rfl
  · rw [← core_y_position, core_tickREADY]; rfl
  · rw [← core_num_comp_rows, core_tickREWIND s hx]; rfl
  · rw [← core_y_position, core_tickREWIND s hx]; rfl
  · rw [← core_motor_state, core_firstRaster]
  · rw [← core_x_position, core_firstRaster]
  · rw [← core_y_position, core_firstRaster]
  · rw [visited_eq _ _ (reachable_inRange _ _), core_secondScanStart]
    decide
  · rw [← core_motor_state, core_secondScan]
  · rw [← core_x_position, core_secondScan]
  · rw [← core_y_position, core_secondScan]
  · rw [← core_num_comp_rows, core_secondScan]
  · rw [visited_eq _ _ (reachable_inRange _ _), core_laterScans]
    decide
  · rw [← core_motor_state, core_laterScans]
  · rw [← core_x_position, core_laterScans]
  · rw [← core_y_position, core_laterScans]
  · rw [← core_num_comp_rows, core_laterScans]

/-- C28 at the third scan of size 1 (`n = 0`): IDLE, REWIND, READY, one
POSITIVE_X iteration, and IDLE again with `x_position = 7000`. -/
theorem C28_second_scan_differs_witness :
    visited (run (initial lowLines) (secondScan ++ laterScans 0)) laterScan
        = [IDLE, REWIND, READY, POSITIVE_X]
    ∧ (run (initial lowLines) (secondScan ++ laterScans (0 + 1))).motor_state = IDLE
    ∧ (run (initial lowLines) (secondScan ++ laterScans (0 + 1))).x_position = 7000 :=
  ⟨(C28_second_scan_differs 0 (reads 1 0) (initial lowLines)
      (by decide)).2.2.2.2.2.2.2.2.2.2.2.2.1,
   (C28_second_scan_differs 0 (reads 1 0) (initial lowLines)
      (by decide)).2.2.2.2.2.2.2.2.2.2.2.2.2.1,
   (C28_second_scan_differs 0 (reads 1 0) (initial lowLines)
      (by decide)).2.2.2.2.2.2.2.2.2.2.2.2.2.2.1⟩



/-! ## C30 -/

theorem positionLines_downEvents_of_not_writable (f : FStream) (y : Nat)
    (h : f.writable = false) (x : Nat) : positionLines (downEvents f y x) = [] := by
  induction x with
  | zero => rfl
  | succ n ih =>
    simp only [downEvents, positionLines_append, ih, List.append_nil]
    split
    · simp [pulseEvents, positionLines, positionLines_positionEvents_of_not_writable f _ _ h]
    · simp [pulseEvents, positionLines]

theorem positionLines_yUpEvents_of_not_writable (f : FStream) (x : Nat)
    (h : f.writable = false) (n : Nat) : ∀ y : Nat,
    positionLines (yUpEvents f x y n) = [] := by
  induction n with
  | zero => intro y; rfl
  | succ n ih =>
    intro y
    simp only [yUpEvents, positionLines_append, ih, List.append_nil]
    split
    · simp [pulseEvents, positionLines, positionLines_positionEvents_of_not_writable f _ _ h]
    · simp [pulseEvents, positionLines]

/-- An iteration entered with the position log not open writes no position
record, whatever the state. -/
theorem positionLines_tickEvents_of_not_writable (i : Input) (s : Ctl) (h : s.inRange)
    (hf : s.positionFile.writable = false) : positionLines (tickEvents i s) = [] := by
  cases hs : s.motor_state with
  | READY =>
    rw [tickEvents_of_trace i s _
      ((congrArg Ctl.trace (tick_READY i s hs)).trans (tickREADY_trace i s))]
    split <;> rfl
  | IDLE =>
    rw [tickEvents_of_trace i s _
      ((congrArg Ctl.trace (tick_IDLE i s hs)).trans (tickIDLE_trace i s))]
    rfl
  | POSITIVE_X =>
    rw [positionLines_tickPOSITIVE_X i s hs]
    exact positionLines_upEvents_of_not_writable _ _ hf _ _
  | NEGATIVE_X =>
    rw [positionLines_tickNEGATIVE_X i s hs h.1]
    exact positionLines_downEvents_of_not_writable _ _ hf _
  | POSITIVE_Y =>
    rw [positionLines_tickPOSITIVE_Y i s hs h.2]
    exact positionLines_yUpEvents_of_not_writable _ _ hf _ _
  | NEGATIVE_Y =>
    rw [tickEvents_of_trace i s _
      ((congrArg Ctl.trace (tick_NEGATIVE_Y i s hs)).trans (tickNEGATIVE_Y_trace s))]
    rfl
  | REWIND =>
    rw [positionLines_tickREWIND i s hs h.1]
    exact positionLines_rewindYEvents_of_not_writable _ _ _ hf _

/-- Only IDLE changes the state of the position log, and it closes it. -/
theorem coreTick_positionFile (i : Input) (c : Core) :
    (coreTick i c).positionFile
      = if c.motor_state = IDLE then FStream.closed else c.positionFile := by
  cases hs : c.motor_state with
  | READY => simp only [coreTick, hs, coreREADY]; simp
  | IDLE => simp only [coreTick, hs, coreIDLE]; simp
  | POSITIVE_X => simp only [coreTick, hs, corePOSITIVE_X]; simp
  | NEGATIVE_X => simp only [coreTick, hs, coreNEGATIVE_X]; simp
  | POSITIVE_Y => simp only [coreTick, hs, corePOSITIVE_Y]; simp
  | NEGATIVE_Y => simp only [coreTick, hs, coreNEGATIVE_Y]; simp
  | REWIND => simp only [coreTick, hs, coreREWIND]; simp

theorem tick_positionFile (i : Input) (s : Ctl) (h : s.inRange) :
    (tick i s).positionFile
      = if s.motor_state = IDLE then FStream.closed else s.positionFile := by
  rw [← core_positionFile, core_tick i s h, coreTick_positionFile]
  rfl

theorem run_positionFile_of_not_writable (is : List Input) : ∀ s : Ctl, s.inRange →
    s.positionFile.writable = false → (run s is).positionFile.writable = false := by
  induction is with
  | nil => intro s _ hf; exact hf
  | cons i is ih =>
    intro s h hf
    apply ih (tick i s) (tick_inRange i s h)
    rw [tick_positionFile i s h]
    split
    · rfl
    · exact hf

theorem run_positionFile_of_visited_IDLE (is : List Input) : ∀ s : Ctl, s.inRange →
    IDLE ∈ visited s is → (run s is).positionFile.writable = false := by
  induction is with
  | nil => intro s _ hv; simp [visited] at hv
  | cons i is ih =>
    intro s h hv
    rw [visited, List.mem_cons] at hv
    rcases hv with hv | hv
    · apply run_positionFile_of_not_writable is (tick i s) (tick_inRange i s h)
      rw [tick_positionFile i s h, if_pos hv.symm]
      rfl
    · exact ih (tick i s) (tick_inRange i s h) hv

theorem positionLines_runEvents_of_not_writable (is : List Input) : ∀ s : Ctl, s.inRange →
    s.positionFile.writable = false → positionLines (runEvents s is) = [] := by
  induction is with
  | nil => intro s _ _; simp [runEvents, run, positionLines]
  | cons i is ih =>
    intro s h hf
    have hf1 : (tick i s).positionFile.writable = false := by
      rw [tick_positionFile i s h]
      split
      · rfl
      · exact hf
    rw [runEvents_cons i is s h, positionLines_append,
      positionLines_tickEvents_of_not_writable i s h hf, ih _ (tick_inRange i s h) hf1]
    rfl

/-- A REWIND state is entered from IDLE only, so in every reachable REWIND state
the position log is closed. -/
theorem coreRun_rewind_closed (is : List Input) : ∀ c : Core, c.Inv →
    (c.motor_state = REWIND → c.positionFile = FStream.closed) →
    (coreRun c is).motor_state = REWIND → (coreRun c is).positionFile = FStream.closed := by
  induction is with
  | nil => intro c _ h; exact h
  | cons i is ih =>
    intro c hI h
    apply ih (coreTick i c) (coreTick_Inv i c hI)
    cases hs : c.motor_state with
    | READY =>
      simp only [coreTick, hs, coreREADY]
      split_ifs <;> simp [hs]
    | IDLE =>
      simp only [coreTick, hs, coreIDLE]
      split_ifs <;> simp
    | POSITIVE_X =>
      simp only [coreTick, hs, corePOSITIVE_X]
      split_ifs <;> simp [hs]
    | NEGATIVE_X =>
      simp only [coreTick, hs, coreNEGATIVE_X]
      split_ifs <;> simp
    | POSITIVE_Y =>
      simp only [coreTick, hs, corePOSITIVE_Y]
      rcases hI.2.2.2.1 with hn | hn | hn <;> split_ifs <;> simp [hn]
    | NEGATIVE_Y => exact absurd hs hI.2.2.1
    | REWIND =>
      simp only [coreTick, hs, coreREWIND]
      simp

/-- C30 (the position log stops after the first IDLE): the log is open in the
initial state; every IDLE iteration closes it and no iteration opens it.  Once
a run from the initial state has visited IDLE, the log is not open, and neither
the next iteration nor any sequence of further iterations writes a position
record.  In every reachable REWIND state the log is closed, so no REWIND
iteration writes a position record. -/
theorem C30_position_log_stops_after_idle (hw : Lines) (is js : List Input) (i : Input)
    (h : IDLE ∈ visited (initial hw) is) :
    (initial hw).positionFile = FStream.good
    ∧ (tick i (run (initial hw) js)).positionFile
        = (if (run (initial hw) js).motor_state = IDLE then FStream.closed
           else (run (initial hw) js).positionFile)
    ∧ (run (initial hw) is).positionFile.writable = false
    ∧ positionLines (tickEvents i (run (initial hw) is)) = []
    ∧ positionLines (runEvents (run (initial hw) is) js) = []
    ∧ ((run (initial hw) js).motor_state = REWIND →
        (run (initial hw) js).positionFile = FStream.closed
        ∧ positionLines (tickEvents i (run (initial hw) js)) = []) := by
  have hf := run_positionFile_of_visited_IDLE is (initial hw) (initial_inRange hw) h
  refine ⟨rfl, tick_positionFile i _ (reachable_inRange hw js), hf,
    positionLines_tickEvents_of_not_writable i _ (reachable_inRange hw is) hf,
    positionLines_runEvents_of_not_writable js _ (reachable_inRange hw is) hf, ?_⟩
  intro hr
  have hc : (run (initial hw) js).positionFile = FStream.closed := by
    rw [← core_positionFile, core_run _ _ (initial_inRange hw)]
    apply coreRun_rewind_closed js _ (initial_Inv hw)
    · intro h0
      rw [core_initial] at h0
      exact absurd h0 (by decide)
    · rw [← core_run _ _ (initial_inRange hw)]
      exact hr
  exact ⟨hc, positionLines_tickEvents_of_not_writable i _ (reachable_inRange hw js)
    (by rw [hc]; rfl)⟩

set_option maxRecDepth 1000000 in
/-- C30 at the end of the first raster of size 1 followed by the rewind
command: IDLE has been visited, the REWIND iteration writes no position record,
and neither does the whole second scan of size 1. -/
theorem C30_position_log_stops_after_idle_witness :
    positionLines
        (tickEvents (reads 1 2) (run (initial lowLines) (firstRaster ++ [reads 1 2]))) = []
    ∧ positionLines
        (runEvents (run (initial lowLines) (firstRaster ++ [reads 1 2]))
          ([reads 1 2, reads 1 0] ++ List.replicate 17 (reads 1 0))) = [] := by
  have hv : IDLE ∈ visited (initial lowLines) (firstRaster ++ [reads 1 2]) := by
    rw [visited_eq _ _ (initial_inRange lowLines), core_initial]
    decide
  have h := C30_position_log_stops_after_idle lowLines (firstRaster ++ [reads 1 2])
    ([reads 1 2, reads 1 0] ++ List.replicate 17 (reads 1 0)) (reads 1 2) hv
  exact ⟨h.2.2.2.1, h.2.2.2.2.1⟩



/-! ## Line levels along a trace -/

theorem replay_nil (l : Lines) : replay l [] = l := rfl

theorem replay_cons (l : Lines) (e : Event) (evs : List Event) :
    replay l (e :: evs) = replay (writeLine l e) evs := rfl

theorem replay_append (l : Lines) (a b : List Event) :
    replay l (a ++ b) = replay (replay l a) b := by
  simp [replay, List.foldl_append]

theorem replay_pulseEvents (l : Lines) (pin : Pin) :
    replay l (pulseEvents pin) = l.set pin false := by
  simp [replay, pulseEvents, writeLine]

theorem replay_positionEvents (l : Lines) (f : FStream) (x y : Nat) :
    replay l (positionEvents f x y) = l := by
  unfold positionEvents
  split <;> rfl

theorem replay_timingEvents (l : Lines) (f : FStream) (a b : timespec) :
    replay l (timingEvents f a b) = l := by
  unfold timingEvents
  split <;> rfl

theorem replay_ite_positionEvents (l : Lines) (c : Prop) [Decidable c] (f : FStream)
    (x y : Nat) : replay l (if c then positionEvents f x y else []) = l := by
  split
  · exact replay_positionEvents l f x y
  · rfl

theorem replay_upEvents (f : FStream) (y : Nat) (n : Nat) : ∀ (x : Nat) (l : Lines),
    replay l (upEvents f y x n) = pulsedLines Pin.pulX n l := by
  induction n with
  | zero => intro x l; rfl
  | succ n ih =>
    intro x l
    rw [upEvents, replay_append, replay_append, replay_pulseEvents,
      replay_ite_positionEvents, ih, pulsedLines_set, pulsedLines_succ]

theorem replay_downEvents (f : FStream) (y : Nat) (x : Nat) : ∀ l : Lines,
    replay l (downEvents f y x) = pulsedLines Pin.pulX x l := by
  induction x with
  | zero => intro l; rfl
  | succ n ih =>
    intro l
    rw [downEvents, replay_append, replay_append, replay_pulseEvents,
      replay_ite_positionEvents, ih, pulsedLines_set, pulsedLines_succ]

theorem replay_yUpEvents (f : FStream) (x : Nat) (n : Nat) : ∀ (y : Nat) (l : Lines),
    replay l (yUpEvents f x y n) = pulsedLines Pin.pulY n l := by
  induction n with
  | zero => intro y l; rfl
  | succ n ih =>
    intro y l
    rw [yUpEvents, replay_append, replay_append, replay_pulseEvents,
      replay_ite_positionEvents, ih, pulsedLines_set, pulsedLines_succ]

theorem replay_rewindYEvents (f : FStream) (x y : Nat) (n : Nat) : ∀ l : Lines,
    replay l (rewindYEvents f x y n) = pulsedLines Pin.pulY n l := by
  induction n with
  | zero => intro l; rfl
  | succ n ih =>
    intro l
    rw [rewindYEvents, replay_append, replay_append, replay_pulseEvents,
      replay_ite_positionEvents, ih, pulsedLines_set, pulsedLines_succ]

theorem replay_rewindXEvents (n : Nat) : ∀ l : Lines,
    replay l (rewindXEvents n) = pulsedLines Pin.pulX n l := by
  induction n with
  | zero => intro l; rfl
  | succ n ih =>
    intro l
    rw [rewindXEvents, replay_append, replay_pulseEvents, ih, pulsedLines_set,
      pulsedLines_succ]

theorem replay_completeEvents (l : Lines) (c : Prop) [Decidable c] (f : FStream)
    (a b : timespec) :
    replay l (if c then timingEvents f a b ++ [Event.time_scp] else []) = l := by
  split
  · rw [replay_append, replay_timingEvents]
    rfl
  · rfl

/-! ### The line levels after each case of the switch -/

theorem tickREADY_lines (i : Input) (s : Ctl) :
    (tickREADY i s).lines = (s.lines.set Pin.enaX false).set Pin.enaY false := by
  simp only [tickREADY, readyStart, deriveRows, setRows, readSize_eq, readCommand_eq,
    readFileName_eq, setValue]
  split_ifs <;> rfl

theorem tickIDLE_lines (i : Input) (s : Ctl) :
    (tickIDLE i s).lines = (s.lines.set Pin.enaX false).set Pin.enaY false := by
  simp only [tickIDLE, readCommand_eq, setValue]
  split_ifs <;> rfl

theorem tickPOSITIVE_X_lines (i : Input) (s : Ctl) :
    (tickPOSITIVE_X i s).lines =
      (pulsedLines Pin.pulX (MAX_X_POSITION - s.x_position)
        (((s.lines.set Pin.enaY false).set Pin.enaX true).set Pin.dirX false)).set
        Pin.enaX false := by
  simp only [tickPOSITIVE_X, posXExit, posXComplete, posXRow, posXSweep_eq, posXEntry,
    readCommand_eq, timingWrite_eq, setValue]
  split_ifs <;> rfl

theorem tickNEGATIVE_X_lines (i : Input) (s : Ctl) (h : s.x_position < UINT32) :
    (tickNEGATIVE_X i s).lines =
      (pulsedLines Pin.pulX s.x_position
        (((s.lines.set Pin.enaY false).set Pin.enaX true).set Pin.dirX true)).set
        Pin.enaX false := by
  have hE : (negXEntry i s).x_position < UINT32 := by
    simpa [negXEntry, readCommand_eq, timingWrite_eq, setValue] using h
  simp only [tickNEGATIVE_X, negXExit, negXSweep_eq _ hE]
  simp only [negXEntry, readCommand_eq, timingWrite_eq, setValue]
  split_ifs <;> rfl

theorem tickPOSITIVE_Y_lines (i : Input) (s : Ctl) (h : s.y_position < UINT32) :
    (tickPOSITIVE_Y i s).lines =
      (pulsedLines Pin.pulY MAX_Y_POSITION
        (((s.lines.set Pin.enaX false).set Pin.enaY true).set Pin.dirY false)).set
        Pin.enaY false := by
  have hE : (posYEntry i s).y_position < UINT32 := by
    simpa [posYEntry, readCommand_eq, timingWrite_eq, setValue] using h
  simp only [tickPOSITIVE_Y, posYExit, posYStep_eq _ hE]
  simp only [posYEntry, readCommand_eq, timingWrite_eq, setValue]
  split_ifs <;> rfl

theorem tickNEGATIVE_Y_lines (s : Ctl) :
    (tickNEGATIVE_Y s).lines =
      (((s.lines.set Pin.enaX false).set Pin.enaY true).set Pin.dirY true).set
        Pin.pulY false := by
  simp [tickNEGATIVE_Y, pulse_eq, setValue]

theorem tickREWIND_lines (s : Ctl) (h : s.x_position < UINT32) :
    (tickREWIND s).lines = lowLines := by
  have hE : (rewindSwitch (rewindYTrain (rewindEntry s))).x_position < UINT32 := by
    simpa [rewindSwitch, rewindYTrain_eq, rewindEntry, setValue] using h
  simp only [tickREWIND, rewindExit, rewindXTrain_eq _ hE]
  simp [rewindSwitch, rewindYTrain_eq, rewindEntry, setValue, Lines.set, lowLines]

/-- The line levels of the state follow the line writes of the trace: after an
iteration they are the levels before it, changed by the writes of the
iteration in order. -/
theorem tick_lines (i : Input) (s : Ctl) (h : s.inRange) :
    (tick i s).lines = replay s.lines (tickEvents i s) := by
  cases hs : s.motor_state with
  | READY =>
    rw [tickEvents_of_trace i s _
      ((congrArg Ctl.trace (tick_READY i s hs)).trans (tickREADY_trace i s)),
      tick_READY i s hs, tickREADY_lines, replay_append]
    split <;> rfl
  | IDLE =>
    rw [tickEvents_of_trace i s _
      ((congrArg Ctl.trace (tick_IDLE i s hs)).trans (tickIDLE_trace i s)),
      tick_IDLE i s hs, tickIDLE_lines]
    rfl
  | POSITIVE_X =>
    rw [tickEvents_of_trace i s _
      ((congrArg Ctl.trace (tick_POSITIVE_X i s hs)).trans (tickPOSITIVE_X_trace i s)),
      tick_POSITIVE_X i s hs, tickPOSITIVE_X_lines]
    simp only [replay_append, replay_timingEvents, replay_upEvents, replay_completeEvents]
    rfl
  | NEGATIVE_X =>
    rw [tickEvents_of_trace i s _
      ((congrArg Ctl.trace (tick_NEGATIVE_X i s hs)).trans (tickNEGATIVE_X_trace i s h.1)),
      tick_NEGATIVE_X i s hs, tickNEGATIVE_X_lines i s h.1]
    simp only [replay_append, replay_timingEvents, replay_downEvents]
    rfl
  | POSITIVE_Y =>
    rw [tickEvents_of_trace i s _
      ((congrArg Ctl.trace (tick_POSITIVE_Y i s hs)).trans (tickPOSITIVE_Y_trace i s h.2)),
      tick_POSITIVE_Y i s hs, tickPOSITIVE_Y_lines i s h.2]
    simp only [replay_append, replay_timingEvents, replay_yUpEvents]
    rfl
  | NEGATIVE_Y =>
    rw [tickEvents_of_trace i s _
      ((congrArg Ctl.trace (tick_NEGATIVE_Y i s hs)).trans (tickNEGATIVE_Y_trace s)),
      tick_NEGATIVE_Y i s hs, tickNEGATIVE_Y_lines, replay_append, replay_pulseEvents]
    rfl
  | REWIND =>
    rw [tickEvents_of_trace i s _
      ((congrArg Ctl.trace (tick_REWIND i s hs)).trans (tickREWIND_trace s h.1)),
      tick_REWIND i s hs, tickREWIND_lines s h.1]
    simp only [replay_append, replay_rewindYEvents, replay_rewindXEvents]
    simp [replay, writeLine, Lines.set, lowLines]



/-! ## C29 -/

theorem pulsedLines_opto (p : Pin) (n : Nat) (l : Lines) (hp : p = Pin.pulX ∨ p = Pin.pulY) :
    (pulsedLines p n l).optoX = l.optoX ∧ (pulsedLines p n l).optoY = l.optoY := by
  unfold pulsedLines
  rcases hp with rfl | rfl <;> split <;> exact ⟨rfl, rfl⟩

/-- Only REWIND changes the opto lines, and it leaves them LOW. -/
theorem tick_opto (i : Input) (s : Ctl) (h : s.inRange) :
    (tick i s).lines.optoX = (if s.motor_state = REWIND then false else s.lines.optoX)
    ∧ (tick i s).lines.optoY = (if s.motor_state = REWIND then false else s.lines.optoY) := by
  cases hs : s.motor_state with
  | READY =>
    rw [tick_READY i s hs, tickREADY_lines]
    exact ⟨rfl, rfl⟩
  | IDLE =>
    rw [tick_IDLE i s hs, tickIDLE_lines]
    exact ⟨rfl, rfl⟩
  | POSITIVE_X =>
    rw [tick_POSITIVE_X i s hs, tickPOSITIVE_X_lines]
    have hp := pulsedLines_opto Pin.pulX (MAX_X_POSITION - s.x_position)
      (((s.lines.set Pin.enaY false).set Pin.enaX true).set Pin.dirX false) (Or.inl rfl)
    exact ⟨hp.1, hp.2⟩
  | NEGATIVE_X =>
    rw [tick_NEGATIVE_X i s hs, tickNEGATIVE_X_lines i s h.1]
    have hp := pulsedLines_opto Pin.pulX s.x_position
      (((s.lines.set Pin.enaY false).set Pin.enaX true).set Pin.dirX true) (Or.inl rfl)
    exact ⟨hp.1, hp.2⟩
  | POSITIVE_Y =>
    rw [tick_POSITIVE_Y i s hs, tickPOSITIVE_Y_lines i s h.2]
    have hp := pulsedLines_opto Pin.pulY MAX_Y_POSITION
      (((s.lines.set Pin.enaX false).set Pin.enaY true).set Pin.dirY false) (Or.inr rfl)
    exact ⟨hp.1, hp.2⟩
  | NEGATIVE_Y =>
    rw [tick_NEGATIVE_Y i s hs, tickNEGATIVE_Y_lines]
    exact ⟨rfl, rfl⟩
  | REWIND =>
    rw [tick_REWIND i s hs, tickREWIND_lines s h.1]
    exact ⟨rfl, rfl⟩

theorem run_opto (is : List Input) : ∀ s : Ctl, s.inRange →
    (run s is).lines.optoX = (if REWIND ∈ visited s is then false else s.lines.optoX)
    ∧ (run s is).lines.optoY = (if REWIND ∈ visited s is then false else s.lines.optoY) := by
  induction is with
  | nil => intro s _; simp [run, visited]
  | cons i is ih =>
    intro s h
    obtain ⟨h1, h2⟩ := ih (tick i s) (tick_inRange i s h)
    obtain ⟨t1, t2⟩ := tick_opto i s h
    rw [run, visited, h1, h2, t1, t2]
    by_cases hs : s.motor_state = REWIND
    · simp [hs]
    · have hne : ¬ REWIND = s.motor_state := fun e => hs e.symm
      simp [hs, hne]

/-- No iteration writes HIGH to an opto line. -/
theorem opto_not_written_high (i : Input) (s : Ctl) (h : s.inRange) :
    pulses Pin.optoX (tickEvents i s) = 0 ∧ pulses Pin.optoY (tickEvents i s) = 0 := by
  cases hs : s.motor_state with
  | READY =>
    rw [tickEvents_of_trace i s _
      ((congrArg Ctl.trace (tick_READY i s hs)).trans (tickREADY_trace i s))]
    constructor <;> split <;> simp [pulses_append, pulses_setValue, pulses_nil, pulses]
  | IDLE =>
    rw [tickEvents_of_trace i s _
      ((congrArg Ctl.trace (tick_IDLE i s hs)).trans (tickIDLE_trace i s))]
    constructor <;> simp [pulses_setValue, pulses_nil]
  | POSITIVE_X =>
    rw [tickEvents_of_trace i s _
      ((congrArg Ctl.trace (tick_POSITIVE_X i s hs)).trans (tickPOSITIVE_X_trace i s))]
    constructor <;>
      simp [pulses_append, pulses_timingEvents, pulses_upEvents, pulses_completeEvents,
        pulses_setValue, pulses_nil]
  | NEGATIVE_X =>
    rw [tickEvents_of_trace i s _
      ((congrArg Ctl.trace (tick_NEGATIVE_X i s hs)).trans (tickNEGATIVE_X_trace i s h.1))]
    constructor <;>
      simp [pulses_append, pulses_timingEvents, pulses_downEvents, pulses_setValue,
        pulses_nil]
  | POSITIVE_Y =>
    rw [tickEvents_of_trace i s _
      ((congrArg Ctl.trace (tick_POSITIVE_Y i s hs)).trans (tickPOSITIVE_Y_trace i s h.2))]
    constructor <;>
      simp [pulses_append, pulses_timingEvents, pulses_yUpEvents, pulses_setValue,
        pulses_nil]
  | NEGATIVE_Y =>
    rw [tickEvents_of_trace i s _
      ((congrArg Ctl.trace (tick_NEGATIVE_Y i s hs)).trans (tickNEGATIVE_Y_trace s))]
    constructor <;> simp [pulses_append, pulses_pulseEvents, pulses_setValue, pulses_nil]
  | REWIND =>
    rw [tickEvents_of_trace i s _
      ((congrArg Ctl.trace (tick_REWIND i s hs)).trans (tickREWIND_trace s h.1))]
    constructor <;>
      simp [pulses_append, pulses_rewindYEvents, pulses_rewindXEvents, pulses_setValue,
        pulses_nil]

theorem posXBody_opto (s : Ctl) :
    (posXBody s).lines.optoX = s.lines.optoX ∧ (posXBody s).lines.optoY = s.lines.optoY := by
  simp only [posXBody, pulse_eq, positionWrite_eq]
  split <;> exact ⟨rfl, rfl⟩

theorem negXBody_opto (s : Ctl) :
    (negXBody s).lines.optoX = s.lines.optoX ∧ (negXBody s).lines.optoY = s.lines.optoY := by
  simp only [negXBody, pulse_eq, positionWrite_eq]
  split <;> exact ⟨rfl, rfl⟩

theorem rewindXBody_opto (s : Ctl) :
    (rewindXBody s).lines.optoX = s.lines.optoX
    ∧ (rewindXBody s).lines.optoY = s.lines.optoY := by
  simp only [rewindXBody, pulse_eq]
  exact ⟨rfl, rfl⟩

/-- The opto lines keep their levels during the X pulse loop of an iteration. -/
theorem midSweep_opto (i : Input) (s : Ctl) (k : Nat) :
    (midSweep i s k).lines.optoX = s.lines.optoX
    ∧ (midSweep i s k).lines.optoY = s.lines.optoY := by
  unfold midSweep
  split
  · rw [whileLoop_frame (fun t => t.lines.optoX) _ _ (fun t => (posXBody_opto t).1),
      whileLoop_frame (fun t => t.lines.optoY) _ _ (fun t => (posXBody_opto t).2)]
    simp [posXEntry, readCommand_eq, timingWrite_eq, setValue, Lines.set]
  · rw [whileLoop_frame (fun t => t.lines.optoX) _ _ (fun t => (negXBody_opto t).1),
      whileLoop_frame (fun t => t.lines.optoY) _ _ (fun t => (negXBody_opto t).2)]
    simp [negXEntry, readCommand_eq, timingWrite_eq, setValue, Lines.set]
  · rw [whileLoop_frame (fun t => t.lines.optoX) _ _ (fun t => (rewindXBody_opto t).1),
      whileLoop_frame (fun t => t.lines.optoY) _ _ (fun t => (rewindXBody_opto t).2)]
    have hp := pulsedLines_opto Pin.pulY (s.NUM_ROWS * MAX_Y_POSITION)
      (((s.lines.set Pin.enaX false).set Pin.enaY true).set Pin.dirY true) (Or.inr rfl)
    simp only [rewindSwitch, rewindYTrain_eq, rewindEntry, setValue]
    exact ⟨hp.1, hp.2⟩
  · exact ⟨rfl, rfl⟩

/-- C29 (the opto lines are never re-enabled): optoX and optoY are HIGH in the
initial state.  In every state reached from it, they are both LOW if a REWIND
iteration has run and both HIGH if none has; they keep their levels during the
X pulse loop of every iteration; and no iteration writes HIGH to either
line. -/
theorem C29_opto_never_reenabled (hw : Lines) (is : List Input) (i : Input) (k : Nat) :
    (initial hw).lines.optoX = true
    ∧ (initial hw).lines.optoY = true
    ∧ (if REWIND ∈ visited (initial hw) is then
        (run (initial hw) is).lines.optoX = false ∧ (run (initial hw) is).lines.optoY = false
       else
        (run (initial hw) is).lines.optoX = true ∧ (run (initial hw) is).lines.optoY = true)
    ∧ (midSweep i (run (initial hw) is) k).lines.optoX = (run (initial hw) is).lines.optoX
    ∧ (midSweep i (run (initial hw) is) k).lines.optoY = (run (initial hw) is).lines.optoY
    ∧ (tickEvents i (run (initial hw) is)).count (Event.setValue Pin.optoX true) = 0
    ∧ (tickEvents i (run (initial hw) is)).count (Event.setValue Pin.optoY true) = 0 := by
  have hX : (initial hw).lines.optoX = true := by cases hw; rfl
  have hY : (initial hw).lines.optoY = true := by cases hw; rfl
  obtain ⟨h1, h2⟩ := run_opto is (initial hw) (initial_inRange hw)
  obtain ⟨m1, m2⟩ := midSweep_opto i (run (initial hw) is) k
  obtain ⟨p1, p2⟩ := opto_not_written_high i (run (initial hw) is) (reachable_inRange hw is)
  refine ⟨hX, hY, ?_, m1, m2, p1, p2⟩
  rw [h1, h2, hX, hY]
  split <;> simp



/-! ## C25 -/

theorem wellFormed_append (dir : Bool) (a b : List Event) : ∀ l : Lines,
    wellFormed dir l (a ++ b) = (wellFormed dir l a && wellFormed dir (replay l a) b) := by
  induction a with
  | nil => intro l; simp [wellFormed, replay]
  | cons e a ih =>
    intro l
    cases e with
    | setValue pin v =>
      show (okWrite dir l pin v && wellFormed dir (l.set pin v) (a ++ b))
        = (okWrite dir l pin v && wellFormed dir (l.set pin v) a
            && wellFormed dir (replay (l.set pin v) a) b)
      rw [ih, Bool.and_assoc]
    | positionLine x y => exact ih l
    | timingLine a b => exact ih l
    | run_camera z n => exact ih l
    | time_scp => exact ih l

theorem wellFormed_positionEvents (dir : Bool) (l : Lines) (f : FStream) (x y : Nat) :
    wellFormed dir l (positionEvents f x y) = true := by
  unfold positionEvents
  split <;> rfl

theorem wellFormed_timingEvents (dir : Bool) (l : Lines) (f : FStream) (a b : timespec) :
    wellFormed dir l (timingEvents f a b) = true := by
  unfold timingEvents
  split <;> rfl

theorem wellFormed_ite_positionEvents (dir : Bool) (l : Lines) (c : Prop) [Decidable c]
    (f : FStream) (x y : Nat) :
    wellFormed dir l (if c then positionEvents f x y else []) = true := by
  split
  · exact wellFormed_positionEvents dir l f x y
  · rfl

theorem wellFormed_completeEvents (dir : Bool) (l : Lines) (c : Prop) [Decidable c]
    (f : FStream) (a b : timespec) :
    wellFormed dir l (if c then timingEvents f a b ++ [Event.time_scp] else []) = true := by
  split
  · rw [wellFormed_append, wellFormed_timingEvents]
    rfl
  · rfl

theorem wellFormed_pulseX (dir : Bool) (l : Lines) (h1 : l.enaX = true)
    (h2 : l.enaY = false) (h3 : l.dirX = dir) :
    wellFormed dir l (pulseEvents Pin.pulX) = true := by
  cases l
  simp only at h1 h2 h3
  subst h1 h2 h3
  simp [wellFormed, okWrite, pulseEvents, Lines.set]

theorem wellFormed_pulseY (dir : Bool) (l : Lines) (h1 : l.enaY = true)
    (h2 : l.enaX = false) (h3 : l.dirY = dir) :
    wellFormed dir l (pulseEvents Pin.pulY) = true := by
  cases l
  simp only at h1 h2 h3
  subst h1 h2 h3
  simp [wellFormed, okWrite, pulseEvents, Lines.set]

theorem wellFormed_upEvents (dir : Bool) (f : FStream) (y : Nat) (n : Nat) :
    ∀ (x : Nat) (l : Lines), l.enaX = true → l.enaY = false → l.dirX = dir →
    wellFormed dir l (upEvents f y x n) = true := by
  induction n with
  | zero => intro x l _ _ _; rfl
  | succ n ih =>
    intro x l h1 h2 h3
    rw [upEvents, wellFormed_append, wellFormed_append, wellFormed_pulseX dir l h1 h2 h3,
      wellFormed_ite_positionEvents, replay_append, replay_pulseEvents,
      replay_ite_positionEvents, ih (x + 1) (l.set Pin.pulX false) h1 h2 h3]
    rfl

theorem wellFormed_downEvents (dir : Bool) (f : FStream) (y : Nat) (x : Nat) :
    ∀ l : Lines, l.enaX = true → l.enaY = false → l.dirX = dir →
    wellFormed dir l (downEvents f y x) = true := by
  induction x with
  | zero => intro l _ _ _; rfl
  | succ n ih =>
    intro l h1 h2 h3
    rw [downEvents, wellFormed_append, wellFormed_append, wellFormed_pulseX dir l h1 h2 h3,
      wellFormed_ite_positionEvents, replay_append, replay_pulseEvents,
      replay_ite_positionEvents, ih (l.set Pin.pulX false) h1 h2 h3]
    rfl

theorem wellFormed_rewindXEvents (dir : Bool) (n : Nat) :
    ∀ l : Lines, l.enaX = true → l.enaY = false → l.dirX = dir →
    wellFormed dir l (rewindXEvents n) = true := by
  induction n with
  | zero => intro l _ _ _; rfl
  | succ n ih =>
    intro l h1 h2 h3
    rw [rewindXEvents, wellFormed_append, wellFormed_pulseX dir l h1 h2 h3,
      replay_pulseEvents, ih (l.set Pin.pulX false) h1 h2 h3]
    rfl

theorem wellFormed_yUpEvents (dir : Bool) (f : FStream) (x : Nat) (n : Nat) :
    ∀ (y : Nat) (l : Lines), l.enaY = true → l.enaX = false → l.dirY = dir →
    wellFormed dir l (yUpEvents f x y n) = true := by
  induction n with
  | zero => intro y l _ _ _; rfl
  | succ n ih =>
    intro y l h1 h2 h3
    rw [yUpEvents, wellFormed_append, wellFormed_append, wellFormed_pulseY dir l h1 h2 h3,
      wellFormed_ite_positionEvents, replay_append, replay_pulseEvents,
      replay_ite_positionEvents, ih _ (l.set Pin.pulY false) h1 h2 h3]
    rfl

theorem wellFormed_rewindYEvents (dir : Bool) (f : FStream) (x y : Nat) (n : Nat) :
    ∀ l : Lines, l.enaY = true → l.enaX = false → l.dirY = dir →
    wellFormed dir l (rewindYEvents f x y n) = true := by
  induction n with
  | zero => intro l _ _ _; rfl
  | succ n ih =>
    intro l h1 h2 h3
    rw [rewindYEvents, wellFormed_append, wellFormed_append,
      wellFormed_pulseY dir l h1 h2 h3, wellFormed_ite_positionEvents, replay_append,
      replay_pulseEvents, replay_ite_positionEvents, ih (l.set Pin.pulY false) h1 h2 h3]
    rfl

theorem pulsedLines_ena_dir (p : Pin) (n : Nat) (l : Lines)
    (hp : p = Pin.pulX ∨ p = Pin.pulY) :
    (pulsedLines p n l).enaX = l.enaX ∧ (pulsedLines p n l).enaY = l.enaY
    ∧ (pulsedLines p n l).dirX = l.dirX ∧ (pulsedLines p n l).dirY = l.dirY := by
  unfold pulsedLines
  rcases hp with rfl | rfl <;> split <;> exact ⟨rfl, rfl, rfl, rfl⟩

theorem wellFormed_lowWrite (dir : Bool) (l : Lines) (pin : Pin)
    (h : pin = Pin.enaX ∨ pin = Pin.enaY) :
    wellFormed dir l [Event.setValue pin false] = true := by
  rcases h with rfl | rfl <;> simp [wellFormed, okWrite, Lines.set]

/-- The line writes of an X sweep are in order: the set-up, the pulses with
enaX HIGH, enaY LOW and dirX at `dir`, and the write of enaX LOW. -/
theorem wellFormed_xSweep (dir : Bool) (l : Lines) (mid train tail : List Event)
    (hmid : ∀ m : Lines, wellFormed dir m mid = true ∧ replay m mid = m)
    (htail : ∀ m : Lines, wellFormed dir m tail = true ∧ replay m tail = m)
    (htrain : ∀ m : Lines, m.enaX = true → m.enaY = false → m.dirX = dir →
      wellFormed dir m train = true) :
    wellFormed dir l
      ([Event.setValue Pin.enaY false, Event.setValue Pin.enaX true,
          Event.setValue Pin.dirX dir] ++ mid ++ train ++ tail
        ++ [Event.setValue Pin.enaX false]) = true := by
  have h0 : wellFormed dir l [Event.setValue Pin.enaY false, Event.setValue Pin.enaX true,
      Event.setValue Pin.dirX dir] = true := by
    simp [wellFormed, okWrite, Lines.set]
  rw [wellFormed_append, wellFormed_append, wellFormed_append, wellFormed_append, h0,
    (hmid _).1, replay_append, (hmid _).2, (htail _).1,
    htrain _ rfl rfl rfl, wellFormed_lowWrite dir _ Pin.enaX (Or.inl rfl)]
  rfl

/-- The line writes of a Y step are in order. -/
theorem wellFormed_yStep (dir : Bool) (l : Lines) (mid train tail : List Event)
    (hmid : ∀ m : Lines, wellFormed dir m mid = true ∧ replay m mid = m)
    (htail : ∀ m : Lines, wellFormed dir m tail = true ∧ replay m tail = m)
    (htrain : ∀ m : Lines, m.enaY = true → m.enaX = false → m.dirY = dir →
      wellFormed dir m train = true) :
    wellFormed dir l
      ([Event.setValue Pin.enaX false, Event.setValue Pin.enaY true,
          Event.setValue Pin.dirY dir] ++ mid ++ train ++ tail
        ++ [Event.setValue Pin.enaY false]) = true := by
  have h0 : wellFormed dir l [Event.setValue Pin.enaX false, Event.setValue Pin.enaY true,
      Event.setValue Pin.dirY dir] = true := by
    simp [wellFormed, okWrite, Lines.set]
  rw [wellFormed_append, wellFormed_append, wellFormed_append, wellFormed_append, h0,
    (hmid _).1, replay_append, (hmid _).2, (htail _).1,
    htrain _ rfl rfl rfl, wellFormed_lowWrite dir _ Pin.enaY (Or.inr rfl)]
  rfl


/-- The line writes of every iteration, made from the levels of the state in
which it starts, are in order, whatever the state. -/
theorem wellFormed_tickEvents (i : Input) (s : Ctl) (h : s.inRange) :
    wellFormed (expectedDir s.motor_state) s.lines (tickEvents i s) = true := by
  have hT : ∀ (d : Bool) (f : FStream) (a b : timespec) (m : Lines),
      wellFormed d m (timingEvents f a b) = true ∧ replay m (timingEvents f a b) = m :=
    fun d f a b m => ⟨wellFormed_timingEvents d m f a b, replay_timingEvents m f a b⟩
  cases hs : s.motor_state with
  | READY =>
    rw [tickEvents_of_trace i s _
      ((congrArg Ctl.trace (tick_READY i s hs)).trans (tickREADY_trace i s)),
      wellFormed_append]
    split <;> simp [wellFormed, okWrite, Lines.set]
  | IDLE =>
    rw [tickEvents_of_trace i s _
      ((congrArg Ctl.trace (tick_IDLE i s hs)).trans (tickIDLE_trace i s))]
    simp [wellFormed, okWrite, Lines.set]
  | POSITIVE_X =>
    rw [tickEvents_of_trace i s _
      ((congrArg Ctl.trace (tick_POSITIVE_X i s hs)).trans (tickPOSITIVE_X_trace i s))]
    have key := wellFormed_xSweep false s.lines
      (timingEvents s.timeInfo s.start i.clk1)
      (upEvents s.positionFile s.y_position s.x_position (MAX_X_POSITION - s.x_position))
      (timingEvents s.timeInfo s.start i.clk2
        ++ (if (corePOSITIVE_X i s.core).num_comp_rows = s.NUM_ROWS then
              timingEvents s.timeInfo s.start i.clk3 ++ [Event.time_scp]
            else []))
      (hT false _ _ _)
      (fun m => by
        rw [wellFormed_append, wellFormed_timingEvents, replay_append,
          replay_timingEvents, wellFormed_completeEvents, replay_completeEvents]
        exact ⟨rfl, rfl⟩)
      (fun m h1 h2 h3 => wellFormed_upEvents false _ _ _ _ m h1 h2 h3)
    simpa only [List.append_assoc, expectedDir] using key
  | NEGATIVE_X =>
    rw [tickEvents_of_trace i s _
      ((congrArg Ctl.trace (tick_NEGATIVE_X i s hs)).trans (tickNEGATIVE_X_trace i s h.1))]
    exact wellFormed_xSweep true s.lines _ _ _ (hT true _ _ _) (hT true _ _ _)
      (fun m h1 h2 h3 => wellFormed_downEvents true _ _ _ m h1 h2 h3)
  | POSITIVE_Y =>
    rw [tickEvents_of_trace i s _
      ((congrArg Ctl.trace (tick_POSITIVE_Y i s hs)).trans (tickPOSITIVE_Y_trace i s h.2))]
    exact wellFormed_yStep false s.lines _ _ _ (hT false _ _ _) (hT false _ _ _)
      (fun m h1 h2 h3 => wellFormed_yUpEvents false _ _ _ _ m h1 h2 h3)
  | NEGATIVE_Y =>
    rw [tickEvents_of_trace i s _
      ((congrArg Ctl.trace (tick_NEGATIVE_Y i s hs)).trans (tickNEGATIVE_Y_trace s))]
    simp [wellFormed, okWrite, pulseEvents, Lines.set, expectedDir]
  | REWIND =>
    rw [tickEvents_of_trace i s _
      ((congrArg Ctl.trace (tick_REWIND i s hs)).trans (tickREWIND_trace s h.1))]
    have hp := pulsedLines_ena_dir Pin.pulX s.x_position
      (replay (pulsedLines Pin.pulY (s.NUM_ROWS * MAX_Y_POSITION)
        (replay s.lines [Event.setValue Pin.enaX false, Event.setValue Pin.enaY true,
          Event.setValue Pin.dirY true]))
        [Event.setValue Pin.enaY false, Event.setValue Pin.enaX true,
          Event.setValue Pin.dirX true]) (Or.inl rfl)
    have h0 : wellFormed true s.lines [Event.setValue Pin.enaX false,
        Event.setValue Pin.enaY true, Event.setValue Pin.dirY true] = true := by
      simp [wellFormed, okWrite, Lines.set]
    have h2 : ∀ m : Lines, wellFormed true m [Event.setValue Pin.enaY false,
        Event.setValue Pin.enaX true, Event.setValue Pin.dirX true] = true := by
      intro m
      simp [wellFormed, okWrite, Lines.set]
    have h4 : ∀ m : Lines, m.enaY = false →
        wellFormed true m [Event.setValue Pin.optoX false, Event.setValue Pin.pulX false,
          Event.setValue Pin.dirX false, Event.setValue Pin.enaX false,
          Event.setValue Pin.optoY false, Event.setValue Pin.pulY false,
          Event.setValue Pin.dirY false, Event.setValue Pin.enaY false] = true := by
      intro m hm
      simp [wellFormed, okWrite, Lines.set, hm]
    have hd : expectedDir REWIND = true := rfl
    rw [wellFormed_append, wellFormed_append, wellFormed_append, wellFormed_append]
    simp only [replay_append, replay_rewindYEvents, replay_rewindXEvents]
    rw [hd, h0, wellFormed_rewindYEvents true _ _ _ _ _ rfl rfl rfl, h2,
      wellFormed_rewindXEvents true _ _ rfl rfl rfl, h4 _ (hp.2.1.trans rfl)]
    rfl

/-- Every iteration other than NEGATIVE_Y ends with both drivers disabled. -/
theorem tick_ena_low (i : Input) (s : Ctl) (h : s.inRange)
    (hn : s.motor_state ≠ NEGATIVE_Y) :
    (tick i s).lines.enaX = false ∧ (tick i s).lines.enaY = false := by
  cases hs : s.motor_state with
  | READY =>
    rw [tick_READY i s hs, tickREADY_lines]
    exact ⟨rfl, rfl⟩
  | IDLE =>
    rw [tick_IDLE i s hs, tickIDLE_lines]
    exact ⟨rfl, rfl⟩
  | POSITIVE_X =>
    rw [tick_POSITIVE_X i s hs, tickPOSITIVE_X_lines]
    have hp := pulsedLines_ena_dir Pin.pulX (MAX_X_POSITION - s.x_position)
      (((s.lines.set Pin.enaY false).set Pin.enaX true).set Pin.dirX false) (Or.inl rfl)
    exact ⟨rfl, hp.2.1⟩
  | NEGATIVE_X =>
    rw [tick_NEGATIVE_X i s hs, tickNEGATIVE_X_lines i s h.1]
    have hp := pulsedLines_ena_dir Pin.pulX s.x_position
      (((s.lines.set Pin.enaY false).set Pin.enaX true).set Pin.dirX true) (Or.inl rfl)
    exact ⟨rfl, hp.2.1⟩
  | POSITIVE_Y =>
    rw [tick_POSITIVE_Y i s hs, tickPOSITIVE_Y_lines i s h.2]
    have hp := pulsedLines_ena_dir Pin.pulY MAX_Y_POSITION
      (((s.lines.set Pin.enaX false).set Pin.enaY true).set Pin.dirY false) (Or.inr rfl)
    exact ⟨hp.1, rfl⟩
  | NEGATIVE_Y => exact absurd hs hn
  | REWIND =>
    rw [tick_REWIND i s hs, tickREWIND_lines s h.1]
    exact ⟨rfl, rfl⟩

/-- C25 (well-formed pulses): in every execution from the initial state, the
line levels of each state are those that the line writes of the trace have
left, and the line writes of every iteration are in order: after each write
enaX and enaY are not both HIGH; every pulse on pulX starts with enaX HIGH and
enaY LOW, every pulse on pulY with enaY HIGH and enaX LOW; the direction line of
the pulsed axis is LOW at every pulse of POSITIVE_X and POSITIVE_Y and HIGH at
every pulse of NEGATIVE_X, NEGATIVE_Y and REWIND.  Every iteration ends with
enaX and enaY LOW. -/
theorem C25_well_formed_pulses (hw : Lines) (is : List Input) (i : Input) :
    wellFormed (expectedDir (run (initial hw) is).motor_state) (run (initial hw) is).lines
        (tickEvents i (run (initial hw) is)) = true
    ∧ (tick i (run (initial hw) is)).lines
        = replay (run (initial hw) is).lines (tickEvents i (run (initial hw) is))
    ∧ (tick i (run (initial hw) is)).lines.enaX = false
    ∧ (tick i (run (initial hw) is)).lines.enaY = false
    ∧ expectedDir POSITIVE_X = false ∧ expectedDir POSITIVE_Y = false
    ∧ expectedDir NEGATIVE_X = true ∧ expectedDir NEGATIVE_Y = true
    ∧ expectedDir REWIND = true := by
  have hr := reachable_inRange hw is
  have hn : (run (initial hw) is).motor_state ≠ NEGATIVE_Y := (reachable_Inv hw is).2.2.1
  exact ⟨wellFormed_tickEvents i _ hr, tick_lines i _ hr, (tick_ena_low i _ hr hn).1,
    (tick_ena_low i _ hr hn).2, rfl, rfl, rfl, rfl, rfl⟩



/-! ## C23 -/

theorem Ctl.eq_of_parts (s t : Ctl) (hc : s.core = t.core) (hl : s.lines = t.lines)
    (hn : s.imgFileName = t.imgFileName) (hs : s.start = t.start)
    (ht : s.trace = t.trace) : s = t := by
  cases s
  cases t
  simp only [Ctl.core, Core.mk.injEq] at hc
  simp only at hl hn hs ht
  simp only [Ctl.mk.injEq]
  obtain ⟨h1, h2, h3, h4, h5, h6, h7, h8, h9, h10, h11⟩ := hc
  exact ⟨h1, h2, h3, h4, h5, h6, h7, h8, h9, hn, hs, hl, h10, h11, ht⟩

theorem eventNoClock_idem (e : Event) : e.noClock.noClock = e.noClock := by
  cases e <;> rfl

theorem map_noClock_noClock (evs : List Event) :
    (evs.map Event.noClock).map Event.noClock = evs.map Event.noClock := by
  rw [List.map_map]
  apply List.map_congr_left
  intro e _
  exact eventNoClock_idem e

theorem inputNoClock_idem (i : Input) : i.noClock.noClock = i.noClock := rfl

theorem map_noClock_pulseEvents (pin : Pin) :
    (pulseEvents pin).map Event.noClock = pulseEvents pin := rfl

theorem map_noClock_positionEvents (f : FStream) (x y : Nat) :
    (positionEvents f x y).map Event.noClock = positionEvents f x y := by
  unfold positionEvents
  split <;> rfl

theorem map_noClock_timingEvents (f : FStream) (a b : timespec) :
    (timingEvents f a b).map Event.noClock = timingEvents f ⟨0, 0⟩ ⟨0, 0⟩ := by
  unfold timingEvents
  split <;> rfl

theorem map_noClock_ite_positionEvents (c : Prop) [Decidable c] (f : FStream) (x y : Nat) :
    (if c then positionEvents f x y else []).map Event.noClock
      = if c then positionEvents f x y else [] := by
  split
  · exact map_noClock_positionEvents f x y
  · rfl

theorem map_noClock_upEvents (f : FStream) (y : Nat) (n : Nat) : ∀ x : Nat,
    (upEvents f y x n).map Event.noClock = upEvents f y x n := by
  induction n with
  | zero => intro x; rfl
  | succ n ih =>
    intro x
    rw [upEvents, List.map_append, List.map_append, map_noClock_pulseEvents,
      map_noClock_ite_positionEvents, ih]

theorem map_noClock_downEvents (f : FStream) (y : Nat) (x : Nat) :
    (downEvents f y x).map Event.noClock = downEvents f y x := by
  induction x with
  | zero => rfl
  | succ n ih =>
    rw [downEvents, List.map_append, List.map_append, map_noClock_pulseEvents,
      map_noClock_ite_positionEvents, ih]

theorem map_noClock_yUpEvents (f : FStream) (x : Nat) (n : Nat) : ∀ y : Nat,
    (yUpEvents f x y n).map Event.noClock = yUpEvents f x y n := by
  induction n with
  | zero => intro y; rfl
  | succ n ih =>
    intro y
    rw [yUpEvents, List.map_append, List.map_append, map_noClock_pulseEvents,
      map_noClock_ite_positionEvents, ih]

theorem map_noClock_rewindYEvents (f : FStream) (x y : Nat) (n : Nat) :
    (rewindYEvents f x y n).map Event.noClock = rewindYEvents f x y n := by
  induction n with
  | zero => rfl
  | succ n ih =>
    rw [rewindYEvents, List.map_append, List.map_append, map_noClock_pulseEvents,
      map_noClock_ite_positionEvents, ih]

theorem map_noClock_rewindXEvents (n : Nat) :
    (rewindXEvents n).map Event.noClock = rewindXEvents n := by
  induction n with
  | zero => rfl
  | succ n ih => rw [rewindXEvents, List.map_append, map_noClock_pulseEvents, ih]

theorem map_noClock_completeEvents (c : Prop) [Decidable c] (f : FStream)
    (a b : timespec) :
    (if c then timingEvents f a b ++ [Event.time_scp] else []).map Event.noClock
      = if c then timingEvents f ⟨0, 0⟩ ⟨0, 0⟩ ++ [Event.time_scp] else [] := by
  split
  · rw [List.map_append, map_noClock_timingEvents]
    rfl
  · rfl

theorem replay_map_noClock (evs : List Event) : ∀ l : Lines,
    replay l (evs.map Event.noClock) = replay l evs := by
  induction evs with
  | nil => intro l; rfl
  | cons e evs ih =>
    intro l
    rw [List.map_cons, replay_cons, replay_cons, ih]
    cases e <;> rfl

theorem coreTick_noClock (i : Input) (c : Core) : coreTick i.noClock c = coreTick i c := by
  cases hs : c.motor_state <;> simp only [coreTick, hs] <;> rfl

/-- The events of an iteration, their clock readings aside, do not depend on
the clock readings of the input nor on those held in the state. -/
theorem tickEvents_noClock (i : Input) (s : Ctl) (h : s.inRange) :
    (tickEvents i s).map Event.noClock
      = (tickEvents i.noClock s.noClock).map Event.noClock := by
  have h' : s.noClock.inRange := h
  cases hs : s.motor_state with
  | READY =>
    have hs' : s.noClock.motor_state = READY := hs
    rw [tickEvents_of_trace i s _
        ((congrArg Ctl.trace (tick_READY i s hs)).trans (tickREADY_trace i s)),
      tickEvents_of_trace i.noClock s.noClock _
        ((congrArg Ctl.trace (tick_READY _ _ hs')).trans (tickREADY_trace _ _))]
    rfl
  | IDLE =>
    have hs' : s.noClock.motor_state = IDLE := hs
    rw [tickEvents_of_trace i s _
        ((congrArg Ctl.trace (tick_IDLE i s hs)).trans (tickIDLE_trace i s)),
      tickEvents_of_trace i.noClock s.noClock _
        ((congrArg Ctl.trace (tick_IDLE _ _ hs')).trans (tickIDLE_trace _ _))]
  | POSITIVE_X =>
    have hs' : s.noClock.motor_state = POSITIVE_X := hs
    rw [tickEvents_of_trace i s _
        ((congrArg Ctl.trace (tick_POSITIVE_X i s hs)).trans (tickPOSITIVE_X_trace i s)),
      tickEvents_of_trace i.noClock s.noClock _
        ((congrArg Ctl.trace (tick_POSITIVE_X _ _ hs')).trans (tickPOSITIVE_X_trace _ _))]
    simp only [List.map_append, map_noClock_timingEvents, map_noClock_upEvents,
      map_noClock_completeEvents]
    rfl
  | NEGATIVE_X =>
    have hs' : s.noClock.motor_state = NEGATIVE_X := hs
    rw [tickEvents_of_trace i s _
        ((congrArg Ctl.trace (tick_NEGATIVE_X i s hs)).trans (tickNEGATIVE_X_trace i s h.1)),
      tickEvents_of_trace i.noClock s.noClock _
        ((congrArg Ctl.trace (tick_NEGATIVE_X _ _ hs')).trans
          (tickNEGATIVE_X_trace _ _ h'.1))]
    simp only [List.map_append, map_noClock_timingEvents, map_noClock_downEvents]
    rfl
  | POSITIVE_Y =>
    have hs' : s.noClock.motor_state = POSITIVE_Y := hs
    rw [tickEvents_of_trace i s _
        ((congrArg Ctl.trace (tick_POSITIVE_Y i s hs)).trans (tickPOSITIVE_Y_trace i s h.2)),
      tickEvents_of_trace i.noClock s.noClock _
        ((congrArg Ctl.trace (tick_POSITIVE_Y _ _ hs')).trans
          (tickPOSITIVE_Y_trace _ _ h'.2))]
    simp only [List.map_append, map_noClock_timingEvents, map_noClock_yUpEvents]
    rfl
  | NEGATIVE_Y =>
    have hs' : s.noClock.motor_state = NEGATIVE_Y := hs
    rw [tickEvents_of_trace i s _
        ((congrArg Ctl.trace (tick_NEGATIVE_Y i s hs)).trans (tickNEGATIVE_Y_trace s)),
      tickEvents_of_trace i.noClock s.noClock _
        ((congrArg Ctl.trace (tick_NEGATIVE_Y _ _ hs')).trans (tickNEGATIVE_Y_trace _))]
  | REWIND =>
    have hs' : s.noClock.motor_state = REWIND := hs
    rw [tickEvents_of_trace i s _
        ((congrArg Ctl.trace (tick_REWIND i s hs)).trans (tickREWIND_trace s h.1)),
      tickEvents_of_trace i.noClock s.noClock _
        ((congrArg Ctl.trace (tick_REWIND _ _ hs')).trans (tickREWIND_trace _ h'.1))]
    rfl

/-- Only the start branch of READY assigns `imgFileName`. -/
theorem tick_imgFileName (i : Input) (s : Ctl) (h : s.inRange) :
    (tick i s).imgFileName
      = if s.motor_state = READY ∧ i.com1.getD s.com = 0 then i.fileName.getD s.imgFileName
        else s.imgFileName := by
  by_cases hr : s.motor_state = READY
  · rw [tick_READY i s hr]
    simp only [tickREADY, readyStart, deriveRows, setRows, readSize_eq, readCommand_eq,
      readFileName_eq, setValue, hr, true_and]
    split_ifs <;> rfl
  · rw [if_neg (fun hh => hr hh.1)]
    cases hs : s.motor_state with
    | READY => exact absurd hs hr
    | IDLE =>
      rw [tick_IDLE i s hs]
      simp only [tickIDLE, readCommand_eq, setValue]
      split_ifs <;> rfl
    | POSITIVE_X =>
      rw [tick_POSITIVE_X i s hs]
      simp only [tickPOSITIVE_X, posXExit, posXComplete, posXRow, posXSweep_eq, posXEntry,
        readCommand_eq, timingWrite_eq, setValue]
      split_ifs <;> rfl
    | NEGATIVE_X =>
      rw [tick_NEGATIVE_X i s hs]
      have hE : (negXEntry i s).x_position < UINT32 := by
        simpa [negXEntry, readCommand_eq, timingWrite_eq, setValue] using h.1
      simp only [tickNEGATIVE_X, negXExit, negXSweep_eq _ hE]
      simp only [negXEntry, readCommand_eq, timingWrite_eq, setValue]
      split_ifs <;> rfl
    | POSITIVE_Y =>
      rw [tick_POSITIVE_Y i s hs]
      have hE : (posYEntry i s).y_position < UINT32 := by
        simpa [posYEntry, readCommand_eq, timingWrite_eq, setValue] using h.2
      simp only [tickPOSITIVE_Y, posYExit, posYStep_eq _ hE]
      simp only [posYEntry, readCommand_eq, timingWrite_eq, setValue]
      split_ifs <;> rfl
    | NEGATIVE_Y =>
      rw [tick_NEGATIVE_Y i s hs]
      simp [tickNEGATIVE_Y, pulse_eq, setValue]
    | REWIND =>
      rw [tick_REWIND i s hs]
      have hE : (rewindSwitch (rewindYTrain (rewindEntry s))).x_position < UINT32 := by
        simpa [rewindSwitch, rewindYTrain_eq, rewindEntry, setValue] using h.1
      simp only [tickREWIND, rewindExit, rewindXTrain_eq _ hE]
      simp [rewindSwitch, rewindYTrain_eq, rewindEntry, setValue]

/-- An iteration commutes with forgetting the clock. -/
theorem tick_noClock (i : Input) (s : Ctl) (h : s.inRange) :
    (tick i s).noClock = (tick i.noClock s.noClock).noClock := by
  have h' : s.noClock.inRange := h
  have hE := tickEvents_noClock i s h
  apply Ctl.eq_of_parts
  · show (tick i s).core = (tick i.noClock s.noClock).core
    rw [core_tick i s h, core_tick _ _ h', coreTick_noClock]
    rfl
  · show (tick i s).lines = (tick i.noClock s.noClock).lines
    rw [tick_lines i s h, tick_lines _ _ h', ← replay_map_noClock (tickEvents i s),
      ← replay_map_noClock (tickEvents i.noClock s.noClock), hE]
    rfl
  · show (tick i s).imgFileName = (tick i.noClock s.noClock).imgFileName
    rw [tick_imgFileName i s h, tick_imgFileName _ _ h']
    rfl
  · rfl
  · show (tick i s).trace.map Event.noClock
      = (tick i.noClock s.noClock).trace.map Event.noClock
    rw [(launches_tickEvents i s h).1, (launches_tickEvents _ _ h').1, List.map_append,
      List.map_append, hE]
    show s.trace.map Event.noClock ++ _
      = (s.trace.map Event.noClock).map Event.noClock ++ _
    rw [map_noClock_noClock]

theorem run_noClock (is : List Input) : ∀ (js : List Input) (s t : Ctl),
    s.inRange → t.inRange → s.noClock = t.noClock →
    is.map Input.noClock = js.map Input.noClock →
    (run s is).noClock = (run t js).noClock ∧ visited s is = visited t js := by
  induction is with
  | nil =>
    intro js s t _ _ hst hij
    cases js with
    | nil => exact ⟨hst, rfl⟩
    | cons j js => simp at hij
  | cons i is ih =>
    intro js s t hs ht hst hij
    cases js with
    | nil => simp at hij
    | cons j js =>
      rw [List.map_cons, List.map_cons, List.cons.injEq] at hij
      have hm0 : s.noClock.motor_state = t.noClock.motor_state :=
        congrArg Ctl.motor_state hst
      have hm : s.motor_state = t.motor_state := hm0
      have hstep : (tick i s).noClock = (tick j t).noClock := by
        rw [tick_noClock i s hs, tick_noClock j t ht, hst, hij.1]
      obtain ⟨h1, h2⟩ := ih js (tick i s) (tick j t) (tick_inRange i s hs)
        (tick_inRange j t ht) hstep hij.2
      exact ⟨h1, by rw [visited, visited, h2, hm]⟩

/-- C23 (timing is write-only): two runs from the initial state whose inputs
agree on the size, command and file-name values read, and may differ in every
clock reading, go through the same sequence of states and end in states that
are equal once the clock readings they hold (the variable `start` and the
values of the timing lines of the trace) are forgotten: the same control
variables and counters, the same line levels, and the same trace of line
writes, position records, timing-line positions and process launches. -/
theorem C23_timing_is_write_only (hw : Lines) (is js : List Input)
    (h : is.map Input.noClock = js.map Input.noClock) :
    (run (initial hw) is).noClock = (run (initial hw) js).noClock
    ∧ visited (initial hw) is = visited (initial hw) js
    ∧ (run (initial hw) is).core = (run (initial hw) js).core
    ∧ (run (initial hw) is).lines = (run (initial hw) js).lines
    ∧ (run (initial hw) is).imgFileName = (run (initial hw) js).imgFileName
    ∧ (run (initial hw) is).trace.map Event.noClock
        = (run (initial hw) js).trace.map Event.noClock := by
  obtain ⟨h1, h2⟩ := run_noClock is js (initial hw) (initial hw) (initial_inRange hw)
    (initial_inRange hw) rfl h
  have e1 : (run (initial hw) is).noClock.core = (run (initial hw) js).noClock.core :=
    congrArg Ctl.core h1
  have e2 : (run (initial hw) is).noClock.lines = (run (initial hw) js).noClock.lines :=
    congrArg Ctl.lines h1
  have e3 : (run (initial hw) is).noClock.imgFileName
      = (run (initial hw) js).noClock.imgFileName := congrArg Ctl.imgFileName h1
  have e4 : (run (initial hw) is).noClock.trace = (run (initial hw) js).noClock.trace :=
    congrArg Ctl.trace h1
  exact ⟨h1, h2, e1, e2, e3, e4⟩

/-- C23 at two starts of a scan of size 1 that read the clock at different
times: the same states are visited and the same control variables result. -/
theorem C23_timing_is_write_only_witness :
    visited (initial lowLines) [reads 1 0, reads 1 0]
      = visited (initial lowLines)
          [readsAt 1 0 ⟨5, 0⟩ ⟨6, 0⟩ ⟨7, 0⟩, readsAt 1 0 ⟨8, 100⟩ ⟨31, 7⟩ ⟨31, 9⟩]
    ∧ (run (initial lowLines) [reads 1 0, reads 1 0]).core
      = (run (initial lowLines)
          [readsAt 1 0 ⟨5, 0⟩ ⟨6, 0⟩ ⟨7, 0⟩, readsAt 1 0 ⟨8, 100⟩ ⟨31, 7⟩ ⟨31, 9⟩]).core :=
  ⟨(C23_timing_is_write_only lowLines [reads 1 0, reads 1 0]
      [readsAt 1 0 ⟨5, 0⟩ ⟨6, 0⟩ ⟨7, 0⟩, readsAt 1 0 ⟨8, 100⟩ ⟨31, 7⟩ ⟨31, 9⟩] rfl).2.1,
   (C23_timing_is_write_only lowLines [reads 1 0, reads 1 0]
      [readsAt 1 0 ⟨5, 0⟩ ⟨6, 0⟩ ⟨7, 0⟩, readsAt 1 0 ⟨8, 100⟩ ⟨31, 7⟩ ⟨31, 9⟩] rfl).2.2.1⟩


end SuperStitch
